import Mathlib

/-!
# Suntech ASCII field decoders

A shallow embedding of `st/ascii.go` (package `st` of the suntech tracker
library) together with the pieces it calls: the tokenizer of package `lexer`,
Go's `strconv.ParseUint` and Go's `time.Parse` for the layout `tsLayout`.

A byte is a natural number (the decoders only compare bytes with constants and
do digit arithmetic on them); Go strings and byte slices are lists of bytes.
A Go `error` is an `Option Error`, `nil` being `none`.  Every decoder takes the
tokenizer state and returns its named results together with the new tokenizer
state.
-/

namespace Suntech

/-- The bytes of an ASCII string literal. -/
def bytes (s : String) : List Nat := s.data.map Char.toNat

/-- Go constant `Separator = ';'`. -/
def Separator : Nat := 59

/-- Go constant `EndOfFrame = '\r'`. -/
def EndOfFrame : Nat := 13

/-- The two failure kinds of `strconv`: `ErrSyntax` and `ErrRange`. -/
inductive NumErrKind
  | ErrSyntax
  | ErrRange
  deriving DecidableEq

/-- The errors a decoder can return: the tokenizer's two structural errors, the
package-level sentinel errors of `st/ascii.go` (lines 20-41), the
`*strconv.NumError` of a failed number conversion (`ParseUint` or
`ParseFloat`), the `*time.ParseError` of a
failed `time.Parse`, and the two `fmt.Errorf` values built in `AsciiMode` and
`AsciiMsgType`. -/
inductive Error
  | UnexpectedEndOfInput
  | DelimiterNotFound
  | ErrSeparator
  | ErrEndOfFrame
  | ErrInvalidDevID
  | ErrInvalidModel
  | ErrInvalidSwVer
  | ErrInvalidDate
  | ErrInvalidTime
  | ErrInvalidCell
  | ErrInvalidLat
  | ErrInvalidLng
  | ErrInvalidSpeed
  | ErrInvalidCourse
  | ErrInvalidSatt
  | ErrInvalidFix
  | ErrInvalidDist
  | ErrInvalidPowerVolt
  | ErrInvalidMode
  | ErrInvalidMsgNum
  | ErrInvalidHMeter
  | ErrInvalidMsgType
  | NumError (num : List Nat) (kind : NumErrKind)
  | TimeParseError (value : List Nat)
  | InvalidModeValue (b : Nat)
  | InvalidMsgTypeValue (b : Nat)
  deriving DecidableEq

/-! ## Tokenizer (package `lexer`) -/

/-- Modelled from the spec: the content-class tag of a token (package `lexer`
is not among the sources): plain data, decimal-number-shaped, single
binary-digit-shaped. -/
inductive TokenType
  | DataToken
  | FloatToken
  | BitsToken
  deriving DecidableEq

/-- Modelled from the spec: a token is its raw literal bytes (trailing
delimiter or terminator included) plus the classification tag.  The Go field
`Type` is spelled `Typ` here. -/
structure Token where
  Typ : TokenType
  Literal : List Nat
  deriving DecidableEq

/-- The Go zero value `lexer.Token{}`: an empty literal, with the first tag. -/
def Token.zero : Token := ⟨TokenType.DataToken, []⟩

/-- A decimal digit, '0' to '9'. -/
def isDigit (b : Nat) : Bool := decide (48 ≤ b) && decide (b ≤ 57)

/-- A hexadecimal digit: '0' to '9', 'a' to 'f' or 'A' to 'F'. -/
def isHexDigit (b : Nat) : Bool :=
  isDigit b || (decide (97 ≤ b) && decide (b ≤ 102)) || (decide (65 ≤ b) && decide (b ≤ 70))

/-- Modelled from the spec: the "strip suffix" operation returns the content
of a token, its literal without the trailing byte. -/
def Token.WithoutSuffix (t : Token) : List Nat := t.Literal.dropLast

/-- Modelled from the spec: the derived predicate all-characters-are-digits,
evaluated on the content of the token (so it holds of an empty content). -/
def Token.OnlyDigits (t : Token) : Bool := t.WithoutSuffix.all isDigit

/-- Modelled from the spec: the derived predicate
all-characters-are-hexadecimal-digits, evaluated on the content of the token
(so it holds of an empty content). -/
def Token.IsHex (t : Token) : Bool := t.WithoutSuffix.all isHexDigit

/-- Modelled from the spec: whether the literal ends with the byte `b`, its
trailing delimiter or terminator. -/
def Token.EndsWith (t : Token) (b : Nat) : Bool := t.Literal.getLast? == some b

/-- Modelled from the spec: the signed-decimal-number shape, read as an
optional leading minus, one or more digits, and optionally a single decimal
point followed by one or more digits. -/
def decimalShaped (c : List Nat) : Bool :=
  let body := match c with
    | 45 :: r => r
    | r => r
  let ip := body.takeWhile isDigit
  let rest := body.dropWhile isDigit
  !ip.isEmpty &&
    (match rest with
     | [] => true
     | 46 :: fr => !fr.isEmpty && fr.all isDigit
     | _ => false)

/-- Modelled from the spec: classification performed at extraction time on the
content of the token.  One character drawn from '0', '1' is
binary-digit-shaped; otherwise a signed decimal number is decimal-shaped;
anything else is plain data. -/
def classify (c : List Nat) : TokenType :=
  if c = [48] ∨ c = [49] then TokenType.BitsToken
  else if decimalShaped c then TokenType.FloatToken
  else TokenType.DataToken

/-- The token built by the tokenizer for an extracted literal. -/
def mkToken (lit : List Nat) : Token := ⟨classify lit.dropLast, lit⟩

/-- Modelled from the spec: the tokenizer cursor, a buffer and a position in
it. -/
structure Lexer where
  input : List Nat
  pos : Nat
  deriving DecidableEq

/-- The bytes from the cursor to the end of the buffer. -/
def Lexer.remaining (lex : Lexer) : List Nat := lex.input.drop lex.pos

/-- Modelled from the spec: `read_fixed(width)` consumes exactly `n` bytes
from the current position and advances the cursor by `n`; it fails with
`UnexpectedEndOfInput` if fewer bytes remain.  The spec does not say what a
failed call returns besides the error: here it is the zero token, and nothing
is consumed. -/
def Lexer.NextFixed (lex : Lexer) (n : Nat) : Token × Option Error × Lexer :=
  if n ≤ lex.remaining.length then
    (mkToken (lex.remaining.take n), none, ⟨lex.input, lex.pos + n⟩)
  else
    (Token.zero, some Error.UnexpectedEndOfInput, lex)

/-- Scan at most `k` bytes of `bs` for `delim`; the literal up to and including
the delimiter when it is found. -/
def scanDelim (delim : Nat) : Nat → List Nat → Option (List Nat)
  | 0, _ => none
  | _ + 1, [] => none
  | k + 1, b :: bs =>
    if b = delim then some [b]
    else match scanDelim delim k bs with
      | some l => some (b :: l)
      | none => none

/-- Modelled from the spec: `read_until(max_width, delimiter)` scans forward,
byte by byte, up to `max` bytes, looking for `delim`.  If found, the literal
includes the delimiter and the cursor advances past it; if not found within
`max` bytes (or before the end of the buffer) it fails with
`DelimiterNotFound`.  The spec does not say what a failed call returns besides
the error: here it is the zero token, and nothing is consumed.  A `max` below
zero scans nothing. -/
def Lexer.Next (lex : Lexer) (max : Int) (delim : Nat) : Token × Option Error × Lexer :=
  match scanDelim delim max.toNat lex.remaining with
  | some lit => (mkToken lit, none, ⟨lex.input, lex.pos + lit.length⟩)
  | none => (Token.zero, some Error.DelimiterNotFound, lex)

/-! ## `strconv.ParseUint` -/

/-- The base-10 value of a string of digits (what the digits denote). -/
def decVal (s : List Nat) : Nat := s.foldl (fun n c => n * 10 + (c - 48)) 0

/-- Go's `lower(c)`: `c | ('x' - 'X')`. -/
def lower (c : Nat) : Nat := c ||| 32

/-- The loop of Go's `strconv.ParseUint` over the bytes of the string, for a
base in 2..36 other than the base-prefixed form: `n` is the accumulator, a
`uint64`; `maxVal` is `1<<bitSize - 1`.  Returns the value and whether the loop
failed. -/
def parseUintLoop (base maxVal : Nat) : List Nat → Nat → Nat × Option NumErrKind
  | [], n => (n, none)
  | c :: cs, n =>
    let dq : Option Nat :=
      if 48 ≤ c ∧ c ≤ 57 then some (c - 48)
      else if 97 ≤ lower c ∧ lower c ≤ 122 then some (lower c - 97 + 10)
      else none
    match dq with
    | none => (0, some NumErrKind.ErrSyntax)
    | some d =>
      if d ≥ base then (0, some NumErrKind.ErrSyntax)
      else if n ≥ (2 ^ 64 - 1) / base + 1 then (maxVal, some NumErrKind.ErrRange)
      else
        let n10 := (n * base) % 2 ^ 64
        let n1 := (n10 + d) % 2 ^ 64
        if n1 < n10 ∨ n1 > maxVal then (maxVal, some NumErrKind.ErrRange)
        else parseUintLoop base maxVal cs n1

/-- Go's `strconv.ParseUint(s, base, bitSize)` for `2 ≤ base ≤ 36` and
`1 ≤ bitSize ≤ 64`, the way the decoders call it: the value (a `uint64`) and
the error. -/
def ParseUint (s : List Nat) (base bitSize : Nat) : Nat × Option Error :=
  if s = [] then (0, some (Error.NumError s NumErrKind.ErrSyntax))
  else
    match parseUintLoop base (2 ^ bitSize - 1) s 0 with
    | (n, none) => (n, none)
    | (n, some k) => (n, some (Error.NumError s k))

/-! ## Decoders of `st/ascii.go` -/

/-- The named results of a decoder with one token, and the tokenizer after the
call. -/
structure Res (α : Type) where
  val : α
  token : Token
  err : Option Error
  lex : Lexer

/-- Go `AsciiDevID` (st/ascii.go:43-58); the `string` result is its bytes. -/
def AsciiDevID (lex : Lexer) : Res (List Nat) :=
  match lex.NextFixed 10 with
  | (token, some e, lex1) => ⟨[], token, some e, lex1⟩
  | (token, none, lex1) =>
    if !token.OnlyDigits then ⟨[], token, some Error.ErrInvalidDevID, lex1⟩
    else if !token.EndsWith Separator then ⟨[], token, some Error.ErrSeparator, lex1⟩
    else ⟨token.WithoutSuffix, token, none, lex1⟩

/-- Modelled from the spec: the type `Model` is declared outside the sources;
the spec gives it as an 8-bit code, so the conversion `Model(md)` of a
`uint64` keeps the low 8 bits. -/
def toModel (md : Nat) : Nat := md % 2 ^ 8

/-- Go `AsciiModel` (st/ascii.go:60-80). -/
def AsciiModel (lex : Lexer) : Res Nat :=
  match lex.NextFixed 3 with
  | (token, some e, lex1) => ⟨0, token, some e, lex1⟩
  | (token, none, lex1) =>
    if !token.OnlyDigits then ⟨0, token, some Error.ErrInvalidModel, lex1⟩
    else if !token.EndsWith Separator then ⟨0, token, some Error.ErrSeparator, lex1⟩
    else
      match ParseUint token.WithoutSuffix 10 8 with
      | (_, some e) => ⟨0, token, some e, lex1⟩
      | (md, none) => ⟨toModel md, token, none, lex1⟩

/-- Go `AsciiSwVer` (st/ascii.go:82-102); the result is a `uint16`. -/
def AsciiSwVer (lex : Lexer) : Res Nat :=
  match lex.NextFixed 4 with
  | (token, some e, lex1) => ⟨0, token, some e, lex1⟩
  | (token, none, lex1) =>
    if !token.OnlyDigits then ⟨0, token, some Error.ErrInvalidSwVer, lex1⟩
    else if !token.EndsWith Separator then ⟨0, token, some Error.ErrSeparator, lex1⟩
    else
      match ParseUint token.WithoutSuffix 10 16 with
      | (_, some e) => ⟨0, token, some e, lex1⟩
      | (swv, none) => ⟨swv % 2 ^ 16, token, none, lex1⟩

/-! ## `time.Parse` for `tsLayout` -/

/-- A `time.Time` in UTC, by its civil fields. -/
structure Time where
  year : Nat
  month : Nat
  day : Nat
  hour : Nat
  min : Nat
  sec : Nat
  nsec : Nat
  deriving DecidableEq

/-- The Go zero value `time.Time{}`: January 1, year 1, 00:00:00 UTC. -/
def Time.zero : Time := ⟨1, 1, 1, 0, 0, 0, 0⟩

/-- Go's `time.isLeap`. -/
def isLeap (year : Nat) : Bool := year % 4 == 0 && (year % 100 != 0 || year % 400 == 0)

/-- Go's table `time.daysBefore`. -/
def daysBefore : List Nat := [0, 31, 59, 90, 120, 151, 181, 212, 243, 273, 304, 334, 365]

/-- Go's `time.daysIn(m, year)`. -/
def daysIn (m year : Nat) : Nat :=
  if m = 2 ∧ isLeap year then 29
  else daysBefore.getD m 0 - daysBefore.getD (m - 1) 0

/-- Go's `time.getnum(s, fixed)`: one or two leading digits, exactly two when
`fixed`; the number and the rest of the string, or `none` for `errBad`. -/
def getnum (s : List Nat) (fixed : Bool) : Option (Nat × List Nat) :=
  match s with
  | [] => none
  | a :: t =>
    if !isDigit a then none
    else match t with
      | [] => if fixed then none else some (a - 48, t)
      | b :: t2 =>
        if !isDigit b then (if fixed then none else some (a - 48, t))
        else some ((a - 48) * 10 + (b - 48), t2)

/-- Go's `time.skip(value, pre)` for a one-byte literal `pre` that is not a
space: the rest of `value` after that byte, or `none` for `errBad`. -/
def skipByte (value : List Nat) (p : Nat) : Option (List Nat) :=
  match value with
  | [] => none
  | b :: t => if b = p then some t else none

/-- Go's `time.parseNanoseconds(value, nbytes)` on a `value` that starts with a
period or comma followed by digits up to `nbytes`. -/
def parseNanoseconds (value : List Nat) (nbytes : Nat) : Nat :=
  let nb := min nbytes 10
  decVal ((value.take nb).drop 1) * 10 ^ (10 - nb)

/-- After the seconds of `tsLayout`: the special case of a fractional second
in the input that the layout does not have.  Returns the nanoseconds and the
rest of the value. -/
def fracSecond (value : List Nat) : Nat × List Nat :=
  match value with
  | c :: d :: t =>
    if (c = 46 ∨ c = 44) ∧ isDigit d then
      let n := 2 + (t.takeWhile isDigit).length
      (parseNanoseconds value n, value.drop n)
    else (0, value)
  | _ => (0, value)

/-- Go's `time.Parse(tsLayout, value)` with `tsLayout = "20060102;15:04:05;"`,
chunk by chunk: `2006` (four digits through `atoi`), `01` and `02` (two
digits), the literal `;`, `15` (one or two digits), `:`, `04`, `:`, `05`, a
fractional second the layout does not name, the literal `;`, no extra text,
then the validation of the day of the month.  `none` stands for any
`*time.ParseError`. -/
def parseTs (value : List Nat) : Option Time :=
  if value.length < 4 ∨ !(value.take 1).all isDigit then none
  else if !(value.take 4).all isDigit then none
  else
    let year := decVal (value.take 4)
    match getnum (value.drop 4) true with
    | none => none
    | some (month, v1) =>
      if month = 0 ∨ 12 < month then none
      else match getnum v1 true with
        | none => none
        | some (day, v2) =>
          match skipByte v2 59 with
          | none => none
          | some v3 =>
            match getnum v3 false with
            | none => none
            | some (hour, v4) =>
              if 24 ≤ hour then none
              else match skipByte v4 58 with
                | none => none
                | some v5 =>
                  match getnum v5 true with
                  | none => none
                  | some (mn, v6) =>
                    if 60 ≤ mn then none
                    else match skipByte v6 58 with
                      | none => none
                      | some v7 =>
                        match getnum v7 true with
                        | none => none
                        | some (sec, v8) =>
                          if 60 ≤ sec then none
                          else
                            match skipByte (fracSecond v8).2 59 with
                            | none => none
                            | some v9 =>
                              if v9 ≠ [] then none
                              else if day < 1 ∨ day > daysIn month year then none
                              else some ⟨year, month, day, hour, mn, sec, (fracSecond v8).1⟩

/-- The two results of `time.Parse(tsLayout, value)`: the time, `Time{}` on
failure, and the error. -/
def timeParse (value : List Nat) : Time × Option Error :=
  match parseTs value with
  | some t => (t, none)
  | none => (Time.zero, some (Error.TimeParseError value))

/-- The named results of `AsciiTimestamp` and the tokenizer after the call. -/
structure ResTs where
  ts : Time
  tokens : List Token
  err : Option Error
  lex : Lexer

/-- Go `AsciiTimestamp` (st/ascii.go:104-145). -/
def AsciiTimestamp (lex : Lexer) : ResTs :=
  match lex.NextFixed 9 with
  | (dateToken, some e, lex1) => ⟨Time.zero, [dateToken], some e, lex1⟩
  | (dateToken, none, lex1) =>
    if !dateToken.OnlyDigits then ⟨Time.zero, [dateToken], some Error.ErrInvalidDate, lex1⟩
    else if !dateToken.EndsWith Separator then
      ⟨Time.zero, [dateToken], some Error.ErrSeparator, lex1⟩
    else
      match lex1.NextFixed 9 with
      | (timeToken, some e, lex2) => ⟨Time.zero, [dateToken, timeToken], some e, lex2⟩
      | (timeToken, none, lex2) =>
        if timeToken.Typ ≠ TokenType.DataToken then
          ⟨Time.zero, [dateToken, timeToken], some Error.ErrInvalidTime, lex2⟩
        else if !timeToken.EndsWith Separator then
          ⟨Time.zero, [dateToken, timeToken], some Error.ErrSeparator, lex2⟩
        else
          ⟨(timeParse (dateToken.Literal ++ timeToken.Literal)).1, [dateToken, timeToken],
            (timeParse (dateToken.Literal ++ timeToken.Literal)).2, lex2⟩

/-- Go `AsciiCell` (st/ascii.go:147-158). -/
def AsciiCell (lex : Lexer) : Res (List Nat) :=
  match lex.Next 7 Separator with
  | (token, some e, lex1) => ⟨[], token, some e, lex1⟩
  | (token, none, lex1) =>
    if !token.IsHex then ⟨[], token, some Error.ErrInvalidCell, lex1⟩
    else ⟨token.WithoutSuffix, token, none, lex1⟩

/-- Go's floating point, which the embedding does not interpret: the types
`float64` and `float32`, the zero of `float32`, `strconv.ParseFloat` (its value
and the kind of its `*strconv.NumError`, if any) and the conversion
`float32(x)`. -/
structure FloatEnv where
  F64 : Type
  F32 : Type
  zero32 : F32
  ParseFloat : List Nat → Nat → F64 × Option NumErrKind
  float32 : F64 → F32

/-- Go `AsciiLat` (st/ascii.go:160-176). -/
def AsciiLat (fe : FloatEnv) (lex : Lexer) : Res fe.F32 :=
  match lex.Next 11 Separator with
  | (token, some e, lex1) => ⟨fe.zero32, token, some e, lex1⟩
  | (token, none, lex1) =>
    if token.Typ ≠ TokenType.FloatToken then ⟨fe.zero32, token, some Error.ErrInvalidLat, lex1⟩
    else
      match fe.ParseFloat token.WithoutSuffix 32 with
      | (_, some k) => ⟨fe.zero32, token, some (Error.NumError token.WithoutSuffix k), lex1⟩
      | (lat64, none) => ⟨fe.float32 lat64, token, none, lex1⟩

/-- Go `AsciiLon` (st/ascii.go:178-194). -/
def AsciiLon (fe : FloatEnv) (lex : Lexer) : Res fe.F32 :=
  match lex.Next 12 Separator with
  | (token, some e, lex1) => ⟨fe.zero32, token, some e, lex1⟩
  | (token, none, lex1) =>
    if token.Typ ≠ TokenType.FloatToken then ⟨fe.zero32, token, some Error.ErrInvalidLng, lex1⟩
    else
      match fe.ParseFloat token.WithoutSuffix 32 with
      | (_, some k) => ⟨fe.zero32, token, some (Error.NumError token.WithoutSuffix k), lex1⟩
      | (lng64, none) => ⟨fe.float32 lng64, token, none, lex1⟩

/-- Go `AsciiSpeed` (st/ascii.go:196-212). -/
def AsciiSpeed (fe : FloatEnv) (lex : Lexer) : Res fe.F32 :=
  match lex.Next 8 Separator with
  | (token, some e, lex1) => ⟨fe.zero32, token, some e, lex1⟩
  | (token, none, lex1) =>
    if token.Typ ≠ TokenType.FloatToken then ⟨fe.zero32, token, some Error.ErrInvalidSpeed, lex1⟩
    else
      match fe.ParseFloat token.WithoutSuffix 32 with
      | (_, some k) => ⟨fe.zero32, token, some (Error.NumError token.WithoutSuffix k), lex1⟩
      | (spd, none) => ⟨fe.float32 spd, token, none, lex1⟩

/-- Go `AsciiCourse` (st/ascii.go:214-230). -/
def AsciiCourse (fe : FloatEnv) (lex : Lexer) : Res fe.F32 :=
  match lex.Next 7 Separator with
  | (token, some e, lex1) => ⟨fe.zero32, token, some e, lex1⟩
  | (token, none, lex1) =>
    if token.Typ ≠ TokenType.FloatToken then ⟨fe.zero32, token, some Error.ErrInvalidCourse, lex1⟩
    else
      match fe.ParseFloat token.WithoutSuffix 32 with
      | (_, some k) => ⟨fe.zero32, token, some (Error.NumError token.WithoutSuffix k), lex1⟩
      | (crs, none) => ⟨fe.float32 crs, token, none, lex1⟩

/-- Go `AsciiSatellites` (st/ascii.go:232-248); the result is a `uint8`. -/
def AsciiSatellites (lex : Lexer) : Res Nat :=
  match lex.Next 3 Separator with
  | (token, some e, lex1) => ⟨0, token, some e, lex1⟩
  | (token, none, lex1) =>
    if !token.OnlyDigits then ⟨0, token, some Error.ErrInvalidSatt, lex1⟩
    else
      match ParseUint token.WithoutSuffix 10 8 with
      | (_, some e) => ⟨0, token, some e, lex1⟩
      | (sat, none) => ⟨sat % 2 ^ 8, token, none, lex1⟩

/-- The result of indexing `token.Literal[0]`; `none` is Go's run-time panic
on an empty slice. -/
def index0 (lit : List Nat) : Option Nat := lit.head?

/-- Go `AsciiFix` (st/ascii.go:250-268); `none` is a run-time panic. -/
def AsciiFix (lex : Lexer) : Option (Res Bool) :=
  match lex.Next 3 Separator with
  | (token, some e, lex1) => some ⟨false, token, some e, lex1⟩
  | (token, none, lex1) =>
    if token.Typ ≠ TokenType.BitsToken then some ⟨false, token, some Error.ErrInvalidFix, lex1⟩
    else
      match index0 token.Literal with
      | none => none
      | some b =>
        if b = 48 then some ⟨false, token, none, lex1⟩
        else if b = 49 then some ⟨true, token, none, lex1⟩
        else some ⟨false, token, some Error.ErrInvalidFix, lex1⟩

/-- Go `AsciiDistance` (st/ascii.go:270-286); the result is a `uint32`. -/
def AsciiDistance (lex : Lexer) : Res Nat :=
  match lex.Next 11 Separator with
  | (token, some e, lex1) => ⟨0, token, some e, lex1⟩
  | (token, none, lex1) =>
    if !token.OnlyDigits then ⟨0, token, some Error.ErrInvalidDist, lex1⟩
    else
      match ParseUint token.WithoutSuffix 10 32 with
      | (_, some e) => ⟨0, token, some e, lex1⟩
      | (dist, none) => ⟨dist % 2 ^ 32, token, none, lex1⟩

/-- Go `AsciiPowerVolt` (st/ascii.go:288-304). -/
def AsciiPowerVolt (fe : FloatEnv) (lex : Lexer) : Res fe.F32 :=
  match lex.Next 11 Separator with
  | (token, some e, lex1) => ⟨fe.zero32, token, some e, lex1⟩
  | (token, none, lex1) =>
    if token.Typ ≠ TokenType.FloatToken then ⟨fe.zero32, token, some Error.ErrInvalidPowerVolt, lex1⟩
    else
      match fe.ParseFloat token.WithoutSuffix 32 with
      | (_, some k) => ⟨fe.zero32, token, some (Error.NumError token.WithoutSuffix k), lex1⟩
      | (pv, none) => ⟨fe.float32 pv, token, none, lex1⟩

/-- The type `ModeType` and its four constants, declared outside the sources:
taken as parameters, with the zero value of the type. -/
structure ModeEnv where
  ModeType : Type
  zero : ModeType
  IdleMode : ModeType
  ActiveMode : ModeType
  DistanceMode : ModeType
  AngleMode : ModeType

/-- Go `AsciiMode` (st/ascii.go:306-332); `none` is a run-time panic. -/
def AsciiMode (me : ModeEnv) (lex : Lexer) : Option (Res me.ModeType) :=
  match lex.NextFixed 2 with
  | (token, some e, lex1) => some ⟨me.zero, token, some e, lex1⟩
  | (token, none, lex1) =>
    if !token.OnlyDigits then some ⟨me.zero, token, some Error.ErrInvalidMode, lex1⟩
    else if !token.EndsWith Separator then some ⟨me.zero, token, some Error.ErrSeparator, lex1⟩
    else
      match index0 token.Literal with
      | none => none
      | some b =>
        if b = 49 then some ⟨me.IdleMode, token, none, lex1⟩
        else if b = 50 then some ⟨me.ActiveMode, token, none, lex1⟩
        else if b = 52 then some ⟨me.DistanceMode, token, none, lex1⟩
        else if b = 53 then some ⟨me.AngleMode, token, none, lex1⟩
        else some ⟨me.zero, token, some (Error.InvalidModeValue b), lex1⟩

/-- Go `AsciiMsgNum` (st/ascii.go:334-353); the result is a `uint16`.  A failed
`ParseUint` sets the error and the function still converts what `ParseUint`
returned. -/
def AsciiMsgNum (lex : Lexer) : Res Nat :=
  match lex.NextFixed 5 with
  | (token, some e, lex1) => ⟨0, token, some e, lex1⟩
  | (token, none, lex1) =>
    if !token.IsHex then ⟨0, token, some Error.ErrInvalidMsgNum, lex1⟩
    else if !token.EndsWith Separator then ⟨0, token, some Error.ErrSeparator, lex1⟩
    else
      ⟨(ParseUint token.WithoutSuffix 10 16).1 % 2 ^ 16, token,
        (ParseUint token.WithoutSuffix 10 16).2, lex1⟩

/-- Go `AsciiDrivingHourMeter` (st/ascii.go:355-371); the result is a `uint32`. -/
def AsciiDrivingHourMeter (lex : Lexer) : Res Nat :=
  match lex.Next 8 Separator with
  | (token, some e, lex1) => ⟨0, token, some e, lex1⟩
  | (token, none, lex1) =>
    if !token.OnlyDigits then ⟨0, token, some Error.ErrInvalidHMeter, lex1⟩
    else
      match ParseUint token.WithoutSuffix 10 32 with
      | (_, some e) => ⟨0, token, some e, lex1⟩
      | (hm, none) => ⟨hm % 2 ^ 32, token, none, lex1⟩

/-- Go `AsciiBackupVolt` (st/ascii.go:373-390); its shape error is
`ErrInvalidHMeter`, as in the source. -/
def AsciiBackupVolt (fe : FloatEnv) (lex : Lexer) : Res fe.F32 :=
  match lex.Next 11 Separator with
  | (token, some e, lex1) => ⟨fe.zero32, token, some e, lex1⟩
  | (token, none, lex1) =>
    if token.Typ ≠ TokenType.FloatToken then ⟨fe.zero32, token, some Error.ErrInvalidHMeter, lex1⟩
    else
      match fe.ParseFloat token.WithoutSuffix 32 with
      | (_, some k) => ⟨fe.zero32, token, some (Error.NumError token.WithoutSuffix k), lex1⟩
      | (bv, none) => ⟨fe.float32 bv, token, none, lex1⟩

/-- Go `AsciiMsgType` (st/ascii.go:392-418); `none` is a run-time panic. -/
def AsciiMsgType (lex : Lexer) (last : Bool) : Option (Res Bool) :=
  match lex.NextFixed 2 with
  | (token, some e, lex1) => some ⟨false, token, some e, lex1⟩
  | (token, none, lex1) =>
    if token.Typ ≠ TokenType.BitsToken then
      some ⟨false, token, some Error.ErrInvalidMsgType, lex1⟩
    else if last && !token.EndsWith EndOfFrame then
      some ⟨false, token, some Error.ErrEndOfFrame, lex1⟩
    else if !last && !token.EndsWith Separator then
      some ⟨false, token, some Error.ErrSeparator, lex1⟩
    else
      match index0 token.Literal with
      | none => none
      | some b =>
        if b = 48 then some ⟨false, token, none, lex1⟩
        else if b = 49 then some ⟨true, token, none, lex1⟩
        else some ⟨false, token, some (Error.InvalidMsgTypeValue b), lex1⟩

/-- Go `AsciiUnknownTail` (st/ascii.go:420-423). -/
def AsciiUnknownTail (lex : Lexer) (max : Int) : Token × Option Error × Lexer :=
  lex.Next max EndOfFrame

/-! ## Common forms -/

/-- The common form of the decimal-valued decoders `AsciiLat`, `AsciiLon`,
`AsciiSpeed`, `AsciiCourse`, `AsciiPowerVolt` and `AsciiBackupVolt`, which
differ in the maximal width and in the error of the shape check; lemmas about
them are stated once, on this form. -/
def asciiFloat (fe : FloatEnv) (max : Int) (shapeErr : Error) (lex : Lexer) : Res fe.F32 :=
  match lex.Next max Separator with
  | (token, some e, lex1) => ⟨fe.zero32, token, some e, lex1⟩
  | (token, none, lex1) =>
    if token.Typ ≠ TokenType.FloatToken then ⟨fe.zero32, token, some shapeErr, lex1⟩
    else
      match fe.ParseFloat token.WithoutSuffix 32 with
      | (_, some k) => ⟨fe.zero32, token, some (Error.NumError token.WithoutSuffix k), lex1⟩
      | (x, none) => ⟨fe.float32 x, token, none, lex1⟩

/-- The common form of the delimited unsigned-integer decoders
`AsciiSatellites`, `AsciiDistance` and `AsciiDrivingHourMeter`, which differ
in the maximal width, the error of the shape check and the bit size; lemmas
about them are stated once, on this form. -/
def asciiUint (max : Int) (shapeErr : Error) (bitSize : Nat) (lex : Lexer) : Res Nat :=
  match lex.Next max Separator with
  | (token, some e, lex1) => ⟨0, token, some e, lex1⟩
  | (token, none, lex1) =>
    if !token.OnlyDigits then ⟨0, token, some shapeErr, lex1⟩
    else
      match ParseUint token.WithoutSuffix 10 bitSize with
      | (_, some e) => ⟨0, token, some e, lex1⟩
      | (x, none) => ⟨x % 2 ^ bitSize, token, none, lex1⟩

/-! ## Running decoders in sequence -/

/-- The decoders of `st/ascii.go`, with the extra arguments of `AsciiMsgType`
and `AsciiUnknownTail`. -/
inductive Decoder
  | DevID
  | Model
  | SwVer
  | Timestamp
  | Cell
  | Lat
  | Lon
  | Speed
  | Course
  | Satellites
  | Fix
  | Distance
  | PowerVolt
  | Mode
  | MsgNum
  | DrivingHourMeter
  | BackupVolt
  | MsgType (last : Bool)
  | UnknownTail (max : Int)

/-- What every decoder returns besides its value: the token or tokens, the
error, and the tokenizer after the call. -/
structure Step where
  tokens : List Token
  err : Option Error
  lex : Lexer

/-- The token, error and tokenizer of a decoder with one token. -/
def Res.step {α : Type} (r : Res α) : Step := ⟨[r.token], r.err, r.lex⟩

/-- One call of a decoder; `none` is a run-time panic. -/
def Decoder.run (fe : FloatEnv) (me : ModeEnv) : Decoder → Lexer → Option Step
  | Decoder.DevID, lex => some (AsciiDevID lex).step
  | Decoder.Model, lex => some (AsciiModel lex).step
  | Decoder.SwVer, lex => some (AsciiSwVer lex).step
  | Decoder.Timestamp, lex =>
    some ⟨(AsciiTimestamp lex).tokens, (AsciiTimestamp lex).err, (AsciiTimestamp lex).lex⟩
  | Decoder.Cell, lex => some (AsciiCell lex).step
  | Decoder.Lat, lex => some (AsciiLat fe lex).step
  | Decoder.Lon, lex => some (AsciiLon fe lex).step
  | Decoder.Speed, lex => some (AsciiSpeed fe lex).step
  | Decoder.Course, lex => some (AsciiCourse fe lex).step
  | Decoder.Satellites, lex => some (AsciiSatellites lex).step
  | Decoder.Fix, lex => (AsciiFix lex).map Res.step
  | Decoder.Distance, lex => some (AsciiDistance lex).step
  | Decoder.PowerVolt, lex => some (AsciiPowerVolt fe lex).step
  | Decoder.Mode, lex => (AsciiMode me lex).map Res.step
  | Decoder.MsgNum, lex => some (AsciiMsgNum lex).step
  | Decoder.DrivingHourMeter, lex => some (AsciiDrivingHourMeter lex).step
  | Decoder.BackupVolt, lex => some (AsciiBackupVolt fe lex).step
  | Decoder.MsgType last, lex => (AsciiMsgType lex last).map Res.step
  | Decoder.UnknownTail max, lex =>
    some ⟨[(AsciiUnknownTail lex max).1], (AsciiUnknownTail lex max).2.1,
      (AsciiUnknownTail lex max).2.2⟩

/-- The literals of a list of tokens, concatenated. -/
def literals (ts : List Token) : List Nat := ts.foldr (fun t acc => t.Literal ++ acc) []

/-- Decoders run in order on one tokenizer, the way a frame parser does
(`msg.Frame = append(msg.Frame, token.Literal...)` after each call, stop at the
first error): the accumulated frame bytes, the error that stopped the run, and
the tokenizer at the end.  `none` is a run-time panic. -/
def runAll (fe : FloatEnv) (me : ModeEnv) :
    List Decoder → Lexer → List Nat → Option (List Nat × Option Error × Lexer)
  | [], lex, frame => some (frame, none, lex)
  | d :: ds, lex, frame =>
    match d.run fe me lex with
    | none => none
    | some st =>
      match st.err with
      | some e => some (frame ++ literals st.tokens, some e, st.lex)
      | none => runAll fe me ds st.lex (frame ++ literals st.tokens)

/-- A floating-point environment for runs without decimal-valued fields:
`ParseFloat` rejects every string. -/
def noFloat : FloatEnv := ⟨Unit, Unit, (), fun _ _ => ((), some NumErrKind.ErrSyntax), fun _ => ()⟩

/-- A sample numbering of the modes. -/
def sampleModes : ModeEnv := ⟨Nat, 0, 1, 2, 3, 4⟩

/-- The emergency frame of the end-to-end scenario, after its `ST600EMG;`
header. -/
def emgFrame : List Nat :=
  bytes "205951725;20;325;20151223;13:32:30;001cbf75;730;2;4e39;33;-33.363867;-070.670218;000.122;000.00;5;1;190269102;12.89;000000;1;183230;4.5;0;0.00\r"

/-- A short frame made of a device id, a model, a software version, a
timestamp and a message-type flag in last position. -/
def shortFrame : List Nat := bytes "205951725;20;325;20151223;13:32:30;1\r"

/-- The decoders of the fields of `shortFrame`, in order. -/
def shortDecoders : List Decoder :=
  [Decoder.DevID, Decoder.Model, Decoder.SwVer, Decoder.Timestamp, Decoder.MsgType true]

/-- The lengths of the months of the Gregorian calendar. -/
def daysInMonth (year month : Nat) : Nat :=
  if month = 2 then (if (year % 4 = 0 ∧ year % 100 ≠ 0) ∨ year % 400 = 0 then 29 else 28)
  else if month = 4 ∨ month = 6 ∨ month = 9 ∨ month = 11 then 30
  else 31

/-- The date and time of day that 18 bytes of the form `YYYYMMDD;HH:MM:SS;`
denote, in UTC. -/
def shapeTime (b : List Nat) : Time :=
  ⟨decVal (b.take 4), decVal ((b.drop 4).take 2), decVal ((b.drop 6).take 2),
    decVal ((b.drop 9).take 2), decVal ((b.drop 12).take 2), decVal ((b.drop 15).take 2), 0⟩

/-- The exact shape `YYYYMMDD;HH:MM:SS;`: eight digits, `;`, two digits, `:`,
two digits, `:`, two digits, `;`, denoting a valid calendar date and a valid
time of day. -/
def validShape (b : List Nat) : Prop :=
  b.length = 18
  ∧ (b.take 8).all isDigit = true ∧ b[8]? = some 59
  ∧ ((b.drop 9).take 2).all isDigit = true ∧ b[11]? = some 58
  ∧ ((b.drop 12).take 2).all isDigit = true ∧ b[14]? = some 58
  ∧ ((b.drop 15).take 2).all isDigit = true ∧ b[17]? = some 59
  ∧ 1 ≤ (shapeTime b).month ∧ (shapeTime b).month ≤ 12
  ∧ 1 ≤ (shapeTime b).day
  ∧ (shapeTime b).day ≤ daysInMonth (shapeTime b).year (shapeTime b).month
  ∧ (shapeTime b).hour ≤ 23 ∧ (shapeTime b).min ≤ 59 ∧ (shapeTime b).sec ≤ 59

instance (b : List Nat) : Decidable (validShape b) := by
  unfold validShape
  infer_instance

/-! ## The switches that index `token.Literal[0]` -/

/-- The token on which `AsciiFix` runs its switch on `token.Literal[0]`
(st/ascii.go:259), when the call gets that far: the extraction succeeded and
the tag check passed. -/
def AsciiFix_switch (lex : Lexer) : Option Token :=
  match lex.Next 3 Separator with
  | (_, some _, _) => none
  | (token, none, _) => if token.Typ ≠ TokenType.BitsToken then none else some token

/-- The token on which `AsciiMode` runs its switch on `token.Literal[0]`
(st/ascii.go:319), when the call gets that far. -/
def AsciiMode_switch (lex : Lexer) : Option Token :=
  match lex.NextFixed 2 with
  | (_, some _, _) => none
  | (token, none, _) =>
    if !token.OnlyDigits then none
    else if !token.EndsWith Separator then none
    else some token

/-- The token on which `AsciiMsgType` runs its switch on `token.Literal[0]`
(st/ascii.go:409), when the call gets that far. -/
def AsciiMsgType_switch (lex : Lexer) (last : Bool) : Option Token :=
  match lex.NextFixed 2 with
  | (_, some _, _) => none
  | (token, none, _) =>
    if token.Typ ≠ TokenType.BitsToken then none
    else if last && !token.EndsWith EndOfFrame then none
    else if !last && !token.EndsWith Separator then none
    else some token

/-! ## `parseALVAscii` of `st600/ascii_alv.go` -/

/-- Go `MsgType` with its constants in the order of st300/types.go:8-39.
Package `st600` declares its own `MsgType` outside the sources; only
`ALVReport` matters to `parseALVAscii`. -/
inductive MsgType
  | UnknownMsg | NTWCmd | RPTCmd | EVTCmd | GSMCmd | SVCCmd | MBVCmd | MSRCmd | CGFCmd
  | ADPCmd | NPTCmd | LTMCmd | PLGCmd | PLSCmd | PLCCmd | CTRCmd | STRCmd | GTRCmd
  | STTReport | EMGReport | EVTReport | ALTReport | ALVReport | UEXReport | DEXReport
  | CMD
  deriving DecidableEq

/-- Go `AliveReport` (st600/ascii_alv.go:8-11). -/
structure AliveReport where
  Hdr : MsgType
  DevID : List Nat
  deriving DecidableEq

/-- Go `Msg`, with the fields of st300/types.go:41-57 and the field `ALV` that
`parseALVAscii` assigns (the `Msg` of package `st600` is declared outside the
sources).  The report pointers other than `ALV` (`CGF`, `STT`, `EMG`, `EVT`,
`ALT`), whose types are declared outside the sources, are kept together in
`reports`, of a parameter type.  A nil pointer is `none`; the Go field `Type`
is spelled `Typ`. -/
structure Msg (R : Type) where
  Model : Nat
  Typ : MsgType
  reports : R
  ALV : Option AliveReport
  Frame : List Nat
  ParsingError : Option Error

/-- Go `parseALVAscii` (st600/ascii_alv.go:13-30): the message and the
tokenizer after the call.  The decoder `st.AsciiDevIDAtEnd` it calls is not in
st/ascii.go and is taken as a parameter.  `msg.ALV` points to `alv`, so the
final assignment to `alv.DevID` shows in the message. -/
def parseALVAscii {R : Type} (AsciiDevIDAtEnd : Lexer → Res (List Nat)) (lex : Lexer)
    (msg : Msg R) : Msg R × Lexer :=
  match (AsciiDevIDAtEnd lex).err with
  | some e =>
    (⟨msg.Model, MsgType.ALVReport, msg.reports, some ⟨MsgType.ALVReport, []⟩,
      msg.Frame ++ (AsciiDevIDAtEnd lex).token.Literal, some e⟩, (AsciiDevIDAtEnd lex).lex)
  | none =>
    (⟨msg.Model, MsgType.ALVReport, msg.reports,
      some ⟨MsgType.ALVReport, (AsciiDevIDAtEnd lex).val⟩,
      msg.Frame ++ (AsciiDevIDAtEnd lex).token.Literal, msg.ParsingError⟩,
      (AsciiDevIDAtEnd lex).lex)

/-- A message as the dispatcher could hand it over: the header consumed, no
report yet. -/
def sampleMsg : Msg Unit := ⟨20, MsgType.UnknownMsg, (), none, bytes "ST600ALV;", none⟩

/-! ## Properties -/

set_option maxRecDepth 100000

/-- C1: on the emergency frame, `AsciiDevID`, `AsciiModel`, `AsciiSwVer` and
`AsciiTimestamp` run in that order from the start of the frame return the device
id "205951725", model 20, software version 325 and the timestamp
2015-12-23 13:32:30 UTC, each with a nil error; `AsciiSatellites`, `AsciiFix`,
`AsciiDistance` and `AsciiDrivingHourMeter` run at the start of the fields
`5;`, `1;`, `190269102;` and `183230;` return 5, true, 190269102 and 183230
with a nil error. -/
theorem C1_emg_scenario :
    (AsciiDevID ⟨emgFrame, 0⟩).val = bytes "205951725"
    ∧ (AsciiDevID ⟨emgFrame, 0⟩).err = none
    ∧ (AsciiModel (AsciiDevID ⟨emgFrame, 0⟩).lex).val = 20
    ∧ (AsciiModel (AsciiDevID ⟨emgFrame, 0⟩).lex).err = none
    ∧ (AsciiSwVer (AsciiModel (AsciiDevID ⟨emgFrame, 0⟩).lex).lex).val = 325
    ∧ (AsciiSwVer (AsciiModel (AsciiDevID ⟨emgFrame, 0⟩).lex).lex).err = none
    ∧ (AsciiTimestamp (AsciiSwVer (AsciiModel (AsciiDevID ⟨emgFrame, 0⟩).lex).lex).lex).ts
        = ⟨2015, 12, 23, 13, 32, 30, 0⟩
    ∧ (AsciiTimestamp (AsciiSwVer (AsciiModel (AsciiDevID ⟨emgFrame, 0⟩).lex).lex).lex).err
        = none
    ∧ (emgFrame.drop 96).take 2 = bytes "5;"
    ∧ (AsciiSatellites ⟨emgFrame, 96⟩).val = 5
    ∧ (AsciiSatellites ⟨emgFrame, 96⟩).err = none
    ∧ (emgFrame.drop 98).take 2 = bytes "1;"
    ∧ (AsciiFix ⟨emgFrame, 98⟩).map (fun r => (r.val, r.err)) = some (true, none)
    ∧ (emgFrame.drop 100).take 10 = bytes "190269102;"
    ∧ (AsciiDistance ⟨emgFrame, 100⟩).val = 190269102
    ∧ (AsciiDistance ⟨emgFrame, 100⟩).err = none
    ∧ (emgFrame.drop 125).take 7 = bytes "183230;"
    ∧ (AsciiDrivingHourMeter ⟨emgFrame, 125⟩).val = 183230
    ∧ (AsciiDrivingHourMeter ⟨emgFrame, 125⟩).err = none := by
  decide

/-! ### The decoders in their common form -/

theorem AsciiLat_eq (fe : FloatEnv) (lex : Lexer) :
    AsciiLat fe lex = asciiFloat fe 11 Error.ErrInvalidLat lex := rfl

theorem AsciiLon_eq (fe : FloatEnv) (lex : Lexer) :
    AsciiLon fe lex = asciiFloat fe 12 Error.ErrInvalidLng lex := rfl

theorem AsciiSpeed_eq (fe : FloatEnv) (lex : Lexer) :
    AsciiSpeed fe lex = asciiFloat fe 8 Error.ErrInvalidSpeed lex := rfl

theorem AsciiCourse_eq (fe : FloatEnv) (lex : Lexer) :
    AsciiCourse fe lex = asciiFloat fe 7 Error.ErrInvalidCourse lex := rfl

theorem AsciiPowerVolt_eq (fe : FloatEnv) (lex : Lexer) :
    AsciiPowerVolt fe lex = asciiFloat fe 11 Error.ErrInvalidPowerVolt lex := rfl

theorem AsciiBackupVolt_eq (fe : FloatEnv) (lex : Lexer) :
    AsciiBackupVolt fe lex = asciiFloat fe 11 Error.ErrInvalidHMeter lex := rfl

theorem AsciiSatellites_eq (lex : Lexer) :
    AsciiSatellites lex = asciiUint 3 Error.ErrInvalidSatt 8 lex := rfl

theorem AsciiDistance_eq (lex : Lexer) :
    AsciiDistance lex = asciiUint 11 Error.ErrInvalidDist 32 lex := rfl

theorem AsciiDrivingHourMeter_eq (lex : Lexer) :
    AsciiDrivingHourMeter lex = asciiUint 8 Error.ErrInvalidHMeter 32 lex := rfl

/-! ### Byte accounting -/

theorem take_drop_append (l : List Nat) (p q r : Nat) (h1 : p ≤ q) (h2 : q ≤ r) :
    (l.drop p).take (q - p) ++ (l.drop q).take (r - q) = (l.drop p).take (r - p) := by
  have e : r - p = (q - p) + (r - q) := by omega
  have e2 : q = p + (q - p) := by omega
  rw [e, List.take_add, List.drop_drop]
  rw [← e2]

/-- The accounting relation between the tokenizer before a call and what the
call returned: same buffer, the cursor did not move back, and the literals are
the bytes the cursor advanced over. -/
def Acct (lex : Lexer) (st : Step) : Prop :=
  st.lex.input = lex.input ∧ lex.pos ≤ st.lex.pos ∧
    literals st.tokens = (lex.input.drop lex.pos).take (st.lex.pos - lex.pos)

theorem NextFixed_acct (lex : Lexer) (n : Nat) :
    (lex.NextFixed n).2.2.input = lex.input ∧ lex.pos ≤ (lex.NextFixed n).2.2.pos ∧
    (lex.NextFixed n).1.Literal
      = (lex.input.drop lex.pos).take ((lex.NextFixed n).2.2.pos - lex.pos) := by
  unfold Lexer.NextFixed
  split
  · simp [mkToken, Lexer.remaining]
  · simp [Token.zero]

theorem scanDelim_take (d : Nat) (k : Nat) (bs lit : List Nat)
    (h : scanDelim d k bs = some lit) : lit = bs.take lit.length := by
  induction k generalizing bs lit with
  | zero => simp [scanDelim] at h
  | succ k ih =>
    cases bs with
    | nil => simp [scanDelim] at h
    | cons b bs =>
      simp only [scanDelim] at h
      split at h
      · cases h; simp
      · split at h
        · rename_i l hl
          cases h
          have := ih bs l hl
          simp only [List.length_cons, List.take_succ_cons]
          rw [← this]
        · cases h

theorem Next_acct (lex : Lexer) (max : Int) (d : Nat) :
    (lex.Next max d).2.2.input = lex.input ∧ lex.pos ≤ (lex.Next max d).2.2.pos ∧
    (lex.Next max d).1.Literal
      = (lex.input.drop lex.pos).take ((lex.Next max d).2.2.pos - lex.pos) := by
  unfold Lexer.Next
  split
  · rename_i lit hl
    have := scanDelim_take d _ _ lit hl
    simp only [mkToken, Lexer.remaining] at this ⊢
    simp only [Nat.le_add_right, Nat.add_sub_cancel_left, true_and]
    exact this
  · simp [Token.zero]

theorem acct_of_fixed (lex : Lexer) (n : Nat) (st : Step)
    (h1 : st.tokens = [(lex.NextFixed n).1]) (h2 : st.lex = (lex.NextFixed n).2.2) :
    Acct lex st := by
  have := NextFixed_acct lex n
  simp only [Acct, h1, h2, literals, List.foldr, List.append_nil]
  exact this

theorem acct_of_next (lex : Lexer) (max : Int) (d : Nat) (st : Step)
    (h1 : st.tokens = [(lex.Next max d).1]) (h2 : st.lex = (lex.Next max d).2.2) :
    Acct lex st := by
  have := Next_acct lex max d
  simp only [Acct, h1, h2, literals, List.foldr, List.append_nil]
  exact this

theorem AsciiDevID_tok (lex : Lexer) :
    (AsciiDevID lex).token = (lex.NextFixed 10).1 ∧
      (AsciiDevID lex).lex = (lex.NextFixed 10).2.2 := by
  unfold AsciiDevID
  rcases lex.NextFixed 10 with ⟨token, _ | e, lex1⟩ <;> simp only []
  · split_ifs <;> simp
  · simp

theorem AsciiModel_tok (lex : Lexer) :
    (AsciiModel lex).token = (lex.NextFixed 3).1 ∧
      (AsciiModel lex).lex = (lex.NextFixed 3).2.2 := by
  unfold AsciiModel
  rcases lex.NextFixed 3 with ⟨token, _ | e, lex1⟩ <;> simp only []
  · split_ifs <;> (try split) <;> simp
  · simp

theorem AsciiSwVer_tok (lex : Lexer) :
    (AsciiSwVer lex).token = (lex.NextFixed 4).1 ∧
      (AsciiSwVer lex).lex = (lex.NextFixed 4).2.2 := by
  unfold AsciiSwVer
  rcases lex.NextFixed 4 with ⟨token, _ | e, lex1⟩ <;> simp only []
  · split_ifs <;> (try split) <;> simp
  · simp

theorem AsciiMsgNum_tok (lex : Lexer) :
    (AsciiMsgNum lex).token = (lex.NextFixed 5).1 ∧
      (AsciiMsgNum lex).lex = (lex.NextFixed 5).2.2 := by
  unfold AsciiMsgNum
  rcases lex.NextFixed 5 with ⟨token, _ | e, lex1⟩ <;> simp only []
  · split_ifs <;> simp
  · simp

theorem AsciiCell_tok (lex : Lexer) :
    (AsciiCell lex).token = (lex.Next 7 Separator).1 ∧
      (AsciiCell lex).lex = (lex.Next 7 Separator).2.2 := by
  unfold AsciiCell
  rcases lex.Next 7 Separator with ⟨token, _ | e, lex1⟩ <;> simp only []
  · split_ifs <;> simp
  · simp

theorem asciiUint_tok (max : Int) (se : Error) (bits : Nat) (lex : Lexer) :
    (asciiUint max se bits lex).token = (lex.Next max Separator).1 ∧
      (asciiUint max se bits lex).lex = (lex.Next max Separator).2.2 := by
  unfold asciiUint
  rcases lex.Next max Separator with ⟨token, _ | e, lex1⟩ <;> simp only []
  · split_ifs <;> (try split) <;> simp
  · simp

theorem asciiFloat_tok (fe : FloatEnv) (max : Int) (se : Error) (lex : Lexer) :
    (asciiFloat fe max se lex).token = (lex.Next max Separator).1 ∧
      (asciiFloat fe max se lex).lex = (lex.Next max Separator).2.2 := by
  unfold asciiFloat
  rcases lex.Next max Separator with ⟨token, _ | e, lex1⟩ <;> simp only []
  · split_ifs <;> (try split) <;> simp
  · simp

theorem classify_bits (c : List Nat) :
    classify c = TokenType.BitsToken ↔ (c = [48] ∨ c = [49]) := by
  unfold classify
  split_ifs <;> simp_all

theorem NextFixed_ok (lex : Lexer) (n : Nat) (h : n ≤ (lex.input.drop lex.pos).length) :
    lex.NextFixed n
      = (mkToken ((lex.input.drop lex.pos).take n), none, ⟨lex.input, lex.pos + n⟩) := by
  unfold Lexer.NextFixed Lexer.remaining
  rw [if_pos h]

theorem NextFixed_short (lex : Lexer) (n : Nat) (h : (lex.input.drop lex.pos).length < n) :
    lex.NextFixed n = (Token.zero, some Error.UnexpectedEndOfInput, lex) := by
  unfold Lexer.NextFixed Lexer.remaining
  rw [if_neg (by omega)]

/-- The decoders that index `token.Literal[0]` do so on a token with a content
byte, so they never panic; their token and tokenizer are those of the
extraction. -/
theorem AsciiFix_tok (lex : Lexer) :
    ∃ r, AsciiFix lex = some r ∧ r.token = (lex.Next 3 Separator).1 ∧
      r.lex = (lex.Next 3 Separator).2.2 := by
  unfold AsciiFix Lexer.Next
  cases h : scanDelim Separator (3 : Int).toNat lex.remaining with
  | none => simp
  | some lit =>
    simp only []
    split_ifs with hb
    · simp
    · have hc : classify lit.dropLast = TokenType.BitsToken := by
        simpa [mkToken] using hb
      rw [classify_bits] at hc
      cases lit with
      | nil => simp at hc
      | cons a t =>
        simp only [mkToken, index0, List.head?_cons]
        split_ifs <;> simp

theorem AsciiMode_tok (me : ModeEnv) (lex : Lexer) :
    ∃ r, AsciiMode me lex = some r ∧ r.token = (lex.NextFixed 2).1 ∧
      r.lex = (lex.NextFixed 2).2.2 := by
  unfold AsciiMode
  by_cases h : 2 ≤ (lex.input.drop lex.pos).length
  · rw [NextFixed_ok lex 2 h]
    simp only []
    split_ifs
    · simp
    · simp
    · cases hr : lex.input.drop lex.pos with
      | nil => simp [hr] at h
      | cons a t =>
        simp only [mkToken, index0, List.take_succ_cons, List.head?_cons]
        split_ifs <;> simp
  · rw [NextFixed_short lex 2 (by omega)]
    simp

theorem AsciiMsgType_tok (lex : Lexer) (last : Bool) :
    ∃ r, AsciiMsgType lex last = some r ∧ r.token = (lex.NextFixed 2).1 ∧
      r.lex = (lex.NextFixed 2).2.2 := by
  unfold AsciiMsgType
  by_cases h : 2 ≤ (lex.input.drop lex.pos).length
  · rw [NextFixed_ok lex 2 h]
    simp only []
    split_ifs
    · simp
    · simp
    · simp
    · cases hr : lex.input.drop lex.pos with
      | nil => simp [hr] at h
      | cons a t =>
        simp only [mkToken, index0, List.take_succ_cons, List.head?_cons]
        split_ifs <;> simp
  · rw [NextFixed_short lex 2 (by omega)]
    simp

theorem literals_append (a b : List Token) : literals (a ++ b) = literals a ++ literals b := by
  induction a with
  | nil => simp [literals]
  | cons t a ih =>
    simp only [literals, List.cons_append, List.foldr_cons, List.append_assoc] at ih ⊢
    rw [ih]

theorem Acct.trans {lex l1 l2 : Lexer} {ts1 ts2 : List Token} {e1 e2 e : Option Error}
    (h1 : Acct lex ⟨ts1, e1, l1⟩) (h2 : Acct l1 ⟨ts2, e2, l2⟩) :
    Acct lex ⟨ts1 ++ ts2, e, l2⟩ := by
  obtain ⟨a1, b1, c1⟩ := h1
  obtain ⟨a2, b2, c2⟩ := h2
  simp only at a1 b1 c1 a2 b2 c2
  refine ⟨by simp only; rw [a2, a1], by simp only; omega, ?_⟩
  simp only [literals_append, c1, c2, a1]
  exact take_drop_append _ _ _ _ b1 b2

theorem AsciiTimestamp_acct (lex : Lexer) :
    Acct lex ⟨(AsciiTimestamp lex).tokens, (AsciiTimestamp lex).err, (AsciiTimestamp lex).lex⟩ := by
  unfold AsciiTimestamp
  rcases h1 : lex.NextFixed 9 with ⟨dt, _ | e, l1⟩
  · have hd : ∀ x, Acct lex ⟨[dt], x, l1⟩ := fun x =>
      acct_of_fixed lex 9 _ (by simp [h1]) (by simp [h1])
    simp only []
    split_ifs
    · exact hd _
    · exact hd _
    · rcases h2 : l1.NextFixed 9 with ⟨tt, _ | e, l2⟩
      · have ht : ∀ x, Acct l1 ⟨[tt], x, l2⟩ := fun x =>
          acct_of_fixed l1 9 _ (by simp [h2]) (by simp [h2])
        simp only []
        split_ifs
        · exact Acct.trans (hd none) (ht none)
        · exact Acct.trans (hd none) (ht none)
        · exact Acct.trans (hd none) (ht none)
      · have ht : ∀ x, Acct l1 ⟨[tt], x, l2⟩ := fun x =>
          acct_of_fixed l1 9 _ (by simp [h2]) (by simp [h2])
        exact Acct.trans (hd none) (ht none)
  · exact acct_of_fixed lex 9 _ (by simp [h1]) (by simp [h1])

/-- Every decoder returns (no panic) and accounts for the bytes it consumed. -/
theorem run_acct (fe : FloatEnv) (me : ModeEnv) (d : Decoder) (lex : Lexer) :
    ∃ st, d.run fe me lex = some st ∧ Acct lex st := by
  cases d with
  | DevID => exact ⟨_, rfl, acct_of_fixed lex 10 _ (by simp [Res.step, AsciiDevID_tok])
      (by simp [Res.step, AsciiDevID_tok])⟩
  | Model => exact ⟨_, rfl, acct_of_fixed lex 3 _ (by simp [Res.step, AsciiModel_tok])
      (by simp [Res.step, AsciiModel_tok])⟩
  | SwVer => exact ⟨_, rfl, acct_of_fixed lex 4 _ (by simp [Res.step, AsciiSwVer_tok])
      (by simp [Res.step, AsciiSwVer_tok])⟩
  | Timestamp => exact ⟨_, rfl, AsciiTimestamp_acct lex⟩
  | Cell => exact ⟨_, rfl, acct_of_next lex 7 Separator _ (by simp [Res.step, AsciiCell_tok])
      (by simp [Res.step, AsciiCell_tok])⟩
  | Lat => exact ⟨_, rfl, acct_of_next lex 11 Separator _
      (by simp [Res.step, AsciiLat_eq, asciiFloat_tok]) (by simp [Res.step, AsciiLat_eq, asciiFloat_tok])⟩
  | Lon => exact ⟨_, rfl, acct_of_next lex 12 Separator _
      (by simp [Res.step, AsciiLon_eq, asciiFloat_tok]) (by simp [Res.step, AsciiLon_eq, asciiFloat_tok])⟩
  | Speed => exact ⟨_, rfl, acct_of_next lex 8 Separator _
      (by simp [Res.step, AsciiSpeed_eq, asciiFloat_tok])
      (by simp [Res.step, AsciiSpeed_eq, asciiFloat_tok])⟩
  | Course => exact ⟨_, rfl, acct_of_next lex 7 Separator _
      (by simp [Res.step, AsciiCourse_eq, asciiFloat_tok])
      (by simp [Res.step, AsciiCourse_eq, asciiFloat_tok])⟩
  | Satellites => exact ⟨_, rfl, acct_of_next lex 3 Separator _
      (by simp [Res.step, AsciiSatellites_eq, asciiUint_tok])
      (by simp [Res.step, AsciiSatellites_eq, asciiUint_tok])⟩
  | Fix =>
    obtain ⟨r, h, ht, hl⟩ := AsciiFix_tok lex
    exact ⟨r.step, by simp [Decoder.run, h], acct_of_next lex 3 Separator _
      (by simp [Res.step, ht]) (by simp [Res.step, hl])⟩
  | Distance => exact ⟨_, rfl, acct_of_next lex 11 Separator _
      (by simp [Res.step, AsciiDistance_eq, asciiUint_tok])
      (by simp [Res.step, AsciiDistance_eq, asciiUint_tok])⟩
  | PowerVolt => exact ⟨_, rfl, acct_of_next lex 11 Separator _
      (by simp [Res.step, AsciiPowerVolt_eq, asciiFloat_tok])
      (by simp [Res.step, AsciiPowerVolt_eq, asciiFloat_tok])⟩
  | Mode =>
    obtain ⟨r, h, ht, hl⟩ := AsciiMode_tok me lex
    exact ⟨r.step, by simp [Decoder.run, h], acct_of_fixed lex 2 _
      (by simp [Res.step, ht]) (by simp [Res.step, hl])⟩
  | MsgNum => exact ⟨_, rfl, acct_of_fixed lex 5 _ (by simp [Res.step, AsciiMsgNum_tok])
      (by simp [Res.step, AsciiMsgNum_tok])⟩
  | DrivingHourMeter => exact ⟨_, rfl, acct_of_next lex 8 Separator _
      (by simp [Res.step, AsciiDrivingHourMeter_eq, asciiUint_tok])
      (by simp [Res.step, AsciiDrivingHourMeter_eq, asciiUint_tok])⟩
  | BackupVolt => exact ⟨_, rfl, acct_of_next lex 11 Separator _
      (by simp [Res.step, AsciiBackupVolt_eq, asciiFloat_tok])
      (by simp [Res.step, AsciiBackupVolt_eq, asciiFloat_tok])⟩
  | MsgType last =>
    obtain ⟨r, h, ht, hl⟩ := AsciiMsgType_tok lex last
    exact ⟨r.step, by simp [Decoder.run, h], acct_of_fixed lex 2 _
      (by simp [Res.step, ht]) (by simp [Res.step, hl])⟩
  | UnknownTail max => exact ⟨_, rfl, acct_of_next lex max EndOfFrame _
      (by simp [AsciiUnknownTail]) (by simp [AsciiUnknownTail])⟩

/-- A run of decoders returns (no panic), and the frame bytes it accumulates
are the accumulator followed by the bytes the cursor advanced over. -/
theorem runAll_acct (fe : FloatEnv) (me : ModeEnv) (ds : List Decoder) (lex : Lexer)
    (acc : List Nat) :
    ∃ frame err lex1, runAll fe me ds lex acc = some (frame, err, lex1) ∧
      lex1.input = lex.input ∧ lex.pos ≤ lex1.pos ∧
      frame = acc ++ (lex.input.drop lex.pos).take (lex1.pos - lex.pos) := by
  induction ds generalizing lex acc with
  | nil => exact ⟨acc, none, lex, rfl, rfl, le_refl _, by simp⟩
  | cons d ds ih =>
    obtain ⟨st, hst, ha, hb, hc⟩ := run_acct fe me d lex
    simp only [runAll, hst]
    cases he : st.err with
    | some e => exact ⟨_, _, _, rfl, ha, hb, by rw [hc]⟩
    | none =>
      obtain ⟨frame, err, lex1, h, h1, h2, h3⟩ := ih st.lex (acc ++ literals st.tokens)
      refine ⟨frame, err, lex1, h, by rw [h1, ha], by omega, ?_⟩
      rw [h3, hc, ha, List.append_assoc, take_drop_append _ _ _ _ hb h2]

/-- C2: every decoder returns, on every buffer and cursor, tokens whose
literals are exactly the bytes the cursor advanced over during the call
(whatever the error); hence for every sequence of decoders run in order from
the start of a frame the accumulated literals are the frame bytes up to the
cursor, and the whole frame when the run ends without error at the end of the
frame. -/
theorem C2_byte_accounting (fe : FloatEnv) (me : ModeEnv) :
    (∀ (d : Decoder) (lex : Lexer), ∃ st, d.run fe me lex = some st ∧
        st.lex.input = lex.input ∧ lex.pos ≤ st.lex.pos ∧
        literals st.tokens = (lex.input.drop lex.pos).take (st.lex.pos - lex.pos))
    ∧ (∀ (ds : List Decoder) (input : List Nat), ∃ frame err lex1,
        runAll fe me ds ⟨input, 0⟩ [] = some (frame, err, lex1) ∧
        frame = input.take lex1.pos ∧
        (err = none → lex1.pos = input.length → frame = input)) := by
  refine ⟨fun d lex => run_acct fe me d lex, fun ds input => ?_⟩
  obtain ⟨frame, err, lex1, h, _, _, h3⟩ := runAll_acct fe me ds ⟨input, 0⟩ []
  simp only [List.drop_zero, Nat.sub_zero, List.nil_append] at h3
  refine ⟨frame, err, lex1, h, h3, fun _ hp => ?_⟩
  rw [h3, hp, List.take_length]

/-- C2 at `shortFrame`: the run ends without error at the end of the frame and
the accumulated bytes are the frame. -/
theorem C2_byte_accounting_witness :
    (∃ frame err lex1,
        runAll noFloat sampleModes shortDecoders ⟨shortFrame, 0⟩ [] = some (frame, err, lex1) ∧
        frame = shortFrame.take lex1.pos ∧
        (err = none → lex1.pos = shortFrame.length → frame = shortFrame))
    ∧ runAll noFloat sampleModes shortDecoders ⟨shortFrame, 0⟩ []
        = some (shortFrame, none, ⟨shortFrame, shortFrame.length⟩) :=
  ⟨(C2_byte_accounting noFloat sampleModes).2 shortDecoders shortFrame, by decide⟩

/-! ### Fixed-width tokens -/

theorem take_dropLast (rem : List Nat) (n : Nat) (h : n ≤ rem.length) :
    (rem.take n).dropLast = rem.take (n - 1) := by
  rw [List.dropLast_eq_take, List.length_take, Nat.min_eq_left h, List.take_take]
  congr 1
  omega

theorem take_getLast (rem : List Nat) (n : Nat) (h0 : 1 ≤ n) (h : n ≤ rem.length) :
    (rem.take n).getLast? = rem[n - 1]? := by
  rw [List.getLast?_eq_getElem?, List.length_take, Nat.min_eq_left h, List.getElem?_take]
  rw [if_pos (by omega)]

theorem set_take_last (rem : List Nat) (k : Nat) (b : Nat) :
    (rem.set k b).take k = rem.take k := by
  rw [List.set_take, List.set_eq_of_length_le]
  rw [List.length_take]
  omega

theorem drop_set_add (input : List Nat) (pos k : Nat) (b : Nat) :
    (input.set (pos + k) b).drop pos = (input.drop pos).set k b := by
  rw [List.set_drop]

/-- The checks of a fixed-width token of width `k + 1` read off the remaining
bytes: content, trailing byte and tag. -/
theorem fixed_token (rem : List Nat) (k : Nat) (h : k + 1 ≤ rem.length) :
    (mkToken (rem.take (k + 1))).WithoutSuffix = rem.take k ∧
    (mkToken (rem.take (k + 1))).OnlyDigits = (rem.take k).all isDigit ∧
    (mkToken (rem.take (k + 1))).IsHex = (rem.take k).all isHexDigit ∧
    (mkToken (rem.take (k + 1))).Typ = classify (rem.take k) ∧
    (∀ b, (mkToken (rem.take (k + 1))).EndsWith b = (rem[k]? == some b)) := by
  have e := take_dropLast rem (k + 1) h
  have g := take_getLast rem (k + 1) (by omega) h
  simp only [Nat.add_sub_cancel] at e g
  simp only [Token.WithoutSuffix, Token.OnlyDigits, Token.IsHex, Token.EndsWith, mkToken, e, g]
  simp

/-- Replacing the trailing byte of a fixed-width token keeps its content and
sets its trailing byte. -/
theorem fixed_token_set (rem : List Nat) (k : Nat) (b : Nat) (h : k + 1 ≤ rem.length) :
    k + 1 ≤ (rem.set k b).length ∧ (rem.set k b).take k = rem.take k ∧
      (rem.set k b)[k]? = some b := by
  refine ⟨by simpa using h, set_take_last rem k b, ?_⟩
  rw [List.getElem?_set_self]
  omega

theorem AsciiDevID_long (input : List Nat) (pos : Nat) (h : 10 ≤ (input.drop pos).length) :
    AsciiDevID ⟨input, pos⟩ =
      if !((input.drop pos).take 9).all isDigit then
        ⟨[], mkToken ((input.drop pos).take 10), some Error.ErrInvalidDevID, ⟨input, pos + 10⟩⟩
      else if !((input.drop pos)[9]? == some Separator) then
        ⟨[], mkToken ((input.drop pos).take 10), some Error.ErrSeparator, ⟨input, pos + 10⟩⟩
      else
        ⟨(input.drop pos).take 9, mkToken ((input.drop pos).take 10), none, ⟨input, pos + 10⟩⟩ := by
  unfold AsciiDevID
  rw [NextFixed_ok _ 10 h]
  obtain ⟨e1, e2, _, _, e5⟩ := fixed_token (input.drop pos) 9 h
  simp only [e1, e2, e5]

theorem AsciiDevID_short (input : List Nat) (pos : Nat) (h : (input.drop pos).length < 10) :
    AsciiDevID ⟨input, pos⟩ = ⟨[], Token.zero, some Error.UnexpectedEndOfInput, ⟨input, pos⟩⟩ := by
  unfold AsciiDevID
  rw [NextFixed_short _ 10 h]

theorem AsciiDevID_sep (input : List Nat) (pos : Nat) (b : Nat) (hb : b ≠ Separator)
    (h : (AsciiDevID ⟨input, pos⟩).err = none) :
    (AsciiDevID ⟨input.set (pos + 9) b, pos⟩).err = some Error.ErrSeparator := by
  by_cases hl : 10 ≤ (input.drop pos).length
  · rw [AsciiDevID_long _ _ hl] at h
    obtain ⟨l2, t2, g2⟩ := fixed_token_set (input.drop pos) 9 b hl
    rw [AsciiDevID_long _ _ (by simpa [drop_set_add] using hl)]
    simp only [drop_set_add, t2, g2]
    split_ifs at h with c1 c2
    rw [if_neg c1, if_pos (by simp [hb])]
  · rw [AsciiDevID_short _ _ (by simpa using hl)] at h
    simp at h

theorem AsciiModel_long (input : List Nat) (pos : Nat) (h : 3 ≤ (input.drop pos).length) :
    AsciiModel ⟨input, pos⟩ =
      if !((input.drop pos).take 2).all isDigit then
        ⟨0, mkToken ((input.drop pos).take 3), some Error.ErrInvalidModel, ⟨input, pos + 3⟩⟩
      else if !((input.drop pos)[2]? == some Separator) then
        ⟨0, mkToken ((input.drop pos).take 3), some Error.ErrSeparator, ⟨input, pos + 3⟩⟩
      else
        match ParseUint ((input.drop pos).take 2) 10 8 with
        | (_, some e) => ⟨0, mkToken ((input.drop pos).take 3), some e, ⟨input, pos + 3⟩⟩
        | (x, none) => ⟨toModel x, mkToken ((input.drop pos).take 3), none, ⟨input, pos + 3⟩⟩ := by
  unfold AsciiModel
  rw [NextFixed_ok _ 3 h]
  obtain ⟨e1, e2, _, _, e5⟩ := fixed_token (input.drop pos) 2 h
  simp only [e1, e2, e5]

theorem AsciiModel_short (input : List Nat) (pos : Nat) (h : (input.drop pos).length < 3) :
    AsciiModel ⟨input, pos⟩ = ⟨0, Token.zero, some Error.UnexpectedEndOfInput, ⟨input, pos⟩⟩ := by
  unfold AsciiModel
  rw [NextFixed_short _ 3 h]

theorem AsciiModel_sep (input : List Nat) (pos : Nat) (b : Nat) (hb : b ≠ Separator)
    (h : (AsciiModel ⟨input, pos⟩).err = none) :
    (AsciiModel ⟨input.set (pos + 2) b, pos⟩).err = some Error.ErrSeparator := by
  by_cases hl : 3 ≤ (input.drop pos).length
  · rw [AsciiModel_long _ _ hl] at h
    obtain ⟨l2, t2, g2⟩ := fixed_token_set (input.drop pos) 2 b hl
    rw [AsciiModel_long _ _ (by simpa [drop_set_add] using hl)]
    simp only [drop_set_add, t2, g2]
    split_ifs at h with c1 c2
    rw [if_neg c1, if_pos (by simp [hb])]
  · rw [AsciiModel_short _ _ (by simpa using hl)] at h
    simp at h

theorem AsciiSwVer_long (input : List Nat) (pos : Nat) (h : 4 ≤ (input.drop pos).length) :
    AsciiSwVer ⟨input, pos⟩ =
      if !((input.drop pos).take 3).all isDigit then
        ⟨0, mkToken ((input.drop pos).take 4), some Error.ErrInvalidSwVer, ⟨input, pos + 4⟩⟩
      else if !((input.drop pos)[3]? == some Separator) then
        ⟨0, mkToken ((input.drop pos).take 4), some Error.ErrSeparator, ⟨input, pos + 4⟩⟩
      else
        match ParseUint ((input.drop pos).take 3) 10 16 with
        | (_, some e) => ⟨0, mkToken ((input.drop pos).take 4), some e, ⟨input, pos + 4⟩⟩
        | (x, none) => ⟨x % 2 ^ 16, mkToken ((input.drop pos).take 4), none, ⟨input, pos + 4⟩⟩ := by
  unfold AsciiSwVer
  rw [NextFixed_ok _ 4 h]
  obtain ⟨e1, e2, _, _, e5⟩ := fixed_token (input.drop pos) 3 h
  simp only [e1, e2, e5]

theorem AsciiSwVer_short (input : List Nat) (pos : Nat) (h : (input.drop pos).length < 4) :
    AsciiSwVer ⟨input, pos⟩ = ⟨0, Token.zero, some Error.UnexpectedEndOfInput, ⟨input, pos⟩⟩ := by
  unfold AsciiSwVer
  rw [NextFixed_short _ 4 h]

theorem AsciiSwVer_sep (input : List Nat) (pos : Nat) (b : Nat) (hb : b ≠ Separator)
    (h : (AsciiSwVer ⟨input, pos⟩).err = none) :
    (AsciiSwVer ⟨input.set (pos + 3) b, pos⟩).err = some Error.ErrSeparator := by
  by_cases hl : 4 ≤ (input.drop pos).length
  · rw [AsciiSwVer_long _ _ hl] at h
    obtain ⟨l2, t2, g2⟩ := fixed_token_set (input.drop pos) 3 b hl
    rw [AsciiSwVer_long _ _ (by simpa [drop_set_add] using hl)]
    simp only [drop_set_add, t2, g2]
    split_ifs at h with c1 c2
    rw [if_neg c1, if_pos (by simp [hb])]
  · rw [AsciiSwVer_short _ _ (by simpa using hl)] at h
    simp at h

theorem AsciiMsgNum_long (input : List Nat) (pos : Nat) (h : 5 ≤ (input.drop pos).length) :
    AsciiMsgNum ⟨input, pos⟩ =
      if !((input.drop pos).take 4).all isHexDigit then
        ⟨0, mkToken ((input.drop pos).take 5), some Error.ErrInvalidMsgNum, ⟨input, pos + 5⟩⟩
      else if !((input.drop pos)[4]? == some Separator) then
        ⟨0, mkToken ((input.drop pos).take 5), some Error.ErrSeparator, ⟨input, pos + 5⟩⟩
      else
        ⟨(ParseUint ((input.drop pos).take 4) 10 16).1 % 2 ^ 16, mkToken ((input.drop pos).take 5),
          (ParseUint ((input.drop pos).take 4) 10 16).2, ⟨input, pos + 5⟩⟩ := by
  unfold AsciiMsgNum
  rw [NextFixed_ok _ 5 h]
  obtain ⟨e1, _, e3, _, e5⟩ := fixed_token (input.drop pos) 4 h
  simp only [e1, e3, e5]

theorem AsciiMsgNum_short (input : List Nat) (pos : Nat) (h : (input.drop pos).length < 5) :
    AsciiMsgNum ⟨input, pos⟩ = ⟨0, Token.zero, some Error.UnexpectedEndOfInput, ⟨input, pos⟩⟩ := by
  unfold AsciiMsgNum
  rw [NextFixed_short _ 5 h]

theorem AsciiMsgNum_sep (input : List Nat) (pos : Nat) (b : Nat) (hb : b ≠ Separator)
    (h : (AsciiMsgNum ⟨input, pos⟩).err = none) :
    (AsciiMsgNum ⟨input.set (pos + 4) b, pos⟩).err = some Error.ErrSeparator := by
  by_cases hl : 5 ≤ (input.drop pos).length
  · rw [AsciiMsgNum_long _ _ hl] at h
    obtain ⟨l2, t2, g2⟩ := fixed_token_set (input.drop pos) 4 b hl
    rw [AsciiMsgNum_long _ _ (by simpa [drop_set_add] using hl)]
    simp only [drop_set_add, t2, g2]
    split_ifs at h with c1 c2
    rw [if_neg c1, if_pos (by simp [hb])]
  · rw [AsciiMsgNum_short _ _ (by simpa using hl)] at h
    simp at h

theorem index0_take (rem : List Nat) (n : Nat) : index0 (rem.take (n + 1)) = rem[0]? := by
  cases rem <;> simp [index0]

theorem AsciiMode_long (me : ModeEnv) (input : List Nat) (pos : Nat)
    (h : 2 ≤ (input.drop pos).length) :
    AsciiMode me ⟨input, pos⟩ =
      if !((input.drop pos).take 1).all isDigit then
        some ⟨me.zero, mkToken ((input.drop pos).take 2), some Error.ErrInvalidMode,
          ⟨input, pos + 2⟩⟩
      else if !((input.drop pos)[1]? == some Separator) then
        some ⟨me.zero, mkToken ((input.drop pos).take 2), some Error.ErrSeparator,
          ⟨input, pos + 2⟩⟩
      else
        match (input.drop pos)[0]? with
        | none => none
        | some b =>
          if b = 49 then some ⟨me.IdleMode, mkToken ((input.drop pos).take 2), none, ⟨input, pos + 2⟩⟩
          else if b = 50 then
            some ⟨me.ActiveMode, mkToken ((input.drop pos).take 2), none, ⟨input, pos + 2⟩⟩
          else if b = 52 then
            some ⟨me.DistanceMode, mkToken ((input.drop pos).take 2), none, ⟨input, pos + 2⟩⟩
          else if b = 53 then
            some ⟨me.AngleMode, mkToken ((input.drop pos).take 2), none, ⟨input, pos + 2⟩⟩
          else
            some ⟨me.zero, mkToken ((input.drop pos).take 2), some (Error.InvalidModeValue b),
              ⟨input, pos + 2⟩⟩ := by
  unfold AsciiMode
  rw [NextFixed_ok _ 2 h]
  obtain ⟨e1, e2, _, _, e5⟩ := fixed_token (input.drop pos) 1 h
  simp only [e1, e2, e5]
  have e6 : index0 (mkToken ((input.drop pos).take 2)).Literal = (input.drop pos)[0]? := by
    simp only [mkToken]; exact index0_take _ 1
  rw [e6]

theorem AsciiMode_short (me : ModeEnv) (input : List Nat) (pos : Nat)
    (h : (input.drop pos).length < 2) :
    AsciiMode me ⟨input, pos⟩
      = some ⟨me.zero, Token.zero, some Error.UnexpectedEndOfInput, ⟨input, pos⟩⟩ := by
  unfold AsciiMode
  rw [NextFixed_short _ 2 h]

theorem AsciiMsgType_long (input : List Nat) (pos : Nat) (last : Bool)
    (h : 2 ≤ (input.drop pos).length) :
    AsciiMsgType ⟨input, pos⟩ last =
      if classify ((input.drop pos).take 1) ≠ TokenType.BitsToken then
        some ⟨false, mkToken ((input.drop pos).take 2), some Error.ErrInvalidMsgType,
          ⟨input, pos + 2⟩⟩
      else if last && !((input.drop pos)[1]? == some EndOfFrame) then
        some ⟨false, mkToken ((input.drop pos).take 2), some Error.ErrEndOfFrame,
          ⟨input, pos + 2⟩⟩
      else if !last && !((input.drop pos)[1]? == some Separator) then
        some ⟨false, mkToken ((input.drop pos).take 2), some Error.ErrSeparator,
          ⟨input, pos + 2⟩⟩
      else
        match (input.drop pos)[0]? with
        | none => none
        | some b =>
          if b = 48 then some ⟨false, mkToken ((input.drop pos).take 2), none, ⟨input, pos + 2⟩⟩
          else if b = 49 then
            some ⟨true, mkToken ((input.drop pos).take 2), none, ⟨input, pos + 2⟩⟩
          else
            some ⟨false, mkToken ((input.drop pos).take 2), some (Error.InvalidMsgTypeValue b),
              ⟨input, pos + 2⟩⟩ := by
  unfold AsciiMsgType
  rw [NextFixed_ok _ 2 h]
  obtain ⟨e1, _, _, e4, e5⟩ := fixed_token (input.drop pos) 1 h
  simp only [e4, e5]
  have e6 : index0 (mkToken ((input.drop pos).take 2)).Literal = (input.drop pos)[0]? := by
    simp only [mkToken]; exact index0_take _ 1
  rw [e6]

theorem AsciiMsgType_short (input : List Nat) (pos : Nat) (last : Bool)
    (h : (input.drop pos).length < 2) :
    AsciiMsgType ⟨input, pos⟩ last
      = some ⟨false, Token.zero, some Error.UnexpectedEndOfInput, ⟨input, pos⟩⟩ := by
  unfold AsciiMsgType
  rw [NextFixed_short _ 2 h]

theorem AsciiMode_sep (me : ModeEnv) (input : List Nat) (pos : Nat) (b : Nat)
    (hb : b ≠ Separator)
    (h : (AsciiMode me ⟨input, pos⟩).map (fun r => r.err) = some none) :
    (AsciiMode me ⟨input.set (pos + 1) b, pos⟩).map (fun r => r.err)
      = some (some Error.ErrSeparator) := by
  by_cases hl : 2 ≤ (input.drop pos).length
  · rw [AsciiMode_long _ _ _ hl] at h
    obtain ⟨l2, t2, g2⟩ := fixed_token_set (input.drop pos) 1 b hl
    rw [AsciiMode_long _ _ _ (by simpa [drop_set_add] using hl)]
    simp only [drop_set_add, t2, g2]
    split_ifs at h with c1 c2
    · simp at h
    · simp at h
    · rw [if_neg c1, if_pos (by simp [hb])]
      rfl
  · rw [AsciiMode_short _ _ _ (by simpa using hl)] at h
    simp at h

theorem AsciiMsgType_sep (input : List Nat) (pos : Nat) (b : Nat) (hb : b ≠ Separator)
    (h : (AsciiMsgType ⟨input, pos⟩ false).map (fun r => r.err) = some none) :
    (AsciiMsgType ⟨input.set (pos + 1) b, pos⟩ false).map (fun r => r.err)
      = some (some Error.ErrSeparator) := by
  by_cases hl : 2 ≤ (input.drop pos).length
  · rw [AsciiMsgType_long _ _ _ hl] at h
    obtain ⟨l2, t2, g2⟩ := fixed_token_set (input.drop pos) 1 b hl
    rw [AsciiMsgType_long _ _ _ (by simpa [drop_set_add] using hl)]
    simp only [drop_set_add, t2, g2]
    split_ifs at h with c1 c2 c3
    · simp at h
    · simp at c2
    · simp at h
    · rw [if_neg c1, if_neg (by simp), if_pos (by simp [hb])]
      rfl
  · rw [AsciiMsgType_short _ _ _ (by simpa using hl)] at h
    simp at h

theorem AsciiTimestamp_short (input : List Nat) (pos : Nat) (h : (input.drop pos).length < 9) :
    AsciiTimestamp ⟨input, pos⟩
      = ⟨Time.zero, [Token.zero], some Error.UnexpectedEndOfInput, ⟨input, pos⟩⟩ := by
  unfold AsciiTimestamp
  rw [NextFixed_short _ 9 h]

theorem AsciiTimestamp_mid (input : List Nat) (pos : Nat) (h : 9 ≤ (input.drop pos).length)
    (h2 : (input.drop pos).length < 18) :
    AsciiTimestamp ⟨input, pos⟩ =
      if !((input.drop pos).take 8).all isDigit then
        ⟨Time.zero, [mkToken ((input.drop pos).take 9)], some Error.ErrInvalidDate,
          ⟨input, pos + 9⟩⟩
      else if !((input.drop pos)[8]? == some Separator) then
        ⟨Time.zero, [mkToken ((input.drop pos).take 9)], some Error.ErrSeparator,
          ⟨input, pos + 9⟩⟩
      else
        ⟨Time.zero, [mkToken ((input.drop pos).take 9), Token.zero],
          some Error.UnexpectedEndOfInput, ⟨input, pos + 9⟩⟩ := by
  unfold AsciiTimestamp
  rw [NextFixed_ok _ 9 h]
  obtain ⟨e1, e2, _, _, e5⟩ := fixed_token (input.drop pos) 8 h
  simp only [e1, e2, e5]
  have hs : (input.drop (pos + 9)).length < 9 := by
    simp only [List.length_drop] at h h2 ⊢
    omega
  rw [NextFixed_short ⟨input, pos + 9⟩ 9 hs]

theorem AsciiTimestamp_long (input : List Nat) (pos : Nat) (h : 18 ≤ (input.drop pos).length) :
    AsciiTimestamp ⟨input, pos⟩ =
      if !((input.drop pos).take 8).all isDigit then
        ⟨Time.zero, [mkToken ((input.drop pos).take 9)], some Error.ErrInvalidDate,
          ⟨input, pos + 9⟩⟩
      else if !((input.drop pos)[8]? == some Separator) then
        ⟨Time.zero, [mkToken ((input.drop pos).take 9)], some Error.ErrSeparator,
          ⟨input, pos + 9⟩⟩
      else if classify ((input.drop (pos + 9)).take 8) ≠ TokenType.DataToken then
        ⟨Time.zero, [mkToken ((input.drop pos).take 9), mkToken ((input.drop (pos + 9)).take 9)],
          some Error.ErrInvalidTime, ⟨input, pos + 9 + 9⟩⟩
      else if !((input.drop (pos + 9))[8]? == some Separator) then
        ⟨Time.zero, [mkToken ((input.drop pos).take 9), mkToken ((input.drop (pos + 9)).take 9)],
          some Error.ErrSeparator, ⟨input, pos + 9 + 9⟩⟩
      else
        ⟨(timeParse ((input.drop pos).take 9 ++ (input.drop (pos + 9)).take 9)).1,
          [mkToken ((input.drop pos).take 9), mkToken ((input.drop (pos + 9)).take 9)],
          (timeParse ((input.drop pos).take 9 ++ (input.drop (pos + 9)).take 9)).2,
          ⟨input, pos + 9 + 9⟩⟩ := by
  unfold AsciiTimestamp
  have h9 : 9 ≤ (input.drop pos).length := by omega
  rw [NextFixed_ok _ 9 h9]
  obtain ⟨e1, e2, _, _, e5⟩ := fixed_token (input.drop pos) 8 h9
  simp only [e1, e2, e5]
  have hs : 9 ≤ (input.drop (pos + 9)).length := by
    simp only [List.length_drop] at h ⊢
    omega
  rw [NextFixed_ok ⟨input, pos + 9⟩ 9 hs]
  obtain ⟨_, _, _, f4, f5⟩ := fixed_token (input.drop (pos + 9)) 8 hs
  simp only [f4, f5]
  simp only [mkToken]

theorem AsciiTimestamp_ok_len (input : List Nat) (pos : Nat)
    (h : (AsciiTimestamp ⟨input, pos⟩).err = none) : 18 ≤ (input.drop pos).length := by
  by_contra hc
  by_cases h9 : 9 ≤ (input.drop pos).length
  · rw [AsciiTimestamp_mid _ _ h9 (by omega)] at h
    split_ifs at h
  · rw [AsciiTimestamp_short _ _ (by omega)] at h
    simp at h

theorem AsciiTimestamp_sep_date (input : List Nat) (pos : Nat) (b : Nat) (hb : b ≠ Separator)
    (h : (AsciiTimestamp ⟨input, pos⟩).err = none) :
    (AsciiTimestamp ⟨input.set (pos + 8) b, pos⟩).err = some Error.ErrSeparator := by
  have hl := AsciiTimestamp_ok_len input pos h
  rw [AsciiTimestamp_long _ _ hl] at h
  obtain ⟨l2, t2, g2⟩ := fixed_token_set (input.drop pos) 8 b (by omega)
  rw [AsciiTimestamp_long _ _ (by simpa [drop_set_add] using hl)]
  simp only [drop_set_add, t2, g2]
  split_ifs at h with c1 c2 c3 c4
  rw [if_neg c1, if_pos (by simp [hb])]

theorem AsciiTimestamp_sep_time (input : List Nat) (pos : Nat) (b : Nat) (hb : b ≠ Separator)
    (h : (AsciiTimestamp ⟨input, pos⟩).err = none) :
    (AsciiTimestamp ⟨input.set (pos + 17) b, pos⟩).err = some Error.ErrSeparator := by
  have hl := AsciiTimestamp_ok_len input pos h
  rw [AsciiTimestamp_long _ _ hl] at h
  have hs : 9 ≤ (input.drop (pos + 9)).length := by
    simp only [List.length_drop] at hl ⊢
    omega
  obtain ⟨l2, t2, g2⟩ := fixed_token_set (input.drop (pos + 9)) 8 b hs
  have e17 : pos + 17 = pos + 9 + 8 := by omega
  have d1 : (input.set (pos + 17) b).drop (pos + 9) = (input.drop (pos + 9)).set 8 b := by
    rw [e17, drop_set_add]
  have d0 : (input.set (pos + 17) b).drop pos = (input.drop pos).set 17 b := drop_set_add _ _ _ _
  have t0 : ((input.drop pos).set 17 b).take 8 = (input.drop pos).take 8 :=
    List.take_set_of_lt _ _ (by omega)
  have g0 : ((input.drop pos).set 17 b)[8]? = (input.drop pos)[8]? :=
    List.getElem?_set_ne (by omega)
  rw [AsciiTimestamp_long _ _ (by simpa [d0] using hl)]
  simp only [d0, d1, t0, g0, t2, g2]
  split_ifs at h with c1 c2 c3 c4
  rw [if_neg c1, if_neg c2, if_neg c3, if_pos (by simp [hb])]

/-! ### Delimited tokens -/

theorem Next_err (lex : Lexer) (max : Int) (d : Nat) :
    (lex.Next max d).2.1 = none ∨ (lex.Next max d).2.1 = some Error.DelimiterNotFound := by
  unfold Lexer.Next
  split <;> simp

theorem asciiUint_no_sep (max : Int) (se : Error) (bits : Nat) (lex : Lexer)
    (hse : se ≠ Error.ErrSeparator) :
    (asciiUint max se bits lex).err ≠ some Error.ErrSeparator := by
  unfold asciiUint
  have hn := Next_err lex max Separator
  rcases hx : lex.Next max Separator with ⟨token, _ | e, lex1⟩
  · simp only []
    split_ifs
    · simpa using hse
    · unfold ParseUint
      split_ifs
      · simp
      · rcases parseUintLoop 10 (2 ^ bits - 1) token.WithoutSuffix 0 with ⟨n, _ | k⟩ <;> simp
  · rw [hx] at hn
    simp only [] at hn ⊢
    rcases hn with hn | hn
    · simp at hn
    · rw [hn]; simp

theorem asciiFloat_no_sep (fe : FloatEnv) (max : Int) (se : Error) (lex : Lexer)
    (hse : se ≠ Error.ErrSeparator) :
    (asciiFloat fe max se lex).err ≠ some Error.ErrSeparator := by
  unfold asciiFloat
  have hn := Next_err lex max Separator
  rcases hx : lex.Next max Separator with ⟨token, _ | e, lex1⟩
  · simp only []
    split_ifs
    · simpa using hse
    · rcases fe.ParseFloat token.WithoutSuffix 32 with ⟨x, _ | k⟩ <;> simp
  · rw [hx] at hn
    simp only [] at hn ⊢
    rcases hn with hn | hn
    · simp at hn
    · rw [hn]; simp

theorem AsciiCell_no_sep (lex : Lexer) : (AsciiCell lex).err ≠ some Error.ErrSeparator := by
  unfold AsciiCell
  have hn := Next_err lex 7 Separator
  rcases hx : lex.Next 7 Separator with ⟨token, _ | e, lex1⟩
  · simp only []
    split_ifs <;> simp
  · rw [hx] at hn
    simp only [] at hn ⊢
    rcases hn with hn | hn
    · simp at hn
    · rw [hn]; simp

theorem AsciiFix_no_sep (lex : Lexer) :
    (AsciiFix lex).map (fun r => r.err) ≠ some (some Error.ErrSeparator) := by
  unfold AsciiFix
  have hn := Next_err lex 3 Separator
  rcases hx : lex.Next 3 Separator with ⟨token, _ | e, lex1⟩
  · simp only []
    split_ifs
    · simp
    · cases index0 token.Literal with
      | none => simp
      | some b => simp only []; split_ifs <;> simp
  · rw [hx] at hn
    simp only [] at hn ⊢
    rcases hn with hn | hn
    · simp at hn
    · rw [hn]; simp

/-- C3, as stated, fails for the delimiter-scanned decoders: `AsciiCell`
succeeds on `1;2;`, and with the separator at position 1 replaced by `a` it
succeeds again, on the longer token `1a2;`; `AsciiSatellites` succeeds on
`5;1;`, and with the separator replaced by `x` the tokenizer fails with
`DelimiterNotFound`, not `ErrSeparator`. -/
theorem C3_counterexample :
    (AsciiCell ⟨bytes "1;2;", 0⟩).err = none
    ∧ (AsciiCell ⟨bytes "1;2;", 0⟩).token.Literal = bytes "1;"
    ∧ (AsciiCell ⟨(bytes "1;2;").set 1 97, 0⟩).err = none
    ∧ (AsciiCell ⟨(bytes "1;2;").set 1 97, 0⟩).val = bytes "1a2"
    ∧ (AsciiSatellites ⟨bytes "5;1;", 0⟩).err = none
    ∧ (AsciiSatellites ⟨bytes "5;1;", 0⟩).token.Literal = bytes "5;"
    ∧ (AsciiSatellites ⟨(bytes "5;1;").set 1 120, 0⟩).err = some Error.DelimiterNotFound := by
  decide

/-- C3, amended: for every fixed-width decoder of a delimiter-required field
(`AsciiDevID`, `AsciiModel`, `AsciiSwVer`, either token of `AsciiTimestamp`,
`AsciiMode`, `AsciiMsgNum`, `AsciiMsgType` with `last = false`) and every input
on which it succeeds, replacing the trailing separator of the field with any
other byte makes the decoder return `ErrSeparator`; the delimiter-scanned
decoders never return `ErrSeparator`. -/
theorem C3_fixed_width_separator (fe : FloatEnv) (me : ModeEnv) (input : List Nat) (pos : Nat)
    (b : Nat) (hb : b ≠ Separator) :
    ((AsciiDevID ⟨input, pos⟩).err = none →
      (AsciiDevID ⟨input.set (pos + 9) b, pos⟩).err = some Error.ErrSeparator)
    ∧ ((AsciiModel ⟨input, pos⟩).err = none →
      (AsciiModel ⟨input.set (pos + 2) b, pos⟩).err = some Error.ErrSeparator)
    ∧ ((AsciiSwVer ⟨input, pos⟩).err = none →
      (AsciiSwVer ⟨input.set (pos + 3) b, pos⟩).err = some Error.ErrSeparator)
    ∧ ((AsciiTimestamp ⟨input, pos⟩).err = none →
      (AsciiTimestamp ⟨input.set (pos + 8) b, pos⟩).err = some Error.ErrSeparator
      ∧ (AsciiTimestamp ⟨input.set (pos + 17) b, pos⟩).err = some Error.ErrSeparator)
    ∧ ((AsciiMode me ⟨input, pos⟩).map (fun r => r.err) = some none →
      (AsciiMode me ⟨input.set (pos + 1) b, pos⟩).map (fun r => r.err)
        = some (some Error.ErrSeparator))
    ∧ ((AsciiMsgNum ⟨input, pos⟩).err = none →
      (AsciiMsgNum ⟨input.set (pos + 4) b, pos⟩).err = some Error.ErrSeparator)
    ∧ ((AsciiMsgType ⟨input, pos⟩ false).map (fun r => r.err) = some none →
      (AsciiMsgType ⟨input.set (pos + 1) b, pos⟩ false).map (fun r => r.err)
        = some (some Error.ErrSeparator))
    ∧ (AsciiCell ⟨input, pos⟩).err ≠ some Error.ErrSeparator
    ∧ (AsciiLat fe ⟨input, pos⟩).err ≠ some Error.ErrSeparator
    ∧ (AsciiLon fe ⟨input, pos⟩).err ≠ some Error.ErrSeparator
    ∧ (AsciiSpeed fe ⟨input, pos⟩).err ≠ some Error.ErrSeparator
    ∧ (AsciiCourse fe ⟨input, pos⟩).err ≠ some Error.ErrSeparator
    ∧ (AsciiSatellites ⟨input, pos⟩).err ≠ some Error.ErrSeparator
    ∧ (AsciiFix ⟨input, pos⟩).map (fun r => r.err) ≠ some (some Error.ErrSeparator)
    ∧ (AsciiDistance ⟨input, pos⟩).err ≠ some Error.ErrSeparator
    ∧ (AsciiPowerVolt fe ⟨input, pos⟩).err ≠ some Error.ErrSeparator
    ∧ (AsciiDrivingHourMeter ⟨input, pos⟩).err ≠ some Error.ErrSeparator
    ∧ (AsciiBackupVolt fe ⟨input, pos⟩).err ≠ some Error.ErrSeparator := by
  refine ⟨AsciiDevID_sep input pos b hb, AsciiModel_sep input pos b hb,
    AsciiSwVer_sep input pos b hb,
    fun h => ⟨AsciiTimestamp_sep_date input pos b hb h, AsciiTimestamp_sep_time input pos b hb h⟩,
    AsciiMode_sep me input pos b hb, AsciiMsgNum_sep input pos b hb,
    AsciiMsgType_sep input pos b hb, AsciiCell_no_sep _,
    asciiFloat_no_sep fe _ _ _ (by decide), asciiFloat_no_sep fe _ _ _ (by decide),
    asciiFloat_no_sep fe _ _ _ (by decide), asciiFloat_no_sep fe _ _ _ (by decide),
    asciiUint_no_sep _ _ _ _ (by decide), AsciiFix_no_sep _,
    asciiUint_no_sep _ _ _ _ (by decide), asciiFloat_no_sep fe _ _ _ (by decide),
    asciiUint_no_sep _ _ _ _ (by decide), asciiFloat_no_sep fe _ _ _ (by decide)⟩

/-- C3 amended, at the emergency frame: the device id at position 0 and the
timestamp at position 17 decode, and with `x` in place of a trailing separator
they return `ErrSeparator`. -/
theorem C3_fixed_width_separator_witness :
    ((120 : Nat) ≠ Separator ∧ (AsciiDevID ⟨emgFrame, 0⟩).err = none
      ∧ (AsciiDevID ⟨emgFrame.set (0 + 9) 120, 0⟩).err = some Error.ErrSeparator)
    ∧ ((AsciiTimestamp ⟨emgFrame, 17⟩).err = none
      ∧ (AsciiTimestamp ⟨emgFrame.set (17 + 8) 120, 17⟩).err = some Error.ErrSeparator
      ∧ (AsciiTimestamp ⟨emgFrame.set (17 + 17) 120, 17⟩).err = some Error.ErrSeparator) :=
  ⟨⟨by decide, by decide,
    (C3_fixed_width_separator noFloat sampleModes emgFrame 0 120 (by decide)).1 (by decide)⟩,
   ⟨by decide,
    (C3_fixed_width_separator noFloat sampleModes emgFrame 17 120 (by decide)).2.2.2.1
      (by decide)⟩⟩

/-- C4: every fixed-width decoder, on an input with fewer bytes remaining at
the cursor than its width, returns the tokenizer's `UnexpectedEndOfInput` and
the zero value of its result type; so does `AsciiTimestamp` when its date
token passed its checks and fewer than 9 bytes remain for the time token. -/
theorem C4_truncated_fixed_width (me : ModeEnv) (input : List Nat) (pos : Nat) :
    ((input.drop pos).length < 10 →
      (AsciiDevID ⟨input, pos⟩).err = some Error.UnexpectedEndOfInput
      ∧ (AsciiDevID ⟨input, pos⟩).val = [])
    ∧ ((input.drop pos).length < 3 →
      (AsciiModel ⟨input, pos⟩).err = some Error.UnexpectedEndOfInput
      ∧ (AsciiModel ⟨input, pos⟩).val = 0)
    ∧ ((input.drop pos).length < 4 →
      (AsciiSwVer ⟨input, pos⟩).err = some Error.UnexpectedEndOfInput
      ∧ (AsciiSwVer ⟨input, pos⟩).val = 0)
    ∧ ((input.drop pos).length < 2 →
      (AsciiMode me ⟨input, pos⟩).map (fun r => (r.val, r.err))
        = some (me.zero, some Error.UnexpectedEndOfInput))
    ∧ ((input.drop pos).length < 5 →
      (AsciiMsgNum ⟨input, pos⟩).err = some Error.UnexpectedEndOfInput
      ∧ (AsciiMsgNum ⟨input, pos⟩).val = 0)
    ∧ ((input.drop pos).length < 2 → ∀ last,
      (AsciiMsgType ⟨input, pos⟩ last).map (fun r => (r.val, r.err))
        = some (false, some Error.UnexpectedEndOfInput))
    ∧ ((input.drop pos).length < 9 →
      (AsciiTimestamp ⟨input, pos⟩).err = some Error.UnexpectedEndOfInput
      ∧ (AsciiTimestamp ⟨input, pos⟩).ts = Time.zero)
    ∧ (9 ≤ (input.drop pos).length → (input.drop pos).length < 18 →
      ((input.drop pos).take 8).all isDigit = true → (input.drop pos)[8]? = some Separator →
      (AsciiTimestamp ⟨input, pos⟩).err = some Error.UnexpectedEndOfInput
      ∧ (AsciiTimestamp ⟨input, pos⟩).ts = Time.zero) := by
  refine ⟨fun h => ?_, fun h => ?_, fun h => ?_, fun h => ?_, fun h => ?_, fun h last => ?_,
    fun h => ?_, fun h9 h18 hd hs => ?_⟩
  · rw [AsciiDevID_short _ _ h]; exact ⟨rfl, rfl⟩
  · rw [AsciiModel_short _ _ h]; exact ⟨rfl, rfl⟩
  · rw [AsciiSwVer_short _ _ h]; exact ⟨rfl, rfl⟩
  · rw [AsciiMode_short _ _ _ h]; rfl
  · rw [AsciiMsgNum_short _ _ h]; exact ⟨rfl, rfl⟩
  · rw [AsciiMsgType_short _ _ _ h]; rfl
  · rw [AsciiTimestamp_short _ _ h]; exact ⟨rfl, rfl⟩
  · rw [AsciiTimestamp_mid _ _ h9 h18]
    simp [hd, hs]

/-- C4 at truncated inputs: `2059` for the device id, and a date followed by the
five bytes `13:32` for the timestamp. -/
theorem C4_truncated_fixed_width_witness :
    ((AsciiDevID ⟨bytes "2059", 0⟩).err = some Error.UnexpectedEndOfInput
      ∧ (AsciiDevID ⟨bytes "2059", 0⟩).val = [])
    ∧ ((AsciiTimestamp ⟨bytes "20151223;13:32", 0⟩).err = some Error.UnexpectedEndOfInput
      ∧ (AsciiTimestamp ⟨bytes "20151223;13:32", 0⟩).ts = Time.zero) :=
  ⟨(C4_truncated_fixed_width sampleModes (bytes "2059") 0).1 (by decide),
   (C4_truncated_fixed_width sampleModes (bytes "20151223;13:32") 0).2.2.2.2.2.2.2
     (by decide) (by decide) (by decide) (by decide)⟩

/-- C5: on a 2-byte token whose first byte is '0' or '1', `AsciiMsgType` with
`last = true` succeeds exactly when the second byte is the terminator CR and
otherwise returns `ErrEndOfFrame`; with `last = false` it succeeds exactly when
the second byte is the separator and otherwise returns `ErrSeparator`; on
success the result is true for '1' and false for '0'. -/
theorem C5_msgtype_boundary (input : List Nat) (pos : Nat) (a b : Nat) (rest : List Nat)
    (hr : input.drop pos = a :: b :: rest) (ha : a = 48 ∨ a = 49) :
    (AsciiMsgType ⟨input, pos⟩ true).map (fun r => (r.val, r.err))
      = some (if b = EndOfFrame then (decide (a = 49), none)
              else (false, some Error.ErrEndOfFrame))
    ∧ (AsciiMsgType ⟨input, pos⟩ false).map (fun r => (r.val, r.err))
      = some (if b = Separator then (decide (a = 49), none)
              else (false, some Error.ErrSeparator)) := by
  have hl : 2 ≤ (input.drop pos).length := by rw [hr]; simp
  have hc : classify [a] = TokenType.BitsToken := (classify_bits [a]).2 (by simpa using ha)
  rw [AsciiMsgType_long _ _ _ hl, AsciiMsgType_long _ _ _ hl, hr]
  simp only [List.take_succ_cons, List.take_zero, hc, ne_eq, not_true_eq_false, if_false]
  constructor
  · by_cases hb : b = EndOfFrame
    · rcases ha with ha | ha <;> simp [hb, ha]
    · simp [hb]
  · by_cases hb : b = Separator
    · rcases ha with ha | ha <;> simp [hb, ha]
    · simp [hb]

/-- C5 at the tokens `1;` and `1` followed by CR: swapping the separator and the
terminator fails. -/
theorem C5_msgtype_boundary_witness :
    ((AsciiMsgType ⟨bytes "1;", 0⟩ true).map (fun r => (r.val, r.err))
        = some (false, some Error.ErrEndOfFrame)
      ∧ (AsciiMsgType ⟨bytes "1;", 0⟩ false).map (fun r => (r.val, r.err)) = some (true, none))
    ∧ ((AsciiMsgType ⟨bytes "1\r", 0⟩ true).map (fun r => (r.val, r.err)) = some (true, none)
      ∧ (AsciiMsgType ⟨bytes "1\r", 0⟩ false).map (fun r => (r.val, r.err))
        = some (false, some Error.ErrSeparator)) :=
  ⟨C5_msgtype_boundary (bytes "1;") 0 49 59 [] (by decide) (by decide),
   C5_msgtype_boundary (bytes "1\r") 0 49 13 [] (by decide) (by decide)⟩

/-- C8: on a 2-byte token made of a decimal digit and the separator,
`AsciiMode` returns `IdleMode` for '1', `ActiveMode` for '2', `DistanceMode` for
'4' and `AngleMode` for '5' with a nil error, and for every other digit the
unrecognized-mode error and the zero mode; it returns a nil error for no other
token. -/
theorem C8_mode (me : ModeEnv) (input : List Nat) (pos : Nat) :
    (∀ d rest, input.drop pos = d :: Separator :: rest → isDigit d = true →
      (AsciiMode me ⟨input, pos⟩).map (fun r => (r.val, r.err))
        = some (if d = 49 then (me.IdleMode, none)
                else if d = 50 then (me.ActiveMode, none)
                else if d = 52 then (me.DistanceMode, none)
                else if d = 53 then (me.AngleMode, none)
                else (me.zero, some (Error.InvalidModeValue d))))
    ∧ ((AsciiMode me ⟨input, pos⟩).map (fun r => r.err) = some none →
      ∃ d rest, input.drop pos = d :: Separator :: rest
        ∧ (d = 49 ∨ d = 50 ∨ d = 52 ∨ d = 53)) := by
  constructor
  · intro d rest hr hd
    have hl : 2 ≤ (input.drop pos).length := by rw [hr]; simp
    rw [AsciiMode_long _ _ _ hl, hr]
    simp only [List.take_succ_cons, List.take_zero, List.all_cons, List.all_nil, hd, Bool.and_true,
      Bool.not_true, Bool.false_eq_true, if_false, List.getElem?_cons_succ,
      List.getElem?_cons_zero, beq_self_eq_true]
    split_ifs <;> rfl
  · intro h
    by_cases hl : 2 ≤ (input.drop pos).length
    · rw [AsciiMode_long _ _ _ hl] at h
      rcases hr : input.drop pos with _ | ⟨d, _ | ⟨s, rest⟩⟩
      · rw [hr] at hl; simp at hl
      · rw [hr] at hl; simp at hl
      · rw [hr] at h
        simp only [List.getElem?_cons_succ, List.getElem?_cons_zero] at h
        split_ifs at h with c1 c2 c3 c4 c5 c6
        · simp at h
        · simp at h
        · exact ⟨d, rest, by simpa using c2, Or.inl c3⟩
        · exact ⟨d, rest, by simpa using c2, Or.inr (Or.inl c4)⟩
        · exact ⟨d, rest, by simpa using c2, Or.inr (Or.inr (Or.inl c5))⟩
        · exact ⟨d, rest, by simpa using c2, Or.inr (Or.inr (Or.inr c6))⟩
        · simp at h
    · rw [AsciiMode_short _ _ _ (by omega)] at h
      simp at h

/-- C8 at the tokens `1;` (idle) and `3;` (no such mode). -/
theorem C8_mode_witness :
    (AsciiMode sampleModes ⟨bytes "1;", 0⟩).map (fun r => (r.val, r.err))
        = some (sampleModes.IdleMode, none)
    ∧ (AsciiMode sampleModes ⟨bytes "3;", 0⟩).map (fun r => (r.val, r.err))
        = some (sampleModes.zero, some (Error.InvalidModeValue 51))
    ∧ ∃ d rest, (bytes "1;").drop 0 = d :: Separator :: rest
        ∧ (d = 49 ∨ d = 50 ∨ d = 52 ∨ d = 53) :=
  ⟨(C8_mode sampleModes (bytes "1;") 0).1 49 [] (by decide) (by decide),
   (C8_mode sampleModes (bytes "3;") 0).1 51 [] (by decide) (by decide),
   (C8_mode sampleModes (bytes "1;") 0).2 (by decide)⟩

/-- A list with at least `k + 1` elements splits around its element `k`. -/
theorem split_at (rem : List Nat) (k : Nat) (b : Nat) (h : rem[k]? = some b) :
    rem = rem.take k ++ b :: rem.drop (k + 1) := by
  induction k generalizing rem with
  | zero =>
    cases rem with
    | nil => simp at h
    | cons a t => simp at h; simp [h]
  | succ k ih =>
    cases rem with
    | nil => simp at h
    | cons a t =>
      simp only [List.getElem?_cons_succ] at h
      simp only [List.take_succ_cons, List.drop_succ_cons, List.cons_append, List.cons.injEq,
        true_and]
      exact ih t h

/-- C9: `AsciiDevID` returns a nil error exactly when the next 10 bytes at the
cursor are nine decimal digits followed by the separator; the identifier is
then those nine digits and the token literal the 10 bytes. -/
theorem C9_devid (input : List Nat) (pos : Nat) :
    ((AsciiDevID ⟨input, pos⟩).err = none ↔
      ∃ ds rest, input.drop pos = ds ++ Separator :: rest ∧ ds.length = 9
        ∧ ds.all isDigit = true)
    ∧ (∀ ds rest, input.drop pos = ds ++ Separator :: rest → ds.length = 9 →
        ds.all isDigit = true →
        (AsciiDevID ⟨input, pos⟩).val = ds
        ∧ (AsciiDevID ⟨input, pos⟩).token.Literal = ds ++ [Separator]
        ∧ (AsciiDevID ⟨input, pos⟩).err = none) := by
  have key : ∀ ds rest, input.drop pos = ds ++ Separator :: rest → ds.length = 9 →
      ds.all isDigit = true →
      (AsciiDevID ⟨input, pos⟩).val = ds
      ∧ (AsciiDevID ⟨input, pos⟩).token.Literal = ds ++ [Separator]
      ∧ (AsciiDevID ⟨input, pos⟩).err = none := by
    intro ds rest hr hn hd
    have hl : 10 ≤ (input.drop pos).length := by
      rw [hr, List.length_append, List.length_cons, hn]; omega
    have t9 : (input.drop pos).take 9 = ds := by rw [hr, ← hn]; simp
    have t10 : (input.drop pos).take 10 = ds ++ [Separator] := by
      rw [hr, List.take_append_eq_append_take, hn]
      simp [List.take_of_length_le, hn]
    have g9 : (input.drop pos)[9]? = some Separator := by
      rw [hr, List.getElem?_append_right (by omega), hn]; simp
    rw [AsciiDevID_long _ _ hl, t9, t10, g9]
    simp [hd, mkToken]
  refine ⟨⟨fun h => ?_, fun ⟨ds, rest, hr, hn, hd⟩ => (key ds rest hr hn hd).2.2⟩, key⟩
  by_cases hl : 10 ≤ (input.drop pos).length
  · rw [AsciiDevID_long _ _ hl] at h
    split_ifs at h with c1 c2
    have g : (input.drop pos)[9]? = some Separator := by simpa using c2
    refine ⟨(input.drop pos).take 9, (input.drop pos).drop 10, split_at _ 9 _ g, ?_, ?_⟩
    · rw [List.length_take]; omega
    · simpa using c1
  · rw [AsciiDevID_short _ _ (by omega)] at h
    simp at h

/-- C9 at the device id of the emergency frame. -/
theorem C9_devid_witness :
    (AsciiDevID ⟨emgFrame, 0⟩).val = bytes "205951725"
    ∧ (AsciiDevID ⟨emgFrame, 0⟩).token.Literal = bytes "205951725" ++ [Separator]
    ∧ (AsciiDevID ⟨emgFrame, 0⟩).err = none :=
  (C9_devid emgFrame 0).2 (bytes "205951725") (emgFrame.drop 10) (by decide) (by decide)
    (by decide)

/-! ### `ParseUint` on digit strings -/

theorem foldl_dec_ge (s : List Nat) (n : Nat) :
    n ≤ s.foldl (fun n c => n * 10 + (c - 48)) n := by
  induction s generalizing n with
  | nil => simp
  | cons c cs ih =>
    simp only [List.foldl_cons]
    have := ih (n * 10 + (c - 48))
    omega

theorem parseUintLoop_digits (M : Nat) (hM : M < 2 ^ 64) (s : List Nat)
    (hs : s.all isDigit = true) (n : Nat) (hn : n ≤ M) :
    parseUintLoop 10 M s n =
      if s.foldl (fun n c => n * 10 + (c - 48)) n ≤ M then
        (s.foldl (fun n c => n * 10 + (c - 48)) n, none)
      else (M, some NumErrKind.ErrRange) := by
  induction s generalizing n with
  | nil => simp [parseUintLoop, hn]
  | cons c cs ih =>
    simp only [List.all_cons, Bool.and_eq_true] at hs
    obtain ⟨hc, hcs⟩ := hs
    have hc2 : 48 ≤ c ∧ c ≤ 57 := by simpa [isDigit] using hc
    have hge := foldl_dec_ge cs (n * 10 + (c - 48))
    have p64 : (2 : Nat) ^ 64 = 18446744073709551616 := by norm_num
    rw [p64] at hM
    simp only [parseUintLoop, hc2, and_self, if_true, List.foldl_cons, p64]
    have hd : ¬ (c - 48 ≥ 10) := by omega
    rw [if_neg hd]
    by_cases hcut : n ≥ (18446744073709551616 - 1) / 10 + 1
    · rw [if_pos hcut]
      norm_num at hcut
      rw [if_neg (by omega)]
    · rw [if_neg hcut]
      norm_num at hcut
      have e10 : n * 10 % 18446744073709551616 = n * 10 := Nat.mod_eq_of_lt (by omega)
      rw [e10]
      by_cases hw : n * 10 + (c - 48) < 18446744073709551616
      · have e1 : (n * 10 + (c - 48)) % 18446744073709551616 = n * 10 + (c - 48) :=
          Nat.mod_eq_of_lt hw
        rw [e1]
        by_cases hm : n * 10 + (c - 48) > M
        · rw [if_pos (Or.inr hm), if_neg (by omega)]
        · rw [if_neg (by omega)]
          exact ih hcs _ (by omega)
      · have e1 : (n * 10 + (c - 48)) % 18446744073709551616
            = n * 10 + (c - 48) - 18446744073709551616 := by
          rw [Nat.mod_eq_sub_mod (by omega)]
          exact Nat.mod_eq_of_lt (by omega)
        rw [e1, if_pos (Or.inl (by omega)), if_neg (by omega)]

/-- On a non-empty string of digits `ParseUint` returns the value the digits
denote when it fits the bit size, and otherwise the largest value of that size
with a range error. -/
theorem ParseUint_digits (s : List Nat) (bits : Nat) (hb : bits ≤ 64)
    (hs : s.all isDigit = true) (hne : s ≠ []) :
    ParseUint s 10 bits =
      if decVal s < 2 ^ bits then (decVal s, none)
      else (2 ^ bits - 1, some (Error.NumError s NumErrKind.ErrRange)) := by
  have hpos : 0 < 2 ^ bits := Nat.pow_pos (by norm_num)
  have hle : 2 ^ bits ≤ 2 ^ 64 := Nat.pow_le_pow_right (by norm_num) hb
  have hM : 2 ^ bits - 1 < 2 ^ 64 := by omega
  unfold ParseUint
  rw [if_neg hne, parseUintLoop_digits _ hM s hs 0 (Nat.zero_le _)]
  unfold decVal
  generalize s.foldl (fun n c => n * 10 + (c - 48)) 0 = v
  generalize 2 ^ bits = P at *
  by_cases h : v < P
  · rw [if_pos (by omega), if_pos h]
  · rw [if_neg (by omega), if_neg h]

theorem scanDelim_last (d : Nat) (k : Nat) (bs lit : List Nat)
    (h : scanDelim d k bs = some lit) : ∃ c, lit = c ++ [d] ∧ d ∉ c := by
  induction k generalizing bs lit with
  | zero => simp [scanDelim] at h
  | succ k ih =>
    cases bs with
    | nil => simp [scanDelim] at h
    | cons b bs =>
      simp only [scanDelim] at h
      split at h
      · rename_i hb
        cases h
        exact ⟨[], by simp [hb], by simp⟩
      · rename_i hb
        split at h
        · rename_i l hl
          cases h
          obtain ⟨c, hc, hn⟩ := ih bs l hl
          refine ⟨b :: c, by simp [hc], ?_⟩
          simp only [List.mem_cons, not_or]
          exact ⟨fun e => hb e.symm, hn⟩
        · cases h

/-- What a successful scan returns: the content before the first delimiter,
and how the scanned bytes split around that delimiter. -/
theorem scanDelim_split (d : Nat) (k : Nat) (bs lit : List Nat)
    (h : scanDelim d k bs = some lit) :
    ∃ c r, lit = c ++ [d] ∧ d ∉ c ∧ bs = c ++ d :: r := by
  obtain ⟨c, hc, hn⟩ := scanDelim_last d k bs lit h
  have ht := scanDelim_take d k bs lit h
  refine ⟨c, bs.drop lit.length, hc, hn, ?_⟩
  have := List.take_append_drop lit.length bs
  rw [← ht, hc] at this
  rw [hc]
  simpa using this.symm

theorem first_delim_unique (d : Nat) (a b r1 r2 : List Nat)
    (h : a ++ d :: r1 = b ++ d :: r2) (ha : d ∉ a) (hb : d ∉ b) : a = b := by
  induction a generalizing b with
  | nil =>
    cases b with
    | nil => rfl
    | cons y b =>
      simp only [List.nil_append, List.cons_append, List.cons.injEq] at h
      exact absurd h.1 (fun e => hb (by simp [e]))
  | cons x a ih =>
    cases b with
    | nil =>
      simp only [List.nil_append, List.cons_append, List.cons.injEq] at h
      exact absurd h.1 (fun e => ha (by simp [e]))
    | cons y b =>
      simp only [List.cons_append, List.cons.injEq] at h
      simp only [List.mem_cons, not_or] at ha hb
      rw [h.1, ih b h.2 ha.2 hb.2]

theorem digits_no_sep (s : List Nat) (hs : s.all isDigit = true) : Separator ∉ s := by
  intro hm
  have := (List.all_eq_true.1 hs) _ hm
  simp [isDigit, Separator] at this

/-- A successful delimited unsigned-integer decoder read a string of digits up
to the first separator and returned the value the digits denote, which fits the
bit size. -/
theorem asciiUint_ok (max : Int) (se : Error) (bits : Nat) (hb : bits ≤ 64)
    (input : List Nat) (pos : Nat) (h : (asciiUint max se bits ⟨input, pos⟩).err = none) :
    ∃ c r, input.drop pos = c ++ Separator :: r ∧ c.all isDigit = true
      ∧ (asciiUint max se bits ⟨input, pos⟩).token.WithoutSuffix = c
      ∧ (asciiUint max se bits ⟨input, pos⟩).val = decVal c ∧ decVal c < 2 ^ bits := by
  unfold asciiUint Lexer.Next at h ⊢
  simp only [Lexer.remaining] at h ⊢
  cases hs : scanDelim Separator max.toNat (input.drop pos) with
  | none => rw [hs] at h; simp at h
  | some lit =>
    obtain ⟨c, r, hl, _, hr⟩ := scanDelim_split _ _ _ _ hs
    rw [hs] at h
    simp only [] at h ⊢
    have hw : (mkToken lit).WithoutSuffix = c := by simp [Token.WithoutSuffix, mkToken, hl]
    have ho : (mkToken lit).OnlyDigits = c.all isDigit := by simp [Token.OnlyDigits, hw]
    rw [ho, hw] at h ⊢
    by_cases hd : c.all isDigit = true
    · simp only [hd, Bool.not_true, Bool.false_eq_true, if_false] at h ⊢
      by_cases hne : c = []
      · rw [hne] at h
        simp [ParseUint] at h
      · rw [ParseUint_digits c bits hb hd hne] at h ⊢
        by_cases hv : decVal c < 2 ^ bits
        · rw [if_pos hv]
          simp only []
          exact ⟨c, r, hr, hd, hw, Nat.mod_eq_of_lt hv, hv⟩
        · rw [if_neg hv] at h
          simp at h
    · simp [hd] at h

theorem AsciiModel_ok (input : List Nat) (pos : Nat) (h : (AsciiModel ⟨input, pos⟩).err = none) :
    ∃ c r, input.drop pos = c ++ Separator :: r ∧ c.all isDigit = true
      ∧ (AsciiModel ⟨input, pos⟩).token.WithoutSuffix = c
      ∧ (AsciiModel ⟨input, pos⟩).val = decVal c ∧ decVal c < 2 ^ 8 := by
  by_cases hl : 3 ≤ (input.drop pos).length
  · rw [AsciiModel_long _ _ hl] at h ⊢
    obtain ⟨e1, _, _, _, _⟩ := fixed_token (input.drop pos) 2 hl
    split_ifs at h with c1 c2
    rw [if_neg c1, if_neg c2]
    have hd : ((input.drop pos).take 2).all isDigit = true := by simpa using c1
    have g : (input.drop pos)[2]? = some Separator := by simpa using c2
    have hne : (input.drop pos).take 2 ≠ [] := by
      have hk : ((input.drop pos).take 2).length = 2 := by
        rw [List.length_take]; omega
      intro e
      rw [e] at hk
      simp at hk
    rw [ParseUint_digits _ 8 (by norm_num) hd hne] at h ⊢
    by_cases hv : decVal ((input.drop pos).take 2) < 2 ^ 8
    · rw [if_pos hv]
      simp only []
      exact ⟨_, _, split_at _ 2 _ g, hd, e1, Nat.mod_eq_of_lt hv, hv⟩
    · rw [if_neg hv] at h
      simp at h
  · rw [AsciiModel_short _ _ (by omega)] at h
    simp at h

theorem AsciiSwVer_ok (input : List Nat) (pos : Nat) (h : (AsciiSwVer ⟨input, pos⟩).err = none) :
    ∃ c r, input.drop pos = c ++ Separator :: r ∧ c.all isDigit = true
      ∧ (AsciiSwVer ⟨input, pos⟩).token.WithoutSuffix = c
      ∧ (AsciiSwVer ⟨input, pos⟩).val = decVal c ∧ decVal c < 2 ^ 16 := by
  by_cases hl : 4 ≤ (input.drop pos).length
  · rw [AsciiSwVer_long _ _ hl] at h ⊢
    obtain ⟨e1, _, _, _, _⟩ := fixed_token (input.drop pos) 3 hl
    split_ifs at h with c1 c2
    rw [if_neg c1, if_neg c2]
    have hd : ((input.drop pos).take 3).all isDigit = true := by simpa using c1
    have g : (input.drop pos)[3]? = some Separator := by simpa using c2
    have hne : (input.drop pos).take 3 ≠ [] := by
      have hk : ((input.drop pos).take 3).length = 3 := by
        rw [List.length_take]; omega
      intro e
      rw [e] at hk
      simp at hk
    rw [ParseUint_digits _ 16 (by norm_num) hd hne] at h ⊢
    by_cases hv : decVal ((input.drop pos).take 3) < 2 ^ 16
    · rw [if_pos hv]
      simp only []
      exact ⟨_, _, split_at _ 3 _ g, hd, e1, Nat.mod_eq_of_lt hv, hv⟩
    · rw [if_neg hv] at h
      simp at h
  · rw [AsciiSwVer_short _ _ (by omega)] at h
    simp at h

theorem asciiUint_err_zero (max : Int) (se : Error) (bits : Nat) (lex : Lexer) :
    (asciiUint max se bits lex).err = none ∨ (asciiUint max se bits lex).val = 0 := by
  unfold asciiUint
  rcases lex.Next max Separator with ⟨token, _ | e, lex1⟩
  · simp only []
    split_ifs
    · exact Or.inr rfl
    · rcases ParseUint token.WithoutSuffix 10 bits with ⟨x, _ | e⟩
      · exact Or.inl rfl
      · exact Or.inr rfl
  · exact Or.inr rfl

theorem AsciiModel_err_zero (lex : Lexer) :
    (AsciiModel lex).err = none ∨ (AsciiModel lex).val = 0 := by
  unfold AsciiModel
  rcases lex.NextFixed 3 with ⟨token, _ | e, lex1⟩
  · simp only []
    split_ifs
    · exact Or.inr rfl
    · exact Or.inr rfl
    · rcases ParseUint token.WithoutSuffix 10 8 with ⟨x, _ | e⟩
      · exact Or.inl rfl
      · exact Or.inr rfl
  · exact Or.inr rfl

theorem AsciiSwVer_err_zero (lex : Lexer) :
    (AsciiSwVer lex).err = none ∨ (AsciiSwVer lex).val = 0 := by
  unfold AsciiSwVer
  rcases lex.NextFixed 4 with ⟨token, _ | e, lex1⟩
  · simp only []
    split_ifs
    · exact Or.inr rfl
    · exact Or.inr rfl
    · rcases ParseUint token.WithoutSuffix 10 16 with ⟨x, _ | e⟩
      · exact Or.inl rfl
      · exact Or.inr rfl
  · exact Or.inr rfl

/-- A decoder that, when it succeeds, read digits up to the first separator and
got a value below `B`, fails with the zero value on digits that denote `B` or
more. -/
theorem overflow_rejected (rem ds rest : List Nat) (B val : Nat) (err : Option Error)
    (ok : err = none → ∃ c r, rem = c ++ Separator :: r ∧ c.all isDigit = true
      ∧ decVal c < B)
    (ez : err = none ∨ val = 0)
    (hr : rem = ds ++ Separator :: rest) (hd : ds.all isDigit = true) (hv : B ≤ decVal ds) :
    err ≠ none ∧ val = 0 := by
  have hne : err ≠ none := by
    intro h
    obtain ⟨c, r, hc, hcd, hlt⟩ := ok h
    have e : c = ds :=
      first_delim_unique Separator c ds r rest (hc.symm.trans hr) (digits_no_sep c hcd)
        (digits_no_sep ds hd)
    rw [e] at hlt
    omega
  exact ⟨hne, ez.resolve_left hne⟩

/-- C6: when an unsigned-integer decoder returns a nil error its result is the
base-10 value of the token content and that value is below 2^width, so the
conversion to the narrow type does not wrap; and whenever the digits before
the separator denote 2^width or more, the decoder returns a non-nil error and
the zero value. -/
theorem C6_no_truncation (input : List Nat) (pos : Nat) :
    (((AsciiModel ⟨input, pos⟩).err = none →
        (AsciiModel ⟨input, pos⟩).val = decVal (AsciiModel ⟨input, pos⟩).token.WithoutSuffix
        ∧ decVal (AsciiModel ⟨input, pos⟩).token.WithoutSuffix < 2 ^ 8)
      ∧ ((AsciiSwVer ⟨input, pos⟩).err = none →
        (AsciiSwVer ⟨input, pos⟩).val = decVal (AsciiSwVer ⟨input, pos⟩).token.WithoutSuffix
        ∧ decVal (AsciiSwVer ⟨input, pos⟩).token.WithoutSuffix < 2 ^ 16)
      ∧ ((AsciiSatellites ⟨input, pos⟩).err = none →
        (AsciiSatellites ⟨input, pos⟩).val
          = decVal (AsciiSatellites ⟨input, pos⟩).token.WithoutSuffix
        ∧ decVal (AsciiSatellites ⟨input, pos⟩).token.WithoutSuffix < 2 ^ 8)
      ∧ ((AsciiDistance ⟨input, pos⟩).err = none →
        (AsciiDistance ⟨input, pos⟩).val
          = decVal (AsciiDistance ⟨input, pos⟩).token.WithoutSuffix
        ∧ decVal (AsciiDistance ⟨input, pos⟩).token.WithoutSuffix < 2 ^ 32)
      ∧ ((AsciiDrivingHourMeter ⟨input, pos⟩).err = none →
        (AsciiDrivingHourMeter ⟨input, pos⟩).val
          = decVal (AsciiDrivingHourMeter ⟨input, pos⟩).token.WithoutSuffix
        ∧ decVal (AsciiDrivingHourMeter ⟨input, pos⟩).token.WithoutSuffix < 2 ^ 32))
    ∧ (∀ ds rest, input.drop pos = ds ++ Separator :: rest → ds.all isDigit = true →
      (2 ^ 8 ≤ decVal ds →
        (AsciiModel ⟨input, pos⟩).err ≠ none ∧ (AsciiModel ⟨input, pos⟩).val = 0)
      ∧ (2 ^ 16 ≤ decVal ds →
        (AsciiSwVer ⟨input, pos⟩).err ≠ none ∧ (AsciiSwVer ⟨input, pos⟩).val = 0)
      ∧ (2 ^ 8 ≤ decVal ds →
        (AsciiSatellites ⟨input, pos⟩).err ≠ none ∧ (AsciiSatellites ⟨input, pos⟩).val = 0)
      ∧ (2 ^ 32 ≤ decVal ds →
        (AsciiDistance ⟨input, pos⟩).err ≠ none ∧ (AsciiDistance ⟨input, pos⟩).val = 0)
      ∧ (2 ^ 32 ≤ decVal ds →
        (AsciiDrivingHourMeter ⟨input, pos⟩).err ≠ none
        ∧ (AsciiDrivingHourMeter ⟨input, pos⟩).val = 0)) := by
  have okM := AsciiModel_ok input pos
  have okS := AsciiSwVer_ok input pos
  have okSat := asciiUint_ok 3 Error.ErrInvalidSatt 8 (by norm_num) input pos
  have okD := asciiUint_ok 11 Error.ErrInvalidDist 32 (by norm_num) input pos
  have okH := asciiUint_ok 8 Error.ErrInvalidHMeter 32 (by norm_num) input pos
  refine ⟨⟨fun h => ?_, fun h => ?_, fun h => ?_, fun h => ?_, fun h => ?_⟩,
    fun ds rest hr hd => ⟨fun hv => ?_, fun hv => ?_, fun hv => ?_, fun hv => ?_, fun hv => ?_⟩⟩
  · obtain ⟨c, r, _, _, hw, hval, hlt⟩ := okM h
    rw [hw]; exact ⟨hval, hlt⟩
  · obtain ⟨c, r, _, _, hw, hval, hlt⟩ := okS h
    rw [hw]; exact ⟨hval, hlt⟩
  · obtain ⟨c, r, _, _, hw, hval, hlt⟩ := okSat h
    rw [AsciiSatellites_eq]
    rw [hw]; exact ⟨hval, hlt⟩
  · obtain ⟨c, r, _, _, hw, hval, hlt⟩ := okD h
    rw [AsciiDistance_eq]
    rw [hw]; exact ⟨hval, hlt⟩
  · obtain ⟨c, r, _, _, hw, hval, hlt⟩ := okH h
    rw [AsciiDrivingHourMeter_eq]
    rw [hw]; exact ⟨hval, hlt⟩
  · refine overflow_rejected _ ds rest (2 ^ 8) _ _ (fun h => ?_) (AsciiModel_err_zero _) hr hd hv
    obtain ⟨c, r, h1, h2, _, h4, h5⟩ := okM h
    exact ⟨c, r, h1, h2, h5⟩
  · refine overflow_rejected _ ds rest (2 ^ 16) _ _ (fun h => ?_) (AsciiSwVer_err_zero _) hr hd hv
    obtain ⟨c, r, h1, h2, _, h4, h5⟩ := okS h
    exact ⟨c, r, h1, h2, h5⟩
  · refine overflow_rejected _ ds rest (2 ^ 8) _ _ (fun h => ?_)
      (asciiUint_err_zero 3 Error.ErrInvalidSatt 8 _) hr hd hv
    obtain ⟨c, r, h1, h2, _, h4, h5⟩ := okSat h
    exact ⟨c, r, h1, h2, h5⟩
  · refine overflow_rejected _ ds rest (2 ^ 32) _ _ (fun h => ?_)
      (asciiUint_err_zero 11 Error.ErrInvalidDist 32 _) hr hd hv
    obtain ⟨c, r, h1, h2, _, h4, h5⟩ := okD h
    exact ⟨c, r, h1, h2, h5⟩
  · refine overflow_rejected _ ds rest (2 ^ 32) _ _ (fun h => ?_)
      (asciiUint_err_zero 8 Error.ErrInvalidHMeter 32 _) hr hd hv
    obtain ⟨c, r, h1, h2, _, h4, h5⟩ := okH h
    exact ⟨c, r, h1, h2, h5⟩

/-- C6 at the distance fields `190269102;` of the emergency frame (in range)
and `4294967296;` and `9999999999;` (2^32 or more). -/
theorem C6_no_truncation_witness :
    ((AsciiDistance ⟨emgFrame, 100⟩).val = decVal (bytes "190269102")
      ∧ decVal (bytes "190269102") < 2 ^ 32)
    ∧ ((AsciiDistance ⟨bytes "4294967296;", 0⟩).err ≠ none
      ∧ (AsciiDistance ⟨bytes "4294967296;", 0⟩).val = 0)
    ∧ ((AsciiDistance ⟨bytes "9999999999;", 0⟩).err ≠ none
      ∧ (AsciiDistance ⟨bytes "9999999999;", 0⟩).val = 0) :=
  ⟨(C6_no_truncation emgFrame 100).1.2.2.2.1 (by decide),
   ((C6_no_truncation (bytes "4294967296;") 0).2 (bytes "4294967296") [] (by decide)
      (by decide)).2.2.2.1 (by decide),
   ((C6_no_truncation (bytes "9999999999;") 0).2 (bytes "9999999999") [] (by decide)
      (by decide)).2.2.2.1 (by decide)⟩

/-! ### Zero value on error -/

/-- When the accumulator leaves room for all the remaining characters, the
loop of `ParseUint` cannot overflow: it succeeds or returns 0 with a syntax
error. -/
theorem parseUintLoop_small (M : Nat) (hM : M < 2 ^ 64) (s : List Nat) (n : Nat)
    (hn : (n + 1) * 10 ^ s.length ≤ M + 1) :
    (parseUintLoop 10 M s n).2 = none
      ∨ parseUintLoop 10 M s n = (0, some NumErrKind.ErrSyntax) := by
  induction s generalizing n with
  | nil => simp [parseUintLoop]
  | cons c cs ih =>
    have p64 : (2 : Nat) ^ 64 = 18446744073709551616 := by norm_num
    rw [p64] at hM
    simp only [List.length_cons, pow_succ] at hn
    have hk : 1 ≤ 10 ^ cs.length := Nat.one_le_two_pow.trans
      (Nat.pow_le_pow_left (by norm_num) _)
    have h1 : (n + 1) * 10 ≤ (n + 1) * (10 ^ cs.length * 10) :=
      Nat.mul_le_mul_left _ (by omega)
    have h2 : (n * 10 + 9 + 1) * 10 ^ cs.length = (n + 1) * (10 ^ cs.length * 10) := by ring
    simp only [parseUintLoop, p64]
    by_cases hc : 48 ≤ c ∧ c ≤ 57
    · rw [if_pos hc]
      simp only []
      rw [if_neg (by omega), if_neg (by norm_num; omega)]
      have e10 : n * 10 % 18446744073709551616 = n * 10 := Nat.mod_eq_of_lt (by omega)
      have e1 : (n * 10 + (c - 48)) % 18446744073709551616 = n * 10 + (c - 48) :=
        Nat.mod_eq_of_lt (by omega)
      rw [e10, e1, if_neg (by omega)]
      apply ih
      have h3 : (n * 10 + (c - 48) + 1) * 10 ^ cs.length
          ≤ (n * 10 + 9 + 1) * 10 ^ cs.length := Nat.mul_le_mul_right _ (by omega)
      omega
    · rw [if_neg hc]
      by_cases hl : 97 ≤ lower c ∧ lower c ≤ 122
      · rw [if_pos hl]
        simp only []
        rw [if_pos (by omega)]
        exact Or.inr rfl
      · rw [if_neg hl]
        exact Or.inr rfl

theorem ParseUint_small (s : List Nat) (hs : s.length ≤ 4) :
    (ParseUint s 10 16).2 = none ∨ (ParseUint s 10 16).1 = 0 := by
  unfold ParseUint
  split_ifs
  · exact Or.inr rfl
  · have hp : (10 : Nat) ^ s.length ≤ 10 ^ 4 := Nat.pow_le_pow_right (by norm_num) hs
    have := parseUintLoop_small (2 ^ 16 - 1) (by norm_num) s 0 (by norm_num at hp ⊢; omega)
    rcases hx : parseUintLoop 10 (2 ^ 16 - 1) s 0 with ⟨v, _ | k⟩
    · exact Or.inl rfl
    · rw [hx] at this
      rcases this with h | h
      · simp at h
      · simp only [Prod.mk.injEq] at h
        exact Or.inr h.1

theorem AsciiMsgNum_err_zero (input : List Nat) (pos : Nat) :
    (AsciiMsgNum ⟨input, pos⟩).err = none ∨ (AsciiMsgNum ⟨input, pos⟩).val = 0 := by
  by_cases hl : 5 ≤ (input.drop pos).length
  · rw [AsciiMsgNum_long _ _ hl]
    split_ifs
    · exact Or.inr rfl
    · exact Or.inr rfl
    · have hs : ((input.drop pos).take 4).length ≤ 4 := by
        rw [List.length_take]; omega
      rcases ParseUint_small _ hs with h | h
      · exact Or.inl h
      · right
        simp only [h]
        rfl
  · rw [AsciiMsgNum_short _ _ (by omega)]
    exact Or.inr rfl

theorem AsciiDevID_err_zero (lex : Lexer) :
    (AsciiDevID lex).err = none ∨ (AsciiDevID lex).val = [] := by
  unfold AsciiDevID
  rcases lex.NextFixed 10 with ⟨token, _ | e, lex1⟩
  · simp only []
    split_ifs
    · exact Or.inr rfl
    · exact Or.inr rfl
    · exact Or.inl rfl
  · exact Or.inr rfl

theorem AsciiCell_err_zero (lex : Lexer) :
    (AsciiCell lex).err = none ∨ (AsciiCell lex).val = [] := by
  unfold AsciiCell
  rcases lex.Next 7 Separator with ⟨token, _ | e, lex1⟩
  · simp only []
    split_ifs
    · exact Or.inr rfl
    · exact Or.inl rfl
  · exact Or.inr rfl

theorem asciiFloat_err_zero (fe : FloatEnv) (max : Int) (se : Error) (lex : Lexer) :
    (asciiFloat fe max se lex).err = none ∨ (asciiFloat fe max se lex).val = fe.zero32 := by
  unfold asciiFloat
  rcases lex.Next max Separator with ⟨token, _ | e, lex1⟩
  · simp only []
    split_ifs
    · exact Or.inr rfl
    · rcases fe.ParseFloat token.WithoutSuffix 32 with ⟨x, _ | k⟩
      · exact Or.inl rfl
      · exact Or.inr rfl
  · exact Or.inr rfl

theorem timeParse_err_zero (value : List Nat) :
    (timeParse value).2 = none ∨ (timeParse value).1 = Time.zero := by
  unfold timeParse
  cases parseTs value with
  | none => exact Or.inr rfl
  | some t => exact Or.inl rfl

theorem AsciiTimestamp_err_zero (lex : Lexer) :
    (AsciiTimestamp lex).err = none ∨ (AsciiTimestamp lex).ts = Time.zero := by
  unfold AsciiTimestamp
  rcases lex.NextFixed 9 with ⟨dt, _ | e, l1⟩
  · simp only []
    split_ifs
    · exact Or.inr rfl
    · exact Or.inr rfl
    · rcases l1.NextFixed 9 with ⟨tt, _ | e, l2⟩
      · simp only []
        split_ifs
        · exact Or.inr rfl
        · exact Or.inr rfl
        · exact timeParse_err_zero _
      · exact Or.inr rfl
  · exact Or.inr rfl

theorem AsciiFix_err_zero (lex : Lexer) :
    ∃ r, AsciiFix lex = some r ∧ (r.err = none ∨ r.val = false) := by
  obtain ⟨r, hr, _, _⟩ := AsciiFix_tok lex
  refine ⟨r, hr, ?_⟩
  unfold AsciiFix at hr
  generalize lex.Next 3 Separator = nx at hr
  obtain ⟨token, _ | e, lex1⟩ := nx
  · simp only [] at hr
    split_ifs at hr
    · cases hr; exact Or.inr rfl
    · cases hi : index0 token.Literal with
      | none => rw [hi] at hr; simp at hr
      | some b =>
        rw [hi] at hr
        simp only [] at hr
        split_ifs at hr <;> cases hr
        · exact Or.inl rfl
        · exact Or.inl rfl
        · exact Or.inr rfl
  · cases hr; exact Or.inr rfl

theorem AsciiMode_err_zero (me : ModeEnv) (lex : Lexer) :
    ∃ r, AsciiMode me lex = some r ∧ (r.err = none ∨ r.val = me.zero) := by
  obtain ⟨r, hr, _, _⟩ := AsciiMode_tok me lex
  refine ⟨r, hr, ?_⟩
  unfold AsciiMode at hr
  generalize lex.NextFixed 2 = nx at hr
  obtain ⟨token, _ | e, lex1⟩ := nx
  · simp only [] at hr
    split_ifs at hr
    · cases hr; exact Or.inr rfl
    · cases hr; exact Or.inr rfl
    · cases hi : index0 token.Literal with
      | none => rw [hi] at hr; simp at hr
      | some b =>
        rw [hi] at hr
        simp only [] at hr
        split_ifs at hr <;> cases hr
        · exact Or.inl rfl
        · exact Or.inl rfl
        · exact Or.inl rfl
        · exact Or.inl rfl
        · exact Or.inr rfl
  · cases hr; exact Or.inr rfl

theorem AsciiMsgType_err_zero (lex : Lexer) (last : Bool) :
    ∃ r, AsciiMsgType lex last = some r ∧ (r.err = none ∨ r.val = false) := by
  obtain ⟨r, hr, _, _⟩ := AsciiMsgType_tok lex last
  refine ⟨r, hr, ?_⟩
  unfold AsciiMsgType at hr
  generalize lex.NextFixed 2 = nx at hr
  obtain ⟨token, _ | e, lex1⟩ := nx
  · simp only [] at hr
    split_ifs at hr
    · cases hr; exact Or.inr rfl
    · cases hr; exact Or.inr rfl
    · cases hr; exact Or.inr rfl
    · cases hi : index0 token.Literal with
      | none => rw [hi] at hr; simp at hr
      | some b =>
        rw [hi] at hr
        simp only [] at hr
        split_ifs at hr <;> cases hr
        · exact Or.inl rfl
        · exact Or.inl rfl
        · exact Or.inr rfl
  · cases hr; exact Or.inr rfl

/-- C10: for every decoder and every input, a non-nil error comes with the
zero value of the result type (empty string, 0, false, the zero mode, the zero
time); the decoders that index the literal always return. -/
theorem C10_error_zero_value (fe : FloatEnv) (me : ModeEnv) (input : List Nat) (pos : Nat) :
    ((AsciiDevID ⟨input, pos⟩).err ≠ none → (AsciiDevID ⟨input, pos⟩).val = [])
    ∧ ((AsciiModel ⟨input, pos⟩).err ≠ none → (AsciiModel ⟨input, pos⟩).val = 0)
    ∧ ((AsciiSwVer ⟨input, pos⟩).err ≠ none → (AsciiSwVer ⟨input, pos⟩).val = 0)
    ∧ ((AsciiTimestamp ⟨input, pos⟩).err ≠ none → (AsciiTimestamp ⟨input, pos⟩).ts = Time.zero)
    ∧ ((AsciiCell ⟨input, pos⟩).err ≠ none → (AsciiCell ⟨input, pos⟩).val = [])
    ∧ ((AsciiLat fe ⟨input, pos⟩).err ≠ none → (AsciiLat fe ⟨input, pos⟩).val = fe.zero32)
    ∧ ((AsciiLon fe ⟨input, pos⟩).err ≠ none → (AsciiLon fe ⟨input, pos⟩).val = fe.zero32)
    ∧ ((AsciiSpeed fe ⟨input, pos⟩).err ≠ none → (AsciiSpeed fe ⟨input, pos⟩).val = fe.zero32)
    ∧ ((AsciiCourse fe ⟨input, pos⟩).err ≠ none → (AsciiCourse fe ⟨input, pos⟩).val = fe.zero32)
    ∧ ((AsciiSatellites ⟨input, pos⟩).err ≠ none → (AsciiSatellites ⟨input, pos⟩).val = 0)
    ∧ (∃ r, AsciiFix ⟨input, pos⟩ = some r ∧ (r.err ≠ none → r.val = false))
    ∧ ((AsciiDistance ⟨input, pos⟩).err ≠ none → (AsciiDistance ⟨input, pos⟩).val = 0)
    ∧ ((AsciiPowerVolt fe ⟨input, pos⟩).err ≠ none →
        (AsciiPowerVolt fe ⟨input, pos⟩).val = fe.zero32)
    ∧ (∃ r, AsciiMode me ⟨input, pos⟩ = some r ∧ (r.err ≠ none → r.val = me.zero))
    ∧ ((AsciiMsgNum ⟨input, pos⟩).err ≠ none → (AsciiMsgNum ⟨input, pos⟩).val = 0)
    ∧ ((AsciiDrivingHourMeter ⟨input, pos⟩).err ≠ none →
        (AsciiDrivingHourMeter ⟨input, pos⟩).val = 0)
    ∧ ((AsciiBackupVolt fe ⟨input, pos⟩).err ≠ none →
        (AsciiBackupVolt fe ⟨input, pos⟩).val = fe.zero32)
    ∧ (∀ last, ∃ r, AsciiMsgType ⟨input, pos⟩ last = some r ∧ (r.err ≠ none → r.val = false)) := by
  refine ⟨(AsciiDevID_err_zero _).resolve_left, (AsciiModel_err_zero _).resolve_left,
    (AsciiSwVer_err_zero _).resolve_left, (AsciiTimestamp_err_zero _).resolve_left,
    (AsciiCell_err_zero _).resolve_left, (asciiFloat_err_zero fe _ _ _).resolve_left,
    (asciiFloat_err_zero fe _ _ _).resolve_left, (asciiFloat_err_zero fe _ _ _).resolve_left,
    (asciiFloat_err_zero fe _ _ _).resolve_left, (asciiUint_err_zero _ _ _ _).resolve_left, ?_,
    (asciiUint_err_zero _ _ _ _).resolve_left, (asciiFloat_err_zero fe _ _ _).resolve_left, ?_,
    (AsciiMsgNum_err_zero _ _).resolve_left, (asciiUint_err_zero _ _ _ _).resolve_left,
    (asciiFloat_err_zero fe _ _ _).resolve_left, fun last => ?_⟩
  · obtain ⟨r, hr, h⟩ := AsciiFix_err_zero ⟨input, pos⟩
    exact ⟨r, hr, h.resolve_left⟩
  · obtain ⟨r, hr, h⟩ := AsciiMode_err_zero me ⟨input, pos⟩
    exact ⟨r, hr, h.resolve_left⟩
  · obtain ⟨r, hr, h⟩ := AsciiMsgType_err_zero ⟨input, pos⟩ last
    exact ⟨r, hr, h.resolve_left⟩

/-- C10 at the token `4e39;` of the emergency frame, which `AsciiMsgNum` takes
for hexadecimal-shaped and then fails to parse in base 10. -/
theorem C10_error_zero_value_witness :
    (AsciiMsgNum ⟨emgFrame, 50⟩).err ≠ none ∧ (AsciiMsgNum ⟨emgFrame, 50⟩).val = 0 :=
  ⟨by decide,
   (C10_error_zero_value noFloat sampleModes emgFrame 50).2.2.2.2.2.2.2.2.2.2.2.2.2.2.1
     (by decide)⟩

/-! ### `time.Parse` on 18 bytes -/

theorem daysIn_eq (m y : Nat) (h1 : 1 ≤ m) (h2 : m ≤ 12) : daysIn m y = daysInMonth y m := by
  have hl : (isLeap y = true) ↔ ((y % 4 = 0 ∧ y % 100 ≠ 0) ∨ y % 400 = 0) := by
    simp only [isLeap, Bool.and_eq_true, Bool.or_eq_true, beq_iff_eq, bne_iff_ne, ne_eq]
    omega
  unfold daysIn daysInMonth
  interval_cases m <;> simp [daysBefore, hl]

theorem validShape_explicit (b0 b1 b2 b3 b4 b5 b6 b7 b9 b10 b12 b13 b15 b16 : Nat) :
    validShape [b0, b1, b2, b3, b4, b5, b6, b7, 59, b9, b10, 58, b12, b13, 58, b15, b16, 59]
    ↔ ((isDigit b0 = true ∧ isDigit b1 = true ∧ isDigit b2 = true ∧ isDigit b3 = true
        ∧ isDigit b4 = true ∧ isDigit b5 = true ∧ isDigit b6 = true ∧ isDigit b7 = true)
      ∧ (isDigit b9 = true ∧ isDigit b10 = true) ∧ (isDigit b12 = true ∧ isDigit b13 = true)
      ∧ (isDigit b15 = true ∧ isDigit b16 = true)
      ∧ 1 ≤ (b4 - 48) * 10 + (b5 - 48) ∧ (b4 - 48) * 10 + (b5 - 48) ≤ 12
      ∧ 1 ≤ (b6 - 48) * 10 + (b7 - 48)
      ∧ (b6 - 48) * 10 + (b7 - 48)
          ≤ daysInMonth ((((b0 - 48) * 10 + (b1 - 48)) * 10 + (b2 - 48)) * 10 + (b3 - 48))
              ((b4 - 48) * 10 + (b5 - 48))
      ∧ (b9 - 48) * 10 + (b10 - 48) ≤ 23 ∧ (b12 - 48) * 10 + (b13 - 48) ≤ 59
      ∧ (b15 - 48) * 10 + (b16 - 48) ≤ 59) := by
  unfold validShape shapeTime
  simp only [List.length_cons, List.length_nil, List.take_succ_cons, List.take_zero,
    List.drop_succ_cons, List.drop_zero, List.all_cons, List.all_nil, Bool.and_true,
    Bool.and_eq_true, List.getElem?_cons_succ, List.getElem?_cons_zero, decVal, List.foldl_cons,
    List.foldl_nil, Nat.zero_mul, Nat.zero_add, true_and, and_assoc]


theorem getnum_fixed_some (s r : List Nat) (n : Nat) (h : getnum s true = some (n, r)) :
    ∃ a b, s = a :: b :: r ∧ isDigit a = true ∧ isDigit b = true
      ∧ n = (a - 48) * 10 + (b - 48) := by
  unfold getnum at h
  rcases s with _ | ⟨a, _ | ⟨b, t⟩⟩
  · simp at h
  · simp only [] at h
    split_ifs at h
  · simp only [] at h
    split_ifs at h with c1 c2
    simp only [Option.some.injEq, Prod.mk.injEq] at h
    refine ⟨a, b, by rw [h.2], by simpa using c1, by simpa using c2, h.1.symm⟩

theorem getnum_free_some (s r : List Nat) (n : Nat) (h : getnum s false = some (n, r)) :
    (∃ a b, s = a :: b :: r ∧ isDigit a = true ∧ isDigit b = true
      ∧ n = (a - 48) * 10 + (b - 48))
    ∨ (∃ a, s = a :: r ∧ isDigit a = true ∧ n = a - 48) := by
  unfold getnum at h
  rcases s with _ | ⟨a, _ | ⟨b, t⟩⟩
  · simp at h
  · simp only [] at h
    split_ifs at h with c1
    simp only [Bool.false_eq_true, if_false, Option.some.injEq, Prod.mk.injEq] at h
    exact Or.inr ⟨a, by rw [h.2], by simpa using c1, h.1.symm⟩
  · simp only [] at h
    split_ifs at h with c1 c2
    · simp only [Option.some.injEq, Prod.mk.injEq] at h
      exact Or.inr ⟨a, by rw [h.2], by simpa using c1, h.1.symm⟩
    · simp only [Option.some.injEq, Prod.mk.injEq] at h
      exact Or.inl ⟨a, b, by rw [h.2], by simpa using c1, by simpa using c2, h.1.symm⟩

theorem skipByte_some (v r : List Nat) (p : Nat) (h : skipByte v p = some r) : v = p :: r := by
  unfold skipByte at h
  rcases v with _ | ⟨b, t⟩
  · simp at h
  · simp only [] at h
    split_ifs at h with c
    simp only [Option.some.injEq] at h
    rw [c, h]

theorem parseTs_18 (b0 b1 b2 b3 b4 b5 b6 b7 b8 b9 b10 b11 b12 b13 b14 b15 b16 b17 : Nat)
    (t : Time)
    (h : parseTs [b0, b1, b2, b3, b4, b5, b6, b7, b8, b9, b10, b11, b12, b13, b14, b15, b16, b17] = some t) :
    validShape [b0, b1, b2, b3, b4, b5, b6, b7, b8, b9, b10, b11, b12, b13, b14, b15, b16, b17]
    ∧ t = shapeTime [b0, b1, b2, b3, b4, b5, b6, b7, b8, b9, b10, b11, b12, b13, b14, b15, b16, b17] := by
  unfold parseTs at h
  split_ifs at h with c1 c2
  split at h
  · cases h
  rename_i month v1 hmon
  split_ifs at h with c3
  split at h
  · cases h
  rename_i day v2 hday
  split at h
  · cases h
  rename_i v3 hs1
  split at h
  · cases h
  rename_i hour v4 hhour
  split_ifs at h with c4
  split at h
  · cases h
  rename_i v5 hs2
  split at h
  · cases h
  rename_i mn v6 hmin
  split_ifs at h with c5
  split at h
  · cases h
  rename_i v7 hs3
  split at h
  · cases h
  rename_i sec v8 hsec
  split_ifs at h with c6
  split at h
  · cases h
  rename_i v9 hs4
  split_ifs at h with c7
  obtain ⟨a4, a5, e1, d4, d5, rfl⟩ := getnum_fixed_some _ _ _ hmon
  simp only [List.drop_succ_cons, List.drop_zero, List.cons.injEq] at e1
  obtain ⟨rfl, rfl, rfl⟩ := e1
  obtain ⟨a6, a7, e2, d6, d7, rfl⟩ := getnum_fixed_some _ _ _ hday
  simp only [List.cons.injEq] at e2
  obtain ⟨rfl, rfl, rfl⟩ := e2
  have e3 := skipByte_some _ _ _ hs1
  simp only [List.cons.injEq] at e3
  obtain ⟨rfl, rfl⟩ := e3
  have hv9 : v9 = [] := by simpa using c7
  subst hv9
  rcases getnum_free_some _ _ _ hhour with ⟨a9, a10, e4, d9, d10, rfl⟩ | ⟨a9, e4, d9, rfl⟩
  · simp only [List.cons.injEq] at e4
    obtain ⟨rfl, rfl, rfl⟩ := e4
    have e5 := skipByte_some _ _ _ hs2
    simp only [List.cons.injEq] at e5
    obtain ⟨rfl, rfl⟩ := e5
    obtain ⟨a12, a13, e6, d12, d13, rfl⟩ := getnum_fixed_some _ _ _ hmin
    simp only [List.cons.injEq] at e6
    obtain ⟨rfl, rfl, rfl⟩ := e6
    have e7 := skipByte_some _ _ _ hs3
    simp only [List.cons.injEq] at e7
    obtain ⟨rfl, rfl⟩ := e7
    obtain ⟨a15, a16, e8, d15, d16, rfl⟩ := getnum_fixed_some _ _ _ hsec
    simp only [List.cons.injEq] at e8
    obtain ⟨rfl, rfl, rfl⟩ := e8
    have e9 := skipByte_some _ _ _ hs4
    simp only [fracSecond, List.cons.injEq, and_true] at e9
    subst e9
    have d0123 : isDigit b0 = true ∧ isDigit b1 = true ∧ isDigit b2 = true ∧ isDigit b3 = true := by
      simpa using c2
    clear c1 c2 hmon hday hs1 hhour hs2 hmin hs3 hsec hs4 c7
    simp only [fracSecond] at h
    split_ifs at h with c8
    simp only [Option.some.injEq] at h
    subst h
    have hm1 : 1 ≤ (b4 - 48) * 10 + (b5 - 48) := Nat.pos_of_ne_zero (fun e => c3 (Or.inl e))
    have hm2 : (b4 - 48) * 10 + (b5 - 48) ≤ 12 := Nat.le_of_not_lt (fun e => c3 (Or.inr e))
    rw [daysIn_eq _ _ hm1 hm2] at c8
    simp only [decVal, List.take_succ_cons, List.take_zero, List.foldl_cons, List.foldl_nil,
      Nat.zero_mul, Nat.zero_add] at c8
    refine ⟨?_, ?_⟩
    · rw [validShape_explicit]
      exact ⟨⟨d0123.1, d0123.2.1, d0123.2.2.1, d0123.2.2.2, d4, d5, d6, d7⟩, ⟨d9, d10⟩,
        ⟨d12, d13⟩, ⟨d15, d16⟩, hm1, hm2, Nat.le_of_not_lt (fun e => c8 (Or.inl e)),
        Nat.le_of_not_lt (fun e => c8 (Or.inr e)), Nat.le_of_lt_succ (Nat.lt_of_not_le c4),
        Nat.le_of_lt_succ (Nat.lt_of_not_le c5), Nat.le_of_lt_succ (Nat.lt_of_not_le c6)⟩
    · simp only [shapeTime, decVal, List.take_succ_cons, List.take_zero, List.drop_succ_cons,
        List.drop_zero, List.foldl_cons, List.foldl_nil, Nat.zero_mul, Nat.zero_add]
  · simp only [List.cons.injEq] at e4
    obtain ⟨rfl, rfl⟩ := e4
    have e5 := skipByte_some _ _ _ hs2
    simp only [List.cons.injEq] at e5
    obtain ⟨rfl, rfl⟩ := e5
    obtain ⟨a12, a13, e6, d12, d13, rfl⟩ := getnum_fixed_some _ _ _ hmin
    simp only [List.cons.injEq] at e6
    obtain ⟨rfl, rfl, rfl⟩ := e6
    have e7 := skipByte_some _ _ _ hs3
    simp only [List.cons.injEq] at e7
    obtain ⟨rfl, rfl⟩ := e7
    obtain ⟨a15, a16, e8, d15, d16, rfl⟩ := getnum_fixed_some _ _ _ hsec
    simp only [List.cons.injEq] at e8
    obtain ⟨rfl, rfl, rfl⟩ := e8
    exfalso
    simp only [fracSecond] at hs4
    split_ifs at hs4
    · simp [skipByte] at hs4
    · have e9 := skipByte_some _ _ _ hs4
      simp at e9


theorem parseTs_explicit (b0 b1 b2 b3 b4 b5 b6 b7 b9 b10 b12 b13 b15 b16 : Nat)
    (d0 : isDigit b0 = true) (d1 : isDigit b1 = true) (d2 : isDigit b2 = true)
    (d3 : isDigit b3 = true) (d4 : isDigit b4 = true) (d5 : isDigit b5 = true)
    (d6 : isDigit b6 = true) (d7 : isDigit b7 = true) (d9 : isDigit b9 = true)
    (d10 : isDigit b10 = true) (d12 : isDigit b12 = true) (d13 : isDigit b13 = true)
    (d15 : isDigit b15 = true) (d16 : isDigit b16 = true) :
    parseTs [b0, b1, b2, b3, b4, b5, b6, b7, 59, b9, b10, 58, b12, b13, 58, b15, b16, 59] =
      if (b4 - 48) * 10 + (b5 - 48) = 0 ∨ 12 < (b4 - 48) * 10 + (b5 - 48) then none
      else if 24 ≤ (b9 - 48) * 10 + (b10 - 48) then none
      else if 60 ≤ (b12 - 48) * 10 + (b13 - 48) then none
      else if 60 ≤ (b15 - 48) * 10 + (b16 - 48) then none
      else if (b6 - 48) * 10 + (b7 - 48) < 1 ∨ (b6 - 48) * 10 + (b7 - 48)
          > daysIn ((b4 - 48) * 10 + (b5 - 48))
              ((((b0 - 48) * 10 + (b1 - 48)) * 10 + (b2 - 48)) * 10 + (b3 - 48)) then none
      else some ⟨(((b0 - 48) * 10 + (b1 - 48)) * 10 + (b2 - 48)) * 10 + (b3 - 48),
        (b4 - 48) * 10 + (b5 - 48), (b6 - 48) * 10 + (b7 - 48), (b9 - 48) * 10 + (b10 - 48),
        (b12 - 48) * 10 + (b13 - 48), (b15 - 48) * 10 + (b16 - 48), 0⟩ := by
  simp only [parseTs, getnum, skipByte, fracSecond, decVal, List.length_cons, List.length_nil,
    List.take_succ_cons, List.take_zero, List.drop_succ_cons, List.drop_zero, List.all_cons,
    List.all_nil, List.foldl_cons, List.foldl_nil, Nat.zero_mul, Nat.zero_add,
    d0, d1, d2, d3, d4, d5, d6, d7, d9, d10, d12, d13, d15, d16, Bool.and_self, Bool.not_true,
    Bool.false_eq_true, if_false, or_false, if_true, ne_eq, not_true_eq_false]
  rw [if_neg (by norm_num)]


theorem list18 (l : List Nat) (h : l.length = 18) :
    ∃ b0 b1 b2 b3 b4 b5 b6 b7 b8 b9 b10 b11 b12 b13 b14 b15 b16 b17,
      l = [b0, b1, b2, b3, b4, b5, b6, b7, b8, b9, b10, b11, b12, b13, b14, b15, b16, b17] := by
  rcases l with _ | ⟨b0, _ | ⟨b1, _ | ⟨b2, _ | ⟨b3, _ | ⟨b4, _ | ⟨b5, _ | ⟨b6, _ | ⟨b7, _ | ⟨b8, _ | ⟨b9, _ | ⟨b10, _ | ⟨b11, _ | ⟨b12, _ | ⟨b13, _ | ⟨b14, _ | ⟨b15, _ | ⟨b16, _ | ⟨b17, r⟩⟩⟩⟩⟩⟩⟩⟩⟩⟩⟩⟩⟩⟩⟩⟩⟩⟩
  all_goals simp only [List.length_cons, List.length_nil] at h
  all_goals first
    | omega
    | (have hr : r = [] := List.eq_nil_of_length_eq_zero (by omega)
       subst hr
       exact ⟨_, _, _, _, _, _, _, _, _, _, _, _, _, _, _, _, _, _, rfl⟩)

theorem decimalBody_chars (body : List Nat)
    (h : (!(body.takeWhile isDigit).isEmpty &&
      (match body.dropWhile isDigit with
       | [] => true
       | 46 :: fr => !fr.isEmpty && fr.all isDigit
       | _ => false)) = true) :
    ∀ x ∈ body, x = 46 ∨ isDigit x = true := by
  intro x hx
  rw [← List.takeWhile_append_dropWhile isDigit body, List.mem_append] at hx
  rcases hx with hx | hx
  · exact Or.inr (List.mem_takeWhile_imp hx)
  · simp only [Bool.and_eq_true] at h
    obtain ⟨_, h2⟩ := h
    split at h2
    · rename_i e; rw [e] at hx; simp at hx
    · rename_i fr e
      rw [e] at hx
      simp only [Bool.and_eq_true, List.all_eq_true] at h2
      rcases List.mem_cons.1 hx with hx | hx
      · exact Or.inl hx
      · exact Or.inr (h2.2 x hx)
    · simp at h2

theorem decimalShaped_chars (c : List Nat) (h : decimalShaped c = true) :
    ∀ x ∈ c, x = 45 ∨ x = 46 ∨ isDigit x = true := by
  unfold decimalShaped at h
  simp only [] at h
  split at h
  · rename_i r
    intro x hx
    rcases List.mem_cons.1 hx with hx | hx
    · exact Or.inl hx
    · exact Or.inr (decimalBody_chars r h x hx)
  · intro x hx
    exact Or.inr (decimalBody_chars _ h x hx)

/-- A content with a colon in it is plain data. -/
theorem classify_colon (c : List Nat) (h : 58 ∈ c) : classify c = TokenType.DataToken := by
  unfold classify
  have h1 : ¬ (c = [48] ∨ c = [49]) := by
    rintro (e | e) <;> rw [e] at h <;> simp at h
  rw [if_neg h1]
  have h2 : ¬ decimalShaped c = true := by
    intro hd
    rcases decimalShaped_chars c hd 58 h with e | e | e
    · omega
    · omega
    · simp [isDigit] at e
  rw [if_neg h2]

/-- The results of `AsciiTimestamp` read off the 18 bytes at the cursor. -/
theorem AsciiTimestamp_18 (input : List Nat) (pos : Nat) (h : 18 ≤ (input.drop pos).length) :
    (AsciiTimestamp ⟨input, pos⟩).err =
      (if !(((input.drop pos).take 18).take 8).all isDigit then some Error.ErrInvalidDate
       else if !(((input.drop pos).take 18)[8]? == some Separator) then some Error.ErrSeparator
       else if classify ((((input.drop pos).take 18).drop 9).take 8) ≠ TokenType.DataToken then
         some Error.ErrInvalidTime
       else if !(((input.drop pos).take 18)[17]? == some Separator) then
         some Error.ErrSeparator
       else (timeParse ((input.drop pos).take 18)).2)
    ∧ (AsciiTimestamp ⟨input, pos⟩).ts =
      (if !(((input.drop pos).take 18).take 8).all isDigit then Time.zero
       else if !(((input.drop pos).take 18)[8]? == some Separator) then Time.zero
       else if classify ((((input.drop pos).take 18).drop 9).take 8) ≠ TokenType.DataToken then
         Time.zero
       else if !(((input.drop pos).take 18)[17]? == some Separator) then Time.zero
       else (timeParse ((input.drop pos).take 18)).1) := by
  have ea : ((input.drop pos).take 18).take 8 = (input.drop pos).take 8 := by
    rw [List.take_take]; rfl
  have eb : ((input.drop pos).take 18)[8]? = (input.drop pos)[8]? := by
    rw [List.getElem?_take, if_pos (by norm_num)]
  have ec : (((input.drop pos).take 18).drop 9).take 8 = (input.drop (pos + 9)).take 8 := by
    rw [List.drop_take, List.take_take, List.drop_drop]; rfl
  have ed : ((input.drop pos).take 18)[17]? = (input.drop (pos + 9))[8]? := by
    rw [List.getElem?_take, if_pos (by norm_num), List.getElem?_drop, List.getElem?_drop]
  have ee : (input.drop pos).take 18
      = (input.drop pos).take 9 ++ (input.drop (pos + 9)).take 9 := by
    rw [show 18 = 9 + 9 from rfl, List.take_add, List.drop_drop]
  rw [ea, eb, ec, ed, ee, AsciiTimestamp_long _ _ h]
  constructor <;> split_ifs <;> rfl

theorem parseTs_valid (T : List Nat) (hT : T.length = 18) (t : Time)
    (h : parseTs T = some t) : validShape T ∧ t = shapeTime T := by
  obtain ⟨b0, b1, b2, b3, b4, b5, b6, b7, b8, b9, b10, b11, b12, b13, b14, b15, b16, b17, rfl⟩ :=
    list18 T hT
  exact parseTs_18 _ _ _ _ _ _ _ _ _ _ _ _ _ _ _ _ _ _ t h

/-- A validly shaped timestamp passes the checks of both tokens and parses to
the date and time it denotes. -/
theorem validShape_checks (T : List Nat) (hv : validShape T) :
    (T.take 8).all isDigit = true ∧ T[8]? = some Separator
    ∧ classify ((T.drop 9).take 8) = TokenType.DataToken ∧ T[17]? = some Separator
    ∧ parseTs T = some (shapeTime T) := by
  have hT : T.length = 18 := hv.1
  obtain ⟨b0, b1, b2, b3, b4, b5, b6, b7, b8, b9, b10, b11, b12, b13, b14, b15, b16, b17, rfl⟩ :=
    list18 T hT
  have s8 : b8 = 59 := by
    have := hv.2.2.1
    simpa using this
  have s11 : b11 = 58 := by
    have := hv.2.2.2.2.1
    simpa using this
  have s14 : b14 = 58 := by
    have := hv.2.2.2.2.2.2.1
    simpa using this
  have s17 : b17 = 59 := by
    have := hv.2.2.2.2.2.2.2.2.1
    simpa using this
  subst s8 s11 s14 s17
  rw [validShape_explicit] at hv
  obtain ⟨⟨d0, d1, d2, d3, d4, d5, d6, d7⟩, ⟨d9, d10⟩, ⟨d12, d13⟩, ⟨d15, d16⟩, m1, m2, g1, g2,
    hh, hm, hs⟩ := hv
  refine ⟨?_, rfl, ?_, rfl, ?_⟩
  · simp only [List.take_succ_cons, List.take_zero, List.all_cons, List.all_nil, d0, d1, d2, d3,
      d4, d5, d6, d7, Bool.and_self]
  · apply classify_colon
    simp
  · rw [parseTs_explicit _ _ _ _ _ _ _ _ _ _ _ _ _ _ d0 d1 d2 d3 d4 d5 d6 d7 d9 d10 d12 d13 d15
      d16]
    rw [daysIn_eq _ _ m1 m2]
    rw [if_neg (by omega), if_neg (by omega), if_neg (by omega), if_neg (by omega),
      if_neg (by omega)]
    simp only [shapeTime, decVal, List.take_succ_cons, List.take_zero, List.drop_succ_cons,
      List.drop_zero, List.foldl_cons, List.foldl_nil, Nat.zero_mul, Nat.zero_add]

theorem take18_views (rem : List Nat) :
    (rem.take 18).take 8 = rem.take 8 ∧ (rem.take 18)[8]? = rem[8]?
    ∧ ((rem.take 18).drop 9).take 8 = (rem.drop 9).take 8 ∧ (rem.take 18)[17]? = rem[17]? := by
  refine ⟨?_, ?_, ?_, ?_⟩
  · rw [List.take_take]; rfl
  · rw [List.getElem?_take, if_pos (by norm_num)]
  · rw [List.drop_take, List.take_take]; rfl
  · rw [List.getElem?_take, if_pos (by norm_num)]

/-- C7: `AsciiTimestamp` returns a nil error exactly when the next 18 bytes at
the cursor have the shape `YYYYMMDD;HH:MM:SS;` with a valid calendar date and
time of day, and then returns that date and time in UTC; when both tokens pass
their own shape and separator checks and the 18 bytes are not of that shape,
it fails with the error of `time.Parse` and the zero time. -/
theorem C7_timestamp (input : List Nat) (pos : Nat) :
    ((AsciiTimestamp ⟨input, pos⟩).err = none ↔ validShape ((input.drop pos).take 18))
    ∧ ((AsciiTimestamp ⟨input, pos⟩).err = none →
        (AsciiTimestamp ⟨input, pos⟩).ts = shapeTime ((input.drop pos).take 18))
    ∧ (18 ≤ (input.drop pos).length →
        ((input.drop pos).take 8).all isDigit = true →
        (input.drop pos)[8]? = some Separator →
        classify (((input.drop pos).drop 9).take 8) = TokenType.DataToken →
        (input.drop pos)[17]? = some Separator →
        ¬ validShape ((input.drop pos).take 18) →
        (AsciiTimestamp ⟨input, pos⟩).err
            = some (Error.TimeParseError ((input.drop pos).take 18))
          ∧ (AsciiTimestamp ⟨input, pos⟩).ts = Time.zero) := by
  by_cases hl : 18 ≤ (input.drop pos).length
  · obtain ⟨he, ht⟩ := AsciiTimestamp_18 input pos hl
    have hT : ((input.drop pos).take 18).length = 18 := by
      rw [List.length_take]; omega
    obtain ⟨v1, v2, v3, v4⟩ := take18_views (input.drop pos)
    rw [← v1, ← v2, ← v3, ← v4]
    generalize (input.drop pos).take 18 = T at he ht hT ⊢
    have fwd : (AsciiTimestamp ⟨input, pos⟩).err = none →
        validShape T ∧ (AsciiTimestamp ⟨input, pos⟩).ts = shapeTime T := by
      intro h
      rw [he] at h
      rw [ht]
      split_ifs at h with c1 c2 c3 c4
      rw [if_neg c1, if_neg c2, if_neg c3, if_neg c4]
      unfold timeParse at h ⊢
      cases hp : parseTs T with
      | none => rw [hp] at h; simp at h
      | some t =>
        obtain ⟨hv, e⟩ := parseTs_valid T hT t hp
        exact ⟨hv, e⟩
    refine ⟨⟨fun h => (fwd h).1, fun hv => ?_⟩, fun h => (fwd h).2, ?_⟩
    · obtain ⟨k1, k2, k3, k4, k5⟩ := validShape_checks T hv
      rw [he, if_neg (by simp [k1]), if_neg (by simp [k2]), if_neg (by simp [k3]),
        if_neg (by simp [k4])]
      unfold timeParse
      rw [k5]
    · intro _ k1 k2 k3 k4 hnv
      rw [he, ht, if_neg (by simp [k1]), if_neg (by simp [k2]), if_neg (by simp [k3]),
        if_neg (by simp [k4]), if_neg (by simp [k1]), if_neg (by simp [k2]),
        if_neg (by simp [k3]), if_neg (by simp [k4])]
      unfold timeParse
      cases hp : parseTs T with
      | none => exact ⟨rfl, rfl⟩
      | some t => exact absurd (parseTs_valid T hT t hp).1 hnv
  · have hne : (AsciiTimestamp ⟨input, pos⟩).err ≠ none :=
      fun h => hl (AsciiTimestamp_ok_len input pos h)
    have hnv : ¬ validShape ((input.drop pos).take 18) := by
      intro hv
      have := hv.1
      rw [List.length_take] at this
      omega
    exact ⟨⟨fun h => absurd h hne, fun hv => absurd hv hnv⟩, fun h => absurd h hne,
      fun h => absurd h hl⟩

/-- C7 at the timestamp of the emergency frame, and at a month 13 and an hour
25 whose tokens pass their own checks. -/
theorem C7_timestamp_witness :
    ((AsciiTimestamp ⟨emgFrame, 17⟩).err = none
      ∧ (AsciiTimestamp ⟨emgFrame, 17⟩).ts = ⟨2015, 12, 23, 13, 32, 30, 0⟩)
    ∧ ((AsciiTimestamp ⟨bytes "20151323;13:32:30;", 0⟩).err
          = some (Error.TimeParseError (bytes "20151323;13:32:30;"))
        ∧ (AsciiTimestamp ⟨bytes "20151323;13:32:30;", 0⟩).ts = Time.zero)
    ∧ ((AsciiTimestamp ⟨bytes "20151223;25:00:00;", 0⟩).err
          = some (Error.TimeParseError (bytes "20151223;25:00:00;"))
        ∧ (AsciiTimestamp ⟨bytes "20151223;25:00:00;", 0⟩).ts = Time.zero) :=
  ⟨⟨(C7_timestamp emgFrame 17).1.2 (by decide),
    ((C7_timestamp emgFrame 17).2.1 ((C7_timestamp emgFrame 17).1.2 (by decide))).trans
      (by decide)⟩,
   (C7_timestamp (bytes "20151323;13:32:30;") 0).2.2 (by decide) (by decide) (by decide)
     (by decide) (by decide) (by decide),
   (C7_timestamp (bytes "20151223;25:00:00;") 0).2.2 (by decide) (by decide) (by decide)
     (by decide) (by decide) (by decide)⟩

/-! ### The failure scenario -/

/-- C11, as stated, fails: the byte at position 11 of the emergency frame is
the digit '0' of the model field `20;`, not a separator (the separators of the
first three fields are at positions 9, 12 and 16).  With `x` there `AsciiModel`
fails with `ErrInvalidModel`; with the digit `1` there the device id, the model
and the software version all decode. -/
theorem C11_counterexample :
    emgFrame[11]? = some 48
    ∧ emgFrame[9]? = some Separator ∧ emgFrame[12]? = some Separator
    ∧ emgFrame[16]? = some Separator
    ∧ (AsciiDevID ⟨emgFrame.set 11 120, 0⟩).err = none
    ∧ (AsciiModel (AsciiDevID ⟨emgFrame.set 11 120, 0⟩).lex).err = some Error.ErrInvalidModel
    ∧ (AsciiDevID ⟨emgFrame.set 11 49, 0⟩).err = none
    ∧ (AsciiModel (AsciiDevID ⟨emgFrame.set 11 49, 0⟩).lex).err = none
    ∧ (AsciiSwVer (AsciiModel (AsciiDevID ⟨emgFrame.set 11 49, 0⟩).lex).lex).err = none := by
  decide

/-- The software-version decoder on the emergency frame with the byte `b` in
place of the separator at position 16. -/
theorem swver_sep_at (b : Nat) (hb : b ≠ Separator) :
    AsciiSwVer ⟨emgFrame.set 16 b, 13⟩
      = ⟨0, mkToken (bytes "325" ++ [b]), some Error.ErrSeparator, ⟨emgFrame.set 16 b, 17⟩⟩ := by
  have hl : 4 ≤ ((emgFrame.set 16 b).drop 13).length := by
    rw [show ((emgFrame.set 16 b).drop 13).length = 130 from rfl]
    decide
  have e1 : ((emgFrame.set 16 b).drop 13).take 3 = bytes "325" := rfl
  have e2 : ((emgFrame.set 16 b).drop 13)[3]? = some b := rfl
  have e3 : ((emgFrame.set 16 b).drop 13).take 4 = bytes "325" ++ [b] := rfl
  have h3 := AsciiSwVer_long (emgFrame.set 16 b) 13 hl
  rw [e1, e2, e3] at h3
  rw [if_neg (by decide), if_pos (by simp [hb])] at h3
  exact h3

/-- C11, amended: on the emergency frame with the separator at position 16,
which ends the software-version field, replaced by a non-separator byte,
`AsciiDevID` and `AsciiModel` succeed, then `AsciiSwVer` fails with
`ErrSeparator`, and the frame bytes accumulated by a run in frame order are the
first 17 bytes: they stop at the last byte consumed for the failing token. -/
theorem C11_swver_separator (fe : FloatEnv) (me : ModeEnv) (b : Nat) (hb : b ≠ Separator)
    (ds : List Decoder) :
    (AsciiDevID ⟨emgFrame.set 16 b, 0⟩).err = none
    ∧ (AsciiDevID ⟨emgFrame.set 16 b, 0⟩).val = bytes "205951725"
    ∧ (AsciiModel (AsciiDevID ⟨emgFrame.set 16 b, 0⟩).lex).err = none
    ∧ (AsciiModel (AsciiDevID ⟨emgFrame.set 16 b, 0⟩).lex).val = 20
    ∧ (AsciiSwVer (AsciiModel (AsciiDevID ⟨emgFrame.set 16 b, 0⟩).lex).lex).err
        = some Error.ErrSeparator
    ∧ (AsciiSwVer (AsciiModel (AsciiDevID ⟨emgFrame.set 16 b, 0⟩).lex).lex).lex.pos = 17
    ∧ runAll fe me (Decoder.DevID :: Decoder.Model :: Decoder.SwVer :: ds)
        ⟨emgFrame.set 16 b, 0⟩ []
      = some ((emgFrame.set 16 b).take 17, some Error.ErrSeparator, ⟨emgFrame.set 16 b, 17⟩) := by
  have h1 : AsciiDevID ⟨emgFrame.set 16 b, 0⟩
      = ⟨bytes "205951725", mkToken (bytes "205951725;"), none, ⟨emgFrame.set 16 b, 10⟩⟩ := rfl
  have h2 : AsciiModel ⟨emgFrame.set 16 b, 10⟩
      = ⟨20, mkToken (bytes "20;"), none, ⟨emgFrame.set 16 b, 13⟩⟩ := rfl
  have h3 := swver_sep_at b hb
  refine ⟨by rw [h1], by rw [h1], by rw [h1, h2], by rw [h1, h2], by rw [h1, h2, h3],
    by rw [h1, h2, h3], ?_⟩
  simp only [runAll, Decoder.run, Res.step, h1, h2, h3]
  rfl

/-- C11 amended, with `x` in place of the separator. -/
theorem C11_swver_separator_witness :
    (120 : Nat) ≠ Separator
    ∧ (AsciiSwVer (AsciiModel (AsciiDevID ⟨emgFrame.set 16 120, 0⟩).lex).lex).err
        = some Error.ErrSeparator
    ∧ runAll noFloat sampleModes
        [Decoder.DevID, Decoder.Model, Decoder.SwVer, Decoder.Timestamp]
        ⟨emgFrame.set 16 120, 0⟩ []
      = some ((emgFrame.set 16 120).take 17, some Error.ErrSeparator,
          ⟨emgFrame.set 16 120, 17⟩) :=
  ⟨by decide,
   (C11_swver_separator noFloat sampleModes 120 (by decide) [Decoder.Timestamp]).2.2.2.2.1,
   (C11_swver_separator noFloat sampleModes 120 (by decide) [Decoder.Timestamp]).2.2.2.2.2.2⟩

/-! ### One error per field -/

/-- C12 at the token `x;`: `AsciiBackupVolt` returns `ErrInvalidHMeter` for a
token that is not decimal-shaped, the very error `AsciiDrivingHourMeter`
returns for a token that is not made of digits; `AsciiPowerVolt`, written the
same way, returns its own `ErrInvalidPowerVolt`. -/
theorem C12_backupvolt_shape_error (fe : FloatEnv) :
    (AsciiBackupVolt fe ⟨bytes "x;", 0⟩).err = some Error.ErrInvalidHMeter
    ∧ (AsciiDrivingHourMeter ⟨bytes "x;", 0⟩).err = some Error.ErrInvalidHMeter
    ∧ (AsciiPowerVolt fe ⟨bytes "x;", 0⟩).err = some Error.ErrInvalidPowerVolt :=
  ⟨rfl, rfl, rfl⟩

/-! ### `parseALVAscii` -/

/-- C13: whatever the device-id decoder returns, `parseALVAscii` sets the type
of the message to `ALVReport` and its `ALV` to a report with that header,
appends the literal of the returned token to `Frame`, on an error records it
in `ParsingError` and leaves `ALV.DevID` empty, on success stores the decoded
id and leaves `ParsingError` as it was, and changes no other field. -/
theorem C13_parse_alv {R : Type} (dec : Lexer → Res (List Nat)) (lex : Lexer) (msg : Msg R) :
    (parseALVAscii dec lex msg).1.Typ = MsgType.ALVReport
    ∧ (∃ alv, (parseALVAscii dec lex msg).1.ALV = some alv ∧ alv.Hdr = MsgType.ALVReport)
    ∧ (parseALVAscii dec lex msg).1.Frame = msg.Frame ++ (dec lex).token.Literal
    ∧ (∀ e, (dec lex).err = some e →
        (parseALVAscii dec lex msg).1.ParsingError = some e
        ∧ (parseALVAscii dec lex msg).1.ALV = some ⟨MsgType.ALVReport, []⟩)
    ∧ ((dec lex).err = none →
        (parseALVAscii dec lex msg).1.ALV = some ⟨MsgType.ALVReport, (dec lex).val⟩
        ∧ (parseALVAscii dec lex msg).1.ParsingError = msg.ParsingError)
    ∧ (parseALVAscii dec lex msg).1.Model = msg.Model
    ∧ (parseALVAscii dec lex msg).1.reports = msg.reports
    ∧ (parseALVAscii dec lex msg).2 = (dec lex).lex := by
  unfold parseALVAscii
  cases h : (dec lex).err with
  | none => simp
  | some e => simp

/-- C13 with `AsciiDevID` for the decoder, on the emergency frame and on a
device id with a bad digit. -/
theorem C13_parse_alv_witness :
    ((parseALVAscii AsciiDevID ⟨emgFrame, 0⟩ sampleMsg).1.ALV
        = some ⟨MsgType.ALVReport, bytes "205951725"⟩
      ∧ (parseALVAscii AsciiDevID ⟨emgFrame, 0⟩ sampleMsg).1.ParsingError = none)
    ∧ ((parseALVAscii AsciiDevID ⟨bytes "20595172x;", 0⟩ sampleMsg).1.ParsingError
        = some Error.ErrInvalidDevID
      ∧ (parseALVAscii AsciiDevID ⟨bytes "20595172x;", 0⟩ sampleMsg).1.ALV
        = some ⟨MsgType.ALVReport, []⟩) :=
  ⟨(C13_parse_alv AsciiDevID ⟨emgFrame, 0⟩ sampleMsg).2.2.2.2.1 (by decide),
   (C13_parse_alv AsciiDevID ⟨bytes "20595172x;", 0⟩ sampleMsg).2.2.2.1 _ (by decide)⟩

/-! ### The sequence number -/

theorem parseUintLoop_ok_digits (M : Nat) (s : List Nat) (n : Nat)
    (h : (parseUintLoop 10 M s n).2 = none) : s.all isDigit = true := by
  induction s generalizing n with
  | nil => rfl
  | cons c cs ih =>
    simp only [parseUintLoop] at h
    by_cases hc : 48 ≤ c ∧ c ≤ 57
    · rw [if_pos hc] at h
      simp only [] at h
      split_ifs at h
      simp only [List.all_cons, Bool.and_eq_true]
      exact ⟨by simp [isDigit, hc], ih _ h⟩
    · rw [if_neg hc] at h
      split_ifs at h
      · simp only [] at h
        split_ifs at h
      · simp at h

/-- On at most four characters that are not all decimal digits `ParseUint`
in base 10 returns 0 and a syntax error. -/
theorem ParseUint_nondigit (s : List Nat) (hs : s.length ≤ 4) (hn : ¬ s.all isDigit = true) :
    ParseUint s 10 16 = (0, some (Error.NumError s NumErrKind.ErrSyntax)) := by
  unfold ParseUint
  split_ifs with he
  · rfl
  · have hp : (10 : Nat) ^ s.length ≤ 10 ^ 4 := Nat.pow_le_pow_right (by norm_num) hs
    rcases parseUintLoop_small (2 ^ 16 - 1) (by norm_num) s 0 (by norm_num at hp ⊢; omega)
      with h | h
    · exact absurd (parseUintLoop_ok_digits _ s 0 h) hn
    · rw [h]

/-- C14: on four decimal digits followed by the separator `AsciiMsgNum`
returns their base-10 value, at most 9999, with a nil error; on four
hexadecimal digits of which one is a letter, followed by the separator, the
token passes the hexadecimal check and the separator check and `ParseUint` in
base 10 fails: the error is its syntax error, not `ErrInvalidMsgNum`, and the
value is 0. -/
theorem C14_msgnum (input : List Nat) (pos : Nat) (a b c d : Nat) (rest : List Nat)
    (hr : input.drop pos = a :: b :: c :: d :: Separator :: rest) :
    (isDigit a = true → isDigit b = true → isDigit c = true → isDigit d = true →
      (AsciiMsgNum ⟨input, pos⟩).err = none
      ∧ (AsciiMsgNum ⟨input, pos⟩).val = decVal [a, b, c, d]
      ∧ decVal [a, b, c, d] ≤ 9999 ∧ decVal [a, b, c, d] < 2 ^ 16)
    ∧ (isHexDigit a = true → isHexDigit b = true → isHexDigit c = true → isHexDigit d = true →
      ¬ (isDigit a = true ∧ isDigit b = true ∧ isDigit c = true ∧ isDigit d = true) →
      (AsciiMsgNum ⟨input, pos⟩).token.IsHex = true
      ∧ (AsciiMsgNum ⟨input, pos⟩).token.EndsWith Separator = true
      ∧ (AsciiMsgNum ⟨input, pos⟩).err = some (Error.NumError [a, b, c, d] NumErrKind.ErrSyntax)
      ∧ (AsciiMsgNum ⟨input, pos⟩).err ≠ some Error.ErrInvalidMsgNum
      ∧ (AsciiMsgNum ⟨input, pos⟩).val = 0) := by
  have hl : 5 ≤ (input.drop pos).length := by rw [hr]; simp
  obtain ⟨_, _, f3, _, f5⟩ := fixed_token (input.drop pos) 4 hl
  have hm := AsciiMsgNum_long input pos hl
  rw [hr] at hm f3 f5
  simp only [List.take_succ_cons, List.take_zero, List.getElem?_cons_succ,
    List.getElem?_cons_zero, beq_self_eq_true, Bool.not_true, Bool.false_eq_true, if_false,
    List.all_cons, List.all_nil, Bool.and_true] at hm f3 f5
  constructor
  · intro da db dc dd
    have ha : isHexDigit a = true := by simp [isHexDigit, da]
    have hb : isHexDigit b = true := by simp [isHexDigit, db]
    have hc : isHexDigit c = true := by simp [isHexDigit, dc]
    have hd : isHexDigit d = true := by simp [isHexDigit, dd]
    have hv : decVal [a, b, c, d] ≤ 9999 := by
      simp only [isDigit, Bool.and_eq_true, decide_eq_true_eq] at da db dc dd
      simp only [decVal, List.foldl_cons, List.foldl_nil]
      omega
    have hp := ParseUint_digits [a, b, c, d] 16 (by norm_num) (by simp [da, db, dc, dd])
      (by simp)
    rw [if_pos (by omega)] at hp
    simp only [ha, hb, hc, hd, Bool.and_self, Bool.not_true, Bool.false_eq_true, if_false,
      hp] at hm
    rw [hm]
    exact ⟨rfl, Nat.mod_eq_of_lt (by omega), hv, by omega⟩
  · intro ha hb hc hd hn
    have hp := ParseUint_nondigit [a, b, c, d] (by simp)
      (by simpa [and_assoc] using hn)
    simp only [ha, hb, hc, hd, Bool.and_self, Bool.not_true, Bool.false_eq_true, if_false,
      hp] at hm
    rw [hm]
    refine ⟨?_, ?_, rfl, by simp, rfl⟩
    · rw [f3]; simp [ha, hb, hc, hd]
    · rw [f5]; simp

/-- C14 at the tokens `0042;` and `4e39;`. -/
theorem C14_msgnum_witness :
    ((AsciiMsgNum ⟨bytes "0042;", 0⟩).err = none
      ∧ (AsciiMsgNum ⟨bytes "0042;", 0⟩).val = decVal (bytes "0042")
      ∧ decVal (bytes "0042") ≤ 9999 ∧ decVal (bytes "0042") < 2 ^ 16)
    ∧ ((AsciiMsgNum ⟨emgFrame, 50⟩).token.IsHex = true
      ∧ (AsciiMsgNum ⟨emgFrame, 50⟩).token.EndsWith Separator = true
      ∧ (AsciiMsgNum ⟨emgFrame, 50⟩).err
          = some (Error.NumError (bytes "4e39") NumErrKind.ErrSyntax)
      ∧ (AsciiMsgNum ⟨emgFrame, 50⟩).err ≠ some Error.ErrInvalidMsgNum
      ∧ (AsciiMsgNum ⟨emgFrame, 50⟩).val = 0) :=
  ⟨(C14_msgnum (bytes "0042;") 0 48 48 52 50 [] (by decide)).1 (by decide) (by decide)
     (by decide) (by decide),
   (C14_msgnum emgFrame 50 52 101 51 57 (emgFrame.drop 55) (by decide)).2 (by decide)
     (by decide) (by decide) (by decide) (by decide)⟩

/-! ### Shape check before separator check -/

theorem ParseUint_no_sep (s : List Nat) (base bits : Nat) :
    (ParseUint s base bits).2 ≠ some Error.ErrSeparator := by
  unfold ParseUint
  split_ifs
  · simp
  · rcases parseUintLoop base (2 ^ bits - 1) s 0 with ⟨n, _ | k⟩ <;> simp

theorem AsciiDevID_sep_iff (lex : Lexer) (h : 10 ≤ (lex.input.drop lex.pos).length) :
    ((AsciiDevID lex).err = some Error.ErrSeparator ↔
      (lex.NextFixed 10).1.OnlyDigits = true ∧ (lex.NextFixed 10).1.EndsWith Separator = false)
    ∧ ((lex.NextFixed 10).1.OnlyDigits = false →
      (AsciiDevID lex).err = some Error.ErrInvalidDevID) := by
  unfold AsciiDevID
  rw [NextFixed_ok lex 10 h]
  simp only []
  generalize mkToken _ = tok
  cases h1 : tok.OnlyDigits <;> cases h2 : tok.EndsWith Separator <;> simp

theorem AsciiModel_sep_iff (lex : Lexer) (h : 3 ≤ (lex.input.drop lex.pos).length) :
    ((AsciiModel lex).err = some Error.ErrSeparator ↔
      (lex.NextFixed 3).1.OnlyDigits = true ∧ (lex.NextFixed 3).1.EndsWith Separator = false)
    ∧ ((lex.NextFixed 3).1.OnlyDigits = false →
      (AsciiModel lex).err = some Error.ErrInvalidModel) := by
  unfold AsciiModel
  rw [NextFixed_ok lex 3 h]
  simp only []
  generalize mkToken _ = tok
  have hp := ParseUint_no_sep tok.WithoutSuffix 10 8
  cases h1 : tok.OnlyDigits <;> cases h2 : tok.EndsWith Separator <;> simp
  rcases hq : ParseUint tok.WithoutSuffix 10 8 with ⟨x, _ | e⟩
  · simp
  · rw [hq] at hp
    simpa using hp

theorem AsciiSwVer_sep_iff (lex : Lexer) (h : 4 ≤ (lex.input.drop lex.pos).length) :
    ((AsciiSwVer lex).err = some Error.ErrSeparator ↔
      (lex.NextFixed 4).1.OnlyDigits = true ∧ (lex.NextFixed 4).1.EndsWith Separator = false)
    ∧ ((lex.NextFixed 4).1.OnlyDigits = false →
      (AsciiSwVer lex).err = some Error.ErrInvalidSwVer) := by
  unfold AsciiSwVer
  rw [NextFixed_ok lex 4 h]
  simp only []
  generalize mkToken _ = tok
  have hp := ParseUint_no_sep tok.WithoutSuffix 10 16
  cases h1 : tok.OnlyDigits <;> cases h2 : tok.EndsWith Separator <;> simp
  rcases hq : ParseUint tok.WithoutSuffix 10 16 with ⟨x, _ | e⟩
  · simp
  · rw [hq] at hp
    simpa using hp

theorem AsciiMsgNum_sep_iff (lex : Lexer) (h : 5 ≤ (lex.input.drop lex.pos).length) :
    ((AsciiMsgNum lex).err = some Error.ErrSeparator ↔
      (lex.NextFixed 5).1.IsHex = true ∧ (lex.NextFixed 5).1.EndsWith Separator = false)
    ∧ ((lex.NextFixed 5).1.IsHex = false →
      (AsciiMsgNum lex).err = some Error.ErrInvalidMsgNum) := by
  unfold AsciiMsgNum
  rw [NextFixed_ok lex 5 h]
  simp only []
  generalize mkToken _ = tok
  have hp := ParseUint_no_sep tok.WithoutSuffix 10 16
  cases h1 : tok.IsHex <;> cases h2 : tok.EndsWith Separator <;> simp
  exact hp

theorem AsciiMode_sep_iff (me : ModeEnv) (lex : Lexer)
    (h : 2 ≤ (lex.input.drop lex.pos).length) :
    ((AsciiMode me lex).map (fun r => r.err) = some (some Error.ErrSeparator) ↔
      (lex.NextFixed 2).1.OnlyDigits = true ∧ (lex.NextFixed 2).1.EndsWith Separator = false)
    ∧ ((lex.NextFixed 2).1.OnlyDigits = false →
      (AsciiMode me lex).map (fun r => r.err) = some (some Error.ErrInvalidMode)) := by
  unfold AsciiMode
  rw [NextFixed_ok lex 2 h]
  simp only []
  generalize mkToken _ = tok
  cases h1 : tok.OnlyDigits <;> cases h2 : tok.EndsWith Separator <;> simp
  cases index0 tok.Literal with
  | none => simp
  | some b =>
    simp only []
    split_ifs <;> simp



theorem timeParse_no_sep (v : List Nat) : (timeParse v).2 ≠ some Error.ErrSeparator := by
  unfold timeParse
  cases parseTs v <;> simp

theorem AsciiTimestamp_date_sep_iff (lex : Lexer) (h : 9 ≤ (lex.input.drop lex.pos).length) :
    (((AsciiTimestamp lex).err = some Error.ErrSeparator ∧ (AsciiTimestamp lex).tokens.length = 1)
      ↔ (lex.NextFixed 9).1.OnlyDigits = true ∧ (lex.NextFixed 9).1.EndsWith Separator = false)
    ∧ ((lex.NextFixed 9).1.OnlyDigits = false →
      (AsciiTimestamp lex).err = some Error.ErrInvalidDate) := by
  unfold AsciiTimestamp
  rw [NextFixed_ok lex 9 h]
  simp only []
  generalize mkToken _ = dt
  cases h1 : dt.OnlyDigits <;> cases h2 : dt.EndsWith Separator <;> simp
  rcases Lexer.NextFixed ⟨lex.input, lex.pos + 9⟩ 9 with ⟨tt, _ | e, l2⟩
  · simp only []
    split_ifs <;> simp
  · simp

theorem AsciiTimestamp_time_sep_iff (lex : Lexer) (h : 9 ≤ (lex.input.drop lex.pos).length)
    (h1 : (lex.NextFixed 9).1.OnlyDigits = true)
    (h2 : (lex.NextFixed 9).1.EndsWith Separator = true)
    (h3 : 9 ≤ (lex.input.drop (lex.pos + 9)).length) :
    ((AsciiTimestamp lex).err = some Error.ErrSeparator ↔
      (Lexer.NextFixed ⟨lex.input, lex.pos + 9⟩ 9).1.Typ = TokenType.DataToken
      ∧ (Lexer.NextFixed ⟨lex.input, lex.pos + 9⟩ 9).1.EndsWith Separator = false)
    ∧ ((Lexer.NextFixed ⟨lex.input, lex.pos + 9⟩ 9).1.Typ ≠ TokenType.DataToken →
      (AsciiTimestamp lex).err = some Error.ErrInvalidTime) := by
  unfold AsciiTimestamp
  rw [NextFixed_ok lex 9 h] at h1 h2 ⊢
  simp only [] at h1 h2 ⊢
  rw [h1, h2]
  simp only [Bool.not_true, Bool.false_eq_true, if_false]
  rw [NextFixed_ok ⟨lex.input, lex.pos + 9⟩ 9 h3]
  simp only []
  generalize mkToken (List.take 9 (List.drop (lex.pos + 9) lex.input)) = tt
  have hp := timeParse_no_sep (List.take 9 (List.drop lex.pos lex.input) ++ tt.Literal)
  by_cases c1 : tt.Typ = TokenType.DataToken <;> cases c2 : tt.EndsWith Separator <;>
    simp [c1]
  simpa [mkToken] using hp


/-- C15: on an input with at least the declared width of bytes remaining, a
fixed-width decoder that requires a separator returns `ErrSeparator` exactly
when its token passes the shape check of the field and does not end with the
separator; when the shape check fails it returns the shape error of the field,
whatever the last byte.  For `AsciiTimestamp` this holds token by token: of the
date token when the call stops there, and of the time token once the date
token has passed both checks. -/
theorem C15_shape_before_separator (me : ModeEnv) (input : List Nat) (pos : Nat) :
    (10 ≤ (input.drop pos).length →
      ((AsciiDevID ⟨input, pos⟩).err = some Error.ErrSeparator ↔
        (Lexer.NextFixed ⟨input, pos⟩ 10).1.OnlyDigits = true
        ∧ (Lexer.NextFixed ⟨input, pos⟩ 10).1.EndsWith Separator = false)
      ∧ ((Lexer.NextFixed ⟨input, pos⟩ 10).1.OnlyDigits = false →
        (AsciiDevID ⟨input, pos⟩).err = some Error.ErrInvalidDevID))
    ∧ (3 ≤ (input.drop pos).length →
      ((AsciiModel ⟨input, pos⟩).err = some Error.ErrSeparator ↔
        (Lexer.NextFixed ⟨input, pos⟩ 3).1.OnlyDigits = true
        ∧ (Lexer.NextFixed ⟨input, pos⟩ 3).1.EndsWith Separator = false)
      ∧ ((Lexer.NextFixed ⟨input, pos⟩ 3).1.OnlyDigits = false →
        (AsciiModel ⟨input, pos⟩).err = some Error.ErrInvalidModel))
    ∧ (4 ≤ (input.drop pos).length →
      ((AsciiSwVer ⟨input, pos⟩).err = some Error.ErrSeparator ↔
        (Lexer.NextFixed ⟨input, pos⟩ 4).1.OnlyDigits = true
        ∧ (Lexer.NextFixed ⟨input, pos⟩ 4).1.EndsWith Separator = false)
      ∧ ((Lexer.NextFixed ⟨input, pos⟩ 4).1.OnlyDigits = false →
        (AsciiSwVer ⟨input, pos⟩).err = some Error.ErrInvalidSwVer))
    ∧ (2 ≤ (input.drop pos).length →
      ((AsciiMode me ⟨input, pos⟩).map (fun r => r.err) = some (some Error.ErrSeparator) ↔
        (Lexer.NextFixed ⟨input, pos⟩ 2).1.OnlyDigits = true
        ∧ (Lexer.NextFixed ⟨input, pos⟩ 2).1.EndsWith Separator = false)
      ∧ ((Lexer.NextFixed ⟨input, pos⟩ 2).1.OnlyDigits = false →
        (AsciiMode me ⟨input, pos⟩).map (fun r => r.err)
          = some (some Error.ErrInvalidMode)))
    ∧ (5 ≤ (input.drop pos).length →
      ((AsciiMsgNum ⟨input, pos⟩).err = some Error.ErrSeparator ↔
        (Lexer.NextFixed ⟨input, pos⟩ 5).1.IsHex = true
        ∧ (Lexer.NextFixed ⟨input, pos⟩ 5).1.EndsWith Separator = false)
      ∧ ((Lexer.NextFixed ⟨input, pos⟩ 5).1.IsHex = false →
        (AsciiMsgNum ⟨input, pos⟩).err = some Error.ErrInvalidMsgNum))
    ∧ (9 ≤ (input.drop pos).length →
      (((AsciiTimestamp ⟨input, pos⟩).err = some Error.ErrSeparator
          ∧ (AsciiTimestamp ⟨input, pos⟩).tokens.length = 1) ↔
        (Lexer.NextFixed ⟨input, pos⟩ 9).1.OnlyDigits = true
        ∧ (Lexer.NextFixed ⟨input, pos⟩ 9).1.EndsWith Separator = false)
      ∧ ((Lexer.NextFixed ⟨input, pos⟩ 9).1.OnlyDigits = false →
        (AsciiTimestamp ⟨input, pos⟩).err = some Error.ErrInvalidDate))
    ∧ (9 ≤ (input.drop pos).length →
      (Lexer.NextFixed ⟨input, pos⟩ 9).1.OnlyDigits = true →
      (Lexer.NextFixed ⟨input, pos⟩ 9).1.EndsWith Separator = true →
      9 ≤ (input.drop (pos + 9)).length →
      ((AsciiTimestamp ⟨input, pos⟩).err = some Error.ErrSeparator ↔
        (Lexer.NextFixed ⟨input, pos + 9⟩ 9).1.Typ = TokenType.DataToken
        ∧ (Lexer.NextFixed ⟨input, pos + 9⟩ 9).1.EndsWith Separator = false)
      ∧ ((Lexer.NextFixed ⟨input, pos + 9⟩ 9).1.Typ ≠ TokenType.DataToken →
        (AsciiTimestamp ⟨input, pos⟩).err = some Error.ErrInvalidTime)) :=
  ⟨AsciiDevID_sep_iff ⟨input, pos⟩, AsciiModel_sep_iff ⟨input, pos⟩,
    AsciiSwVer_sep_iff ⟨input, pos⟩, AsciiMode_sep_iff me ⟨input, pos⟩,
    AsciiMsgNum_sep_iff ⟨input, pos⟩, AsciiTimestamp_date_sep_iff ⟨input, pos⟩,
    AsciiTimestamp_time_sep_iff ⟨input, pos⟩⟩

/-- C15 at device ids with a bad separator, with and without a bad digit, and
at a timestamp whose time token has a bad separator. -/
theorem C15_shape_before_separator_witness :
    (AsciiDevID ⟨bytes "205951725x", 0⟩).err = some Error.ErrSeparator
    ∧ (AsciiDevID ⟨bytes "20595172ax", 0⟩).err = some Error.ErrInvalidDevID
    ∧ (AsciiTimestamp ⟨bytes "20151223;13:32:30x", 0⟩).err = some Error.ErrSeparator
    ∧ (AsciiTimestamp ⟨bytes "20151223;13323000;", 0⟩).err = some Error.ErrInvalidTime :=
  ⟨((C15_shape_before_separator sampleModes (bytes "205951725x") 0).1 (by decide)).1.2
     (by decide),
   ((C15_shape_before_separator sampleModes (bytes "20595172ax") 0).1 (by decide)).2
     (by decide),
   ((C15_shape_before_separator sampleModes (bytes "20151223;13:32:30x") 0).2.2.2.2.2.2
     (by decide) (by decide) (by decide) (by decide)).1.2 (by decide),
   ((C15_shape_before_separator sampleModes (bytes "20151223;13323000;") 0).2.2.2.2.2.2
     (by decide) (by decide) (by decide) (by decide)).2 (by decide)⟩

/-- C18: when the date token cannot be extracted or fails its digit or
separator check, `AsciiTimestamp` returns exactly that one token and the
cursor is not past the date field; otherwise it returns two tokens, the date
token and then the time token, and when the time token was extracted their
literals concatenated are the 18 bytes consumed. -/
theorem C18_timestamp_tokens (input : List Nat) (pos : Nat) :
    (((Lexer.NextFixed ⟨input, pos⟩ 9).2.1 ≠ none
        ∨ (Lexer.NextFixed ⟨input, pos⟩ 9).1.OnlyDigits = false
        ∨ (Lexer.NextFixed ⟨input, pos⟩ 9).1.EndsWith Separator = false) →
      (AsciiTimestamp ⟨input, pos⟩).tokens = [(Lexer.NextFixed ⟨input, pos⟩ 9).1]
      ∧ (AsciiTimestamp ⟨input, pos⟩).lex = (Lexer.NextFixed ⟨input, pos⟩ 9).2.2
      ∧ (AsciiTimestamp ⟨input, pos⟩).lex.pos ≤ pos + 9
      ∧ (AsciiTimestamp ⟨input, pos⟩).err ≠ none)
    ∧ ((Lexer.NextFixed ⟨input, pos⟩ 9).2.1 = none →
      (Lexer.NextFixed ⟨input, pos⟩ 9).1.OnlyDigits = true →
      (Lexer.NextFixed ⟨input, pos⟩ 9).1.EndsWith Separator = true →
      (AsciiTimestamp ⟨input, pos⟩).tokens
          = [(Lexer.NextFixed ⟨input, pos⟩ 9).1, (Lexer.NextFixed ⟨input, pos + 9⟩ 9).1]
      ∧ ((Lexer.NextFixed ⟨input, pos + 9⟩ 9).2.1 = none →
        (Lexer.NextFixed ⟨input, pos⟩ 9).1.Literal
            ++ (Lexer.NextFixed ⟨input, pos + 9⟩ 9).1.Literal
          = (input.drop pos).take 18
        ∧ ((input.drop pos).take 18).length = 18
        ∧ literals (AsciiTimestamp ⟨input, pos⟩).tokens = (input.drop pos).take 18
        ∧ (AsciiTimestamp ⟨input, pos⟩).lex.pos = pos + 18)) := by
  by_cases h9 : 9 ≤ (input.drop pos).length
  · have e9 := NextFixed_ok ⟨input, pos⟩ 9 h9
    simp only [] at e9
    constructor
    · intro hf
      unfold AsciiTimestamp
      rw [e9] at hf ⊢
      simp only [] at hf ⊢
      rcases hf with hf | hf | hf
      · exact absurd rfl hf
      · rw [hf]; simp
      · cases hd : (mkToken (List.take 9 (List.drop pos input))).OnlyDigits
        · simp
        · rw [hf]; simp
    · intro _ hd hs
      unfold AsciiTimestamp
      rw [e9] at hd hs ⊢
      simp only [] at hd hs ⊢
      rw [hd, hs]
      simp only [Bool.not_true, Bool.false_eq_true, if_false]
      by_cases h18 : 9 ≤ (input.drop (pos + 9)).length
      · have e18 := NextFixed_ok ⟨input, pos + 9⟩ 9 h18
        simp only [] at e18
        rw [e18]
        simp only []
        have hcat : List.take 9 (List.drop pos input) ++ List.take 9 (List.drop (pos + 9) input)
            = List.take 18 (List.drop pos input) := by
          rw [show 18 = 9 + 9 from rfl, List.take_add, List.drop_drop]
        have hlen : (List.take 18 (List.drop pos input)).length = 18 := by
          rw [List.length_take]
          simp only [List.length_drop] at h9 h18 ⊢
          omega
        refine ⟨by split_ifs <;> rfl, fun _ => ⟨by simpa [mkToken] using hcat, hlen, ?_, ?_⟩⟩
        · split_ifs <;> simpa [literals, mkToken] using hcat
        · split_ifs <;> rfl
      · have e18 := NextFixed_short ⟨input, pos + 9⟩ 9
          (show (input.drop (pos + 9)).length < 9 by omega)
        simp only [] at e18
        rw [e18]
        simp
  · have e9 := NextFixed_short ⟨input, pos⟩ 9 (show (input.drop pos).length < 9 by omega)
    simp only [] at e9
    constructor
    · intro _
      unfold AsciiTimestamp
      rw [e9]
      simp
    · intro h
      rw [e9] at h
      simp at h

/-- C18 at the timestamp of the emergency frame, and at a date token with a
bad digit. -/
theorem C18_timestamp_tokens_witness :
    ((AsciiTimestamp ⟨bytes "2015122x;13:32:30;", 0⟩).tokens
        = [(Lexer.NextFixed ⟨bytes "2015122x;13:32:30;", 0⟩ 9).1]
      ∧ (AsciiTimestamp ⟨bytes "2015122x;13:32:30;", 0⟩).lex
        = (Lexer.NextFixed ⟨bytes "2015122x;13:32:30;", 0⟩ 9).2.2
      ∧ (AsciiTimestamp ⟨bytes "2015122x;13:32:30;", 0⟩).lex.pos ≤ 0 + 9
      ∧ (AsciiTimestamp ⟨bytes "2015122x;13:32:30;", 0⟩).err ≠ none)
    ∧ (literals (AsciiTimestamp ⟨emgFrame, 17⟩).tokens = (emgFrame.drop 17).take 18
      ∧ (AsciiTimestamp ⟨emgFrame, 17⟩).lex.pos = 17 + 18) :=
  ⟨(C18_timestamp_tokens (bytes "2015122x;13:32:30;") 0).1 (Or.inr (Or.inl (by decide))),
   (((C18_timestamp_tokens emgFrame 17).2 (by decide) (by decide) (by decide)).2
     (by decide)).2.2⟩

/-! ### Binary-digit fields and the switches -/

theorem scanDelim_bit (k : Nat) (d : Nat) (rest : List Nat) (hd : d = 48 ∨ d = 49) :
    scanDelim Separator (k + 2) (d :: Separator :: rest) = some [d, Separator] := by
  have hne : d ≠ Separator := by
    rcases hd with e | e <;> rw [e] <;> decide
  simp [scanDelim, hne]

theorem Next_bit (input : List Nat) (pos : Nat) (max : Int) (hmax : 2 ≤ max.toNat)
    (d : Nat) (rest : List Nat) (hr : input.drop pos = d :: Separator :: rest)
    (hd : d = 48 ∨ d = 49) :
    Lexer.Next ⟨input, pos⟩ max Separator
      = (⟨TokenType.BitsToken, [d, Separator]⟩, none, ⟨input, pos + 2⟩) := by
  obtain ⟨k, hk⟩ : ∃ k, max.toNat = k + 2 := ⟨max.toNat - 2, by omega⟩
  unfold Lexer.Next Lexer.remaining
  simp only []
  rw [hr, hk, scanDelim_bit k d rest hd]
  have hc : classify [d] = TokenType.BitsToken := (classify_bits [d]).2 (by simpa using hd)
  simp [mkToken, hc]

theorem asciiFloat_bit (fe : FloatEnv) (max : Int) (se : Error) (hmax : 2 ≤ max.toNat)
    (input : List Nat) (pos : Nat) (d : Nat) (rest : List Nat)
    (hr : input.drop pos = d :: Separator :: rest) (hd : d = 48 ∨ d = 49) :
    (asciiFloat fe max se ⟨input, pos⟩).err = some se
    ∧ (asciiFloat fe max se ⟨input, pos⟩).val = fe.zero32 := by
  unfold asciiFloat
  rw [Next_bit input pos max hmax d rest hr hd]
  simp

theorem AsciiFix_bit (input : List Nat) (pos : Nat) (d : Nat) (rest : List Nat)
    (hr : input.drop pos = d :: Separator :: rest) (hd : d = 48 ∨ d = 49) :
    AsciiFix ⟨input, pos⟩
      = some ⟨decide (d = 49), ⟨TokenType.BitsToken, [d, Separator]⟩, none, ⟨input, pos + 2⟩⟩ := by
  unfold AsciiFix
  rw [Next_bit input pos 3 (by decide) d rest hr hd]
  rcases hd with e | e <;> simp [index0, e]

/-- A delimited token tagged binary-digit-shaped is `0;` or `1;` at the
cursor. -/
theorem Next_bits_shape (input : List Nat) (pos : Nat) (max : Int) (token : Token)
    (lex1 : Lexer) (h : Lexer.Next ⟨input, pos⟩ max Separator = (token, none, lex1))
    (ht : token.Typ = TokenType.BitsToken) :
    ∃ d rest, input.drop pos = d :: Separator :: rest ∧ (d = 48 ∨ d = 49)
      ∧ token.Literal = [d, Separator] := by
  unfold Lexer.Next Lexer.remaining at h
  simp only [] at h
  cases hs : scanDelim Separator max.toNat (input.drop pos) with
  | none => rw [hs] at h; simp at h
  | some lit =>
    rw [hs] at h
    simp only [Prod.mk.injEq, true_and] at h
    obtain ⟨c, r, hl, _, hrem⟩ := scanDelim_split _ _ _ _ hs
    have ht2 : classify lit.dropLast = TokenType.BitsToken := by
      rw [← h.1] at ht; exact ht
    rw [hl, List.dropLast_concat, classify_bits] at ht2
    have hlit : token.Literal = lit := by rw [← h.1]; rfl
    rcases ht2 with e | e
    · exact ⟨48, r, by rw [hrem, e]; rfl, Or.inl rfl, by rw [hlit, hl, e]; rfl⟩
    · exact ⟨49, r, by rw [hrem, e]; rfl, Or.inr rfl, by rw [hlit, hl, e]; rfl⟩



theorem Next_token_typ (lex : Lexer) (max : Int) (d : Nat) (token : Token) (lex1 : Lexer)
    (h : lex.Next max d = (token, none, lex1)) : token.Typ = classify token.WithoutSuffix := by
  unfold Lexer.Next at h
  split at h
  · simp only [Prod.mk.injEq, true_and] at h
    rw [← h.1]; rfl
  · simp at h

/-- C16: the decimal-valued decoders reject the fields `0;` and `1;` with
their shape error and the zero value, the content being tagged
binary-digit-shaped; `AsciiFix` accepts exactly these two fields, and every
other token it extracts gets `ErrInvalidFix`. -/
theorem C16_bit_fields (fe : FloatEnv) (input : List Nat) (pos : Nat) :
    (∀ d rest, input.drop pos = d :: Separator :: rest → (d = 48 ∨ d = 49) →
      ((AsciiLat fe ⟨input, pos⟩).err = some Error.ErrInvalidLat
        ∧ (AsciiLat fe ⟨input, pos⟩).val = fe.zero32)
      ∧ ((AsciiLon fe ⟨input, pos⟩).err = some Error.ErrInvalidLng
        ∧ (AsciiLon fe ⟨input, pos⟩).val = fe.zero32)
      ∧ ((AsciiSpeed fe ⟨input, pos⟩).err = some Error.ErrInvalidSpeed
        ∧ (AsciiSpeed fe ⟨input, pos⟩).val = fe.zero32)
      ∧ ((AsciiCourse fe ⟨input, pos⟩).err = some Error.ErrInvalidCourse
        ∧ (AsciiCourse fe ⟨input, pos⟩).val = fe.zero32)
      ∧ ((AsciiPowerVolt fe ⟨input, pos⟩).err = some Error.ErrInvalidPowerVolt
        ∧ (AsciiPowerVolt fe ⟨input, pos⟩).val = fe.zero32)
      ∧ ((AsciiBackupVolt fe ⟨input, pos⟩).err = some Error.ErrInvalidHMeter
        ∧ (AsciiBackupVolt fe ⟨input, pos⟩).val = fe.zero32)
      ∧ (AsciiFix ⟨input, pos⟩).map (fun r => (r.val, r.err)) = some (decide (d = 49), none))
    ∧ ((AsciiFix ⟨input, pos⟩).map (fun r => r.err) = some none ↔
      ∃ d rest, input.drop pos = d :: Separator :: rest ∧ (d = 48 ∨ d = 49))
    ∧ (∀ token lex1, Lexer.Next ⟨input, pos⟩ 3 Separator = (token, none, lex1) →
      token.WithoutSuffix ≠ [48] → token.WithoutSuffix ≠ [49] →
      (AsciiFix ⟨input, pos⟩).map (fun r => (r.val, r.err))
        = some (false, some Error.ErrInvalidFix)) := by
  refine ⟨fun d rest hr hd => ⟨?_, ?_, ?_, ?_, ?_, ?_, ?_⟩, ⟨fun h => ?_, ?_⟩, ?_⟩
  · rw [AsciiLat_eq]; exact asciiFloat_bit fe 11 _ (by decide) input pos d rest hr hd
  · rw [AsciiLon_eq]; exact asciiFloat_bit fe 12 _ (by decide) input pos d rest hr hd
  · rw [AsciiSpeed_eq]; exact asciiFloat_bit fe 8 _ (by decide) input pos d rest hr hd
  · rw [AsciiCourse_eq]; exact asciiFloat_bit fe 7 _ (by decide) input pos d rest hr hd
  · rw [AsciiPowerVolt_eq]; exact asciiFloat_bit fe 11 _ (by decide) input pos d rest hr hd
  · rw [AsciiBackupVolt_eq]; exact asciiFloat_bit fe 11 _ (by decide) input pos d rest hr hd
  · rw [AsciiFix_bit input pos d rest hr hd]; rfl
  · unfold AsciiFix at h
    rcases hx : Lexer.Next ⟨input, pos⟩ 3 Separator with ⟨token, _ | e, lex1⟩
    · rw [hx] at h
      simp only [] at h
      split_ifs at h with c
      · simp at h
      · obtain ⟨d, rest, hr, hd, _⟩ :=
          Next_bits_shape input pos 3 token lex1 hx (by simpa using c)
        exact ⟨d, rest, hr, hd⟩
    · rw [hx] at h
      simp at h
  · rintro ⟨d, rest, hr, hd⟩
    rw [AsciiFix_bit input pos d rest hr hd]; rfl
  · intro token lex1 hx h0 h1
    have ht := Next_token_typ _ _ _ _ _ hx
    have hc : token.Typ ≠ TokenType.BitsToken := by
      rw [ht, ne_eq, classify_bits]
      exact fun h => h.elim h0 h1
    unfold AsciiFix
    rw [hx]
    simp only []
    rw [if_pos hc]
    rfl

/-- C16 at the fields `0;` and `1;`, and at `00;` and `01;`. -/
theorem C16_bit_fields_witness :
    ((AsciiLat noFloat ⟨bytes "0;", 0⟩).err = some Error.ErrInvalidLat
      ∧ (AsciiLat noFloat ⟨bytes "0;", 0⟩).val = noFloat.zero32)
    ∧ (AsciiFix ⟨bytes "1;", 0⟩).map (fun r => (r.val, r.err)) = some (decide (49 = 49), none)
    ∧ (AsciiFix ⟨bytes "00;", 0⟩).map (fun r => (r.val, r.err))
        = some (false, some Error.ErrInvalidFix)
    ∧ (AsciiFix ⟨bytes "01;", 0⟩).map (fun r => (r.val, r.err))
        = some (false, some Error.ErrInvalidFix) :=
  ⟨((C16_bit_fields noFloat (bytes "0;") 0).1 48 [] (by decide) (by decide)).1,
   ((C16_bit_fields noFloat (bytes "1;") 0).1 49 [] (by decide) (by decide)).2.2.2.2.2.2,
   (C16_bit_fields noFloat (bytes "00;") 0).2.2 (mkToken (bytes "00;")) ⟨bytes "00;", 3⟩
     (by decide) (by decide) (by decide),
   (C16_bit_fields noFloat (bytes "01;") 0).2.2 (mkToken (bytes "01;")) ⟨bytes "01;", 3⟩
     (by decide) (by decide) (by decide)⟩


theorem NextFixed_len (lex : Lexer) (n : Nat) (token : Token) (lex1 : Lexer)
    (h : lex.NextFixed n = (token, none, lex1)) : token.Literal.length = n := by
  unfold Lexer.NextFixed at h
  split_ifs at h with c
  · simp only [Prod.mk.injEq, true_and] at h
    rw [← h.1]
    simp only [mkToken, List.length_take]
    exact Nat.min_eq_left c
  · simp at h

theorem NextFixed_token_typ (lex : Lexer) (n : Nat) (token : Token) (lex1 : Lexer)
    (h : lex.NextFixed n = (token, none, lex1)) : token.Typ = classify token.WithoutSuffix := by
  unfold Lexer.NextFixed at h
  split_ifs at h with c
  · simp only [Prod.mk.injEq, true_and] at h
    rw [← h.1]; rfl
  · simp at h

/-- A token tagged binary-digit-shaped with a trailing byte starts with '0' or
'1'. -/
theorem bits_first (token : Token) (ht : token.Typ = classify token.WithoutSuffix)
    (hb : token.Typ = TokenType.BitsToken) :
    2 ≤ token.Literal.length
      ∧ (index0 token.Literal = some 48 ∨ index0 token.Literal = some 49) := by
  rw [ht, classify_bits] at hb
  unfold Token.WithoutSuffix at hb
  rcases hl : token.Literal with _ | ⟨a, _ | ⟨b, t⟩⟩
  · rw [hl] at hb; simp at hb
  · rw [hl] at hb; simp at hb
  · rw [hl] at hb
    simp only [List.dropLast_cons₂] at hb
    simp only [List.length_cons, index0, List.head?_cons]
    refine ⟨by omega, ?_⟩
    rcases hb with e | e
    · left; simp only [List.cons.injEq] at e; rw [e.1]
    · right; simp only [List.cons.injEq] at e; rw [e.1]

theorem AsciiFix_switch_spec (lex : Lexer) (token : Token)
    (h : AsciiFix_switch lex = some token) :
    2 ≤ token.Literal.length
      ∧ (index0 token.Literal = some 48 ∨ index0 token.Literal = some 49) := by
  unfold AsciiFix_switch at h
  rcases hx : lex.Next 3 Separator with ⟨tok, _ | e, lex1⟩
  · rw [hx] at h
    simp only [] at h
    split_ifs at h with c
    simp only [Option.some.injEq] at h
    subst h
    exact bits_first tok (Next_token_typ _ _ _ _ _ hx) (by simpa using c)
  · rw [hx] at h
    simp at h

theorem AsciiMode_switch_spec (lex : Lexer) (token : Token)
    (h : AsciiMode_switch lex = some token) : token.Literal.length = 2 := by
  unfold AsciiMode_switch at h
  rcases hx : lex.NextFixed 2 with ⟨tok, _ | e, lex1⟩
  · rw [hx] at h
    simp only [] at h
    split_ifs at h
    simp only [Option.some.injEq] at h
    subst h
    exact NextFixed_len _ _ _ _ hx
  · rw [hx] at h
    simp at h

theorem AsciiMsgType_switch_spec (lex : Lexer) (last : Bool) (token : Token)
    (h : AsciiMsgType_switch lex last = some token) :
    token.Literal.length = 2
      ∧ (index0 token.Literal = some 48 ∨ index0 token.Literal = some 49) := by
  unfold AsciiMsgType_switch at h
  rcases hx : lex.NextFixed 2 with ⟨tok, _ | e, lex1⟩
  · rw [hx] at h
    simp only [] at h
    split_ifs at h with c
    simp only [Option.some.injEq] at h
    subst h
    exact ⟨NextFixed_len _ _ _ _ hx,
      (bits_first tok (NextFixed_token_typ _ _ _ _ hx) (by simpa using c)).2⟩
  · rw [hx] at h
    simp at h

/-- The switch of `AsciiFix` is what `AsciiFix` runs on the token of
`AsciiFix_switch`; when there is no such token `AsciiFix` has returned an
error before its switch. -/
theorem AsciiFix_reach (lex : Lexer) :
    (∀ token, AsciiFix_switch lex = some token →
      AsciiFix lex =
        match index0 token.Literal with
        | none => none
        | some b =>
          if b = 48 then some ⟨false, token, none, (lex.Next 3 Separator).2.2⟩
          else if b = 49 then some ⟨true, token, none, (lex.Next 3 Separator).2.2⟩
          else some ⟨false, token, some Error.ErrInvalidFix, (lex.Next 3 Separator).2.2⟩)
    ∧ (AsciiFix_switch lex = none → ∃ r, AsciiFix lex = some r ∧ r.err ≠ none) := by
  unfold AsciiFix_switch AsciiFix
  rcases lex.Next 3 Separator with ⟨tok, _ | e, lex1⟩
  · simp only []
    split_ifs with c
    · simp
    · refine ⟨fun token h => ?_, fun h => by simp at h⟩
      simp only [Option.some.injEq] at h
      subst h
      cases index0 tok.Literal <;> rfl
  · simp

theorem AsciiMode_reach (me : ModeEnv) (lex : Lexer) :
    (∀ token, AsciiMode_switch lex = some token →
      AsciiMode me lex =
        match index0 token.Literal with
        | none => none
        | some b =>
          if b = 49 then some ⟨me.IdleMode, token, none, (lex.NextFixed 2).2.2⟩
          else if b = 50 then some ⟨me.ActiveMode, token, none, (lex.NextFixed 2).2.2⟩
          else if b = 52 then some ⟨me.DistanceMode, token, none, (lex.NextFixed 2).2.2⟩
          else if b = 53 then some ⟨me.AngleMode, token, none, (lex.NextFixed 2).2.2⟩
          else some ⟨me.zero, token, some (Error.InvalidModeValue b), (lex.NextFixed 2).2.2⟩)
    ∧ (AsciiMode_switch lex = none → ∃ r, AsciiMode me lex = some r ∧ r.err ≠ none) := by
  unfold AsciiMode_switch AsciiMode
  rcases lex.NextFixed 2 with ⟨tok, _ | e, lex1⟩
  · simp only []
    split_ifs
    · simp
    · simp
    · refine ⟨fun token h => ?_, fun h => by simp at h⟩
      simp only [Option.some.injEq] at h
      subst h
      cases index0 tok.Literal <;> rfl
  · simp

theorem AsciiMsgType_reach (lex : Lexer) (last : Bool) :
    (∀ token, AsciiMsgType_switch lex last = some token →
      AsciiMsgType lex last =
        match index0 token.Literal with
        | none => none
        | some b =>
          if b = 48 then some ⟨false, token, none, (lex.NextFixed 2).2.2⟩
          else if b = 49 then some ⟨true, token, none, (lex.NextFixed 2).2.2⟩
          else some ⟨false, token, some (Error.InvalidMsgTypeValue b), (lex.NextFixed 2).2.2⟩)
    ∧ (AsciiMsgType_switch lex last = none →
      ∃ r, AsciiMsgType lex last = some r ∧ r.err ≠ none
        ∧ ∀ b, r.err ≠ some (Error.InvalidMsgTypeValue b)) := by
  unfold AsciiMsgType_switch AsciiMsgType
  by_cases hl : 2 ≤ (lex.input.drop lex.pos).length
  · rw [NextFixed_ok lex 2 hl]
    simp only []
    split_ifs
    · simp
    · simp
    · simp
    · refine ⟨fun token h => ?_, fun h => by simp at h⟩
      simp only [Option.some.injEq] at h
      subst h
      cases index0 (mkToken (List.take 2 (List.drop lex.pos lex.input))).Literal <;> rfl
  · rw [NextFixed_short lex 2 (by omega)]
    simp

/-- C17: `AsciiFix`, `AsciiMode` and `AsciiMsgType` never index an empty
literal: they always return, and the token their switch indexes has a content
byte before its trailing byte; in `AsciiFix` and `AsciiMsgType` that first byte
is '0' or '1', so the `default` branches of their switches are not reached:
`AsciiFix` returns `ErrInvalidFix` only from its tag check, and `AsciiMsgType`
never returns its "invalid MsgType value" error. -/
theorem C17_index_safety (me : ModeEnv) (input : List Nat) (pos : Nat) (last : Bool) :
    ((∃ r, AsciiFix ⟨input, pos⟩ = some r) ∧ (∃ r, AsciiMode me ⟨input, pos⟩ = some r)
      ∧ (∃ r, AsciiMsgType ⟨input, pos⟩ last = some r))
    ∧ (∀ token, AsciiFix_switch ⟨input, pos⟩ = some token →
      2 ≤ token.Literal.length
      ∧ (index0 token.Literal = some 48 ∨ index0 token.Literal = some 49))
    ∧ (∀ token, AsciiMode_switch ⟨input, pos⟩ = some token → 2 ≤ token.Literal.length)
    ∧ (∀ token, AsciiMsgType_switch ⟨input, pos⟩ last = some token →
      2 ≤ token.Literal.length
      ∧ (index0 token.Literal = some 48 ∨ index0 token.Literal = some 49))
    ∧ ((AsciiFix ⟨input, pos⟩).map (fun r => r.err) = some (some Error.ErrInvalidFix) →
      AsciiFix_switch ⟨input, pos⟩ = none)
    ∧ (∀ b, (AsciiMsgType ⟨input, pos⟩ last).map (fun r => r.err)
        ≠ some (some (Error.InvalidMsgTypeValue b))) := by
  refine ⟨⟨?_, ?_, ?_⟩, fun token h => AsciiFix_switch_spec _ token h,
    fun token h => (AsciiMode_switch_spec _ token h).ge, fun token h => ?_, fun h => ?_,
    fun b h => ?_⟩
  · obtain ⟨r, hr, _⟩ := AsciiFix_tok ⟨input, pos⟩; exact ⟨r, hr⟩
  · obtain ⟨r, hr, _⟩ := AsciiMode_tok me ⟨input, pos⟩; exact ⟨r, hr⟩
  · obtain ⟨r, hr, _⟩ := AsciiMsgType_tok ⟨input, pos⟩ last; exact ⟨r, hr⟩
  · obtain ⟨h1, h2⟩ := AsciiMsgType_switch_spec _ last token h
    exact ⟨h1.ge, h2⟩
  · cases hs : AsciiFix_switch ⟨input, pos⟩ with
    | none => rfl
    | some token =>
      exfalso
      obtain ⟨_, hi⟩ := AsciiFix_switch_spec _ token hs
      rw [(AsciiFix_reach ⟨input, pos⟩).1 token hs] at h
      rcases hi with e | e <;> rw [e] at h <;> simp at h
  · cases hs : AsciiMsgType_switch ⟨input, pos⟩ last with
    | none =>
      obtain ⟨r, hr, _, hb⟩ := (AsciiMsgType_reach ⟨input, pos⟩ last).2 hs
      rw [hr] at h
      simp only [Option.map_some', Option.some.injEq] at h
      exact hb b h
    | some token =>
      obtain ⟨_, hi⟩ := AsciiMsgType_switch_spec _ last token hs
      rw [(AsciiMsgType_reach ⟨input, pos⟩ last).1 token hs] at h
      rcases hi with e | e <;> rw [e] at h <;> simp at h

/-- C17 at the fields `1;`: the switches are reached with a token of two
bytes that starts with '1'. -/
theorem C17_index_safety_witness :
    (2 ≤ (mkToken (bytes "1;")).Literal.length
      ∧ (index0 (mkToken (bytes "1;")).Literal = some 48
        ∨ index0 (mkToken (bytes "1;")).Literal = some 49))
    ∧ 2 ≤ (mkToken (bytes "1;")).Literal.length
    ∧ (AsciiFix_switch ⟨bytes "x;", 0⟩ = none) :=
  ⟨(C17_index_safety sampleModes (bytes "1;") 0 false).2.1 (mkToken (bytes "1;")) (by decide),
   (C17_index_safety sampleModes (bytes "1;") 0 false).2.2.1 (mkToken (bytes "1;")) (by decide),
   (C17_index_safety sampleModes (bytes "x;") 0 false).2.2.2.2.1 (by decide)⟩

end Suntech
